import Mathlib

/-!
# image2spotify: the concurrent fetch pipeline and the delivery of images

A shallow embedding of `internal/processor/processor.go`,
`internal/processor/worker_pool.go`, `internal/spotify/downloader.go`,
`internal/spotify/utils.go`, `Client.GetTracks` of `internal/spotify/client.go`,
`internal/telegram/sender.go` and the image callback of
`internal/telegram/handlers.go`.

Conventions of the embedding:

* Go `int` is taken to be 64 bits wide. Lengths of slices and maps are natural
  numbers; they never reach `2^63`, so `int` values that hold a length are `Nat`
  or `Int` without reduction.
* Go `int32` values are integers in `[-2^31, 2^31)`; `atomic.AddInt32` and the
  conversion `int32(x)` reduce modulo `2^32` (`wrapInt32`).
* A Go `error` is `Option String`: `none` is `nil`, `some msg` an error with
  that message.
* Channel receives, timers and the context are the environment: the cases a
  `select` takes are given as a list of events, and everything the code does
  to the outside (calls of callbacks, submissions, sleeps) is recorded in a
  list of effects in program order.
-/

namespace Image2Spotify

/-! ## Data model (`internal/spotify/types.go`) -/

/-- A slice of bytes (`[]byte`); `[]` also stands for the `nil` slice. -/
abbrev Bytes := List UInt8

/-- One element of `Track.Album.Images`. -/
structure Image where
  URL : String
  Height : Int
  Width : Int
  deriving DecidableEq, Repr

/-- The anonymous struct `Track.Album`. -/
structure TrackAlbum where
  Images : List Image
  Name : String
  deriving DecidableEq, Repr

/-- The struct `spotify.Track`. -/
structure Track where
  Album : TrackAlbum
  Name : String
  Artists : List String
  ID : String
  deriving DecidableEq, Repr

/-- The struct `spotify.ImageData`. -/
structure ImageData where
  Data : Bytes
  Filename : String
  URL : String
  TrackID : String
  deriving DecidableEq, Repr

/-- The struct `processor.DownloadTask`. The field `Result` is the batch's result channel;
one run of `StreamProcessURL` has a single such channel, so it is not a field
of the model. -/
structure DownloadTask where
  URL : String
  TrackID : String
  deriving DecidableEq, Repr

/-! ## Machine integers -/

/-- The value of an `int32` after an arithmetic result `x` is stored in it:
two's complement reduction into `[-2^31, 2^31)`. -/
def wrapInt32 (x : Int) : Int :=
  (x + 2147483648) % 4294967296 - 2147483648

/-- The call `atomic.AddInt32(&v, delta)`: the new value of the counter. -/
def addInt32 (v delta : Int) : Int :=
  wrapInt32 (v + delta)

/-! ## `StreamProcessURL`: deduplication (processor.go, lines 74-87) -/

/-- The map `uniqueImages` (image URL to track ID) as the list of its entries
in insertion order. Keys are unique by construction (`recordTrack` only adds an
absent key), so `len(uniqueImages)` is the length of the list. -/
abbrev UniqueImages := List (String × String)

/-- The string `fmt.Sprintf("unknown_%d", n)`. -/
def unknownID (n : Nat) : String :=
  "unknown_" ++ toString n

/-- One iteration of the loop `for _, track := range tracks` (lines 75-87). -/
def recordTrack (uniqueImages : UniqueImages) (track : Track) : UniqueImages :=
  match track.Album.Images with
  | [] => uniqueImages
  | img :: _ =>
    let imageURL := img.URL
    let trackID := if track.ID = "" then unknownID uniqueImages.length else track.ID
    match uniqueImages.lookup imageURL with
    | some _ => uniqueImages
    | none => uniqueImages ++ [(imageURL, trackID)]

/-- The whole loop of lines 74-87, starting from the empty map. -/
def collectUniqueImages (tracks : List Track) : UniqueImages :=
  tracks.foldl recordTrack []

/-- The URL of the first album image of a track, when it has one. -/
def firstImageURL (track : Track) : Option String :=
  track.Album.Images.head?.map (fun img => img.URL)

/-- The first-album-image URLs of the tracks that have an album image, in list
order, with repetitions. -/
def firstImageURLs (tracks : List Track) : List String :=
  tracks.filterMap firstImageURL

/-! ## `StreamProcessURL`: the drain loop (processor.go, lines 119-160) -/

/-- The case taken by one execution of the `select` of lines 122-159. -/
inductive Event where
  /-- The case `result := <-resultsChan`. -/
  | result (r : ImageData)
  /-- The case `<-ticker.C`. -/
  | tick
  /-- The case `<-processCtx.Done()`. -/
  | done
  deriving DecidableEq, Repr

/-- What `StreamProcessURL` does to the outside, in program order. -/
inductive Effect where
  /-- The creation `make(chan *spotify.ImageData, total)`. -/
  | makeChan (capacity : Nat)
  /-- The call `p.workerPool.Submit(task)` and what it returned. -/
  | submit (task : DownloadTask) (accepted : Bool)
  /-- the debug log "Submitted download tasks" -/
  | logSubmitted (submitted total : Nat)
  /-- a result taken from `resultsChan` -/
  | recv (r : ImageData)
  /-- The call `imageCallback(result, int(success), total)`. -/
  | imageCallback (img : ImageData) (index total : Int)
  /-- the error log "Image callback failed" -/
  | logCallbackFailed (err : String)
  /-- The call `progressCallback(int(current), total)`. -/
  | progressCallback (current total : Int)
  /-- the debug log "Download progress" of the heartbeat -/
  | logProgress (downloaded successful total : Int)
  /-- the error log "Processing timeout" of the deadline case -/
  | logTimeout (downloaded total : Int)
  /-- The call `close(resultsChan)`. -/
  | closeChan
  deriving DecidableEq, Repr

/-- The type of `imageCallback`: it may change the caller's state `σ` and
returns an error. `none` is the `nil` callback. -/
abbrev ImageCallback (σ : Type) := Option (ImageData → Int → Int → σ → σ × Option String)

/-- The type of `progressCallback`; `none` is the `nil` callback. -/
abbrev ProgressCallback (σ : Type) := Option (Int → Int → σ → σ)

/-- The variables the drain loop updates: the counters `downloadedCount`,
`successCount` (both `int32`), `lastReported`, and the caller's state that the
callbacks act on. -/
structure LoopVars (σ : Type) where
  downloadedCount : Int
  successCount : Int
  lastReported : Int
  user : σ

/-- The body of `case result := <-resultsChan` (lines 124-139). -/
def onResult {σ : Type} (total : Nat) (imageCallback : ImageCallback σ)
    (progressCallback : ProgressCallback σ) (v : LoopVars σ) (result : ImageData) :
    LoopVars σ × List Effect :=
  let current := addInt32 v.downloadedCount 1
  let v1 : LoopVars σ := { v with downloadedCount := current }
  let (v2, fx2) : LoopVars σ × List Effect :=
    if result.Data.length > 0 then
      let success := addInt32 v1.successCount 1
      let v1s : LoopVars σ := { v1 with successCount := success }
      match imageCallback with
      | some cb =>
        match cb result success total v1s.user with
        | (u, some err) =>
          ({ v1s with user := u },
            [Effect.imageCallback result success total, Effect.logCallbackFailed err])
        | (u, none) => ({ v1s with user := u }, [Effect.imageCallback result success total])
      | none => (v1s, [])
    else (v1, [])
  match progressCallback with
  | some pcb =>
    if current.tmod 10 = 0 ∨ current = wrapInt32 total then
      ({ v2 with user := pcb current total v2.user },
        Effect.recv result :: fx2 ++ [Effect.progressCallback current total])
    else (v2, Effect.recv result :: fx2)
  | none => (v2, Effect.recv result :: fx2)

/-- The body of `case <-ticker.C` (lines 142-151). -/
def onTick {σ : Type} (total : Nat) (v : LoopVars σ) : LoopVars σ × List Effect :=
  let current := v.downloadedCount
  let success := v.successCount
  if current > v.lastReported then
    ({ v with lastReported := current }, [Effect.logProgress current success total])
  else (v, [])

/-- How the drain loop stands when the given events are used up. -/
inductive LoopStatus where
  /-- the loop condition `downloadedCount < total` became false -/
  | completed
  /-- the deadline case was taken: the function returned from inside the loop -/
  | timedOut
  /-- the loop is still inside `select`, waiting for the next event -/
  | waiting
  deriving DecidableEq, Repr

/-- The result of running the drain loop over a list of events. -/
structure LoopOutcome (σ : Type) where
  status : LoopStatus
  vars : LoopVars σ
  effects : List Effect
  /-- the events that were not consumed -/
  rest : List Event

/-- The loop `for int(atomic.LoadInt32(&downloadedCount)) < total { select ... }`
(lines 121-160), run against the cases the `select` takes. -/
def drainLoop {σ : Type} (total : Nat) (imageCallback : ImageCallback σ)
    (progressCallback : ProgressCallback σ) : List Event → LoopVars σ → LoopOutcome σ
  | [], v =>
    if v.downloadedCount < total then ⟨.waiting, v, [], []⟩ else ⟨.completed, v, [], []⟩
  | ev :: evs, v =>
    if v.downloadedCount < total then
      match ev with
      | .result r =>
        let step := onResult total imageCallback progressCallback v r
        let out := drainLoop total imageCallback progressCallback evs step.1
        { out with effects := step.2 ++ out.effects }
      | .tick =>
        let step := onTick total v
        let out := drainLoop total imageCallback progressCallback evs step.1
        { out with effects := step.2 ++ out.effects }
      | .done => ⟨.timedOut, v, [Effect.logTimeout v.downloadedCount total], evs⟩
    else ⟨.completed, v, [], ev :: evs⟩

/-! ## `StreamProcessURL` as a whole (processor.go, lines 49-175) -/

/-- Whether the function has returned, and with which error. -/
inductive Return where
  /-- still blocked in the `select` of the drain loop -/
  | blocked
  /-- returned `err` (`none` is `nil`) -/
  | returned (err : Option String)
  deriving DecidableEq, Repr

/-- One run of `StreamProcessURL`. -/
structure Run (σ : Type) where
  ret : Return
  effects : List Effect
  /-- the final values of `downloadedCount` and `successCount` -/
  downloadedCount : Int
  successCount : Int
  user : σ

/-- The task built for one entry of `uniqueImages` (lines 103-107). -/
def taskOf (entry : String × String) : DownloadTask :=
  { URL := entry.1, TrackID := entry.2 }

/-- The creation of the result channel and the submission of one task per entry
of `uniqueImages` (lines 96-113). -/
def setupEffects (uniqueImages : UniqueImages) (Submit : DownloadTask → Bool) : List Effect :=
  let total := uniqueImages.length
  let tasks := uniqueImages.map taskOf
  let submitted := (tasks.filter Submit).length
  Effect.makeChan total ::
    (tasks.map (fun task => Effect.submit task (Submit task)) ++
      [Effect.logSubmitted submitted total])

/-- The method `Processor.StreamProcessURL`. `GetTracks` is the outcome of the
catalog lookup `p.spotifyClient.GetTracks`, `Submit` what `p.workerPool.Submit`
answers for a task, `events` the cases the `select` of the drain loop takes. The
range over the map `uniqueImages` is taken in insertion order (Go leaves the
order unspecified). -/
def StreamProcessURL {σ : Type} (GetTracks : Except String (List Track))
    (Submit : DownloadTask → Bool) (imageCallback : ImageCallback σ)
    (progressCallback : ProgressCallback σ) (events : List Event) (user : σ) : Run σ :=
  match GetTracks with
  | .error err => ⟨.returned (some ("failed to get tracks: " ++ err)), [], 0, 0, user⟩
  | .ok tracks =>
    if tracks.length = 0 then ⟨.returned (some "no tracks found"), [], 0, 0, user⟩
    else
      let uniqueImages := collectUniqueImages tracks
      let total := uniqueImages.length
      if total = 0 then ⟨.returned (some "no images found"), [], 0, 0, user⟩
      else
        let setup := setupEffects uniqueImages Submit
        let out := drainLoop total imageCallback progressCallback events ⟨0, 0, 0, user⟩
        match out.status with
        | .timedOut =>
          ⟨.returned (some "processing timeout"), setup ++ out.effects,
            out.vars.downloadedCount, out.vars.successCount, out.vars.user⟩
        | .waiting =>
          ⟨.blocked, setup ++ out.effects,
            out.vars.downloadedCount, out.vars.successCount, out.vars.user⟩
        | .completed =>
          let finalSuccess := out.vars.successCount
          if finalSuccess = 0 then
            ⟨.returned (some "no images were downloaded successfully"),
              setup ++ out.effects ++ [Effect.closeChan],
              out.vars.downloadedCount, out.vars.successCount, out.vars.user⟩
          else
            ⟨.returned none, setup ++ out.effects ++ [Effect.closeChan],
              out.vars.downloadedCount, out.vars.successCount, out.vars.user⟩

/-- An effect of the setup phase or of the final close, never of the drain loop. -/
def Effect.isSetup : Effect → Bool
  | .makeChan _ => true
  | .submit _ _ => true
  | .logSubmitted _ _ => true
  | .closeChan => true
  | _ => false

/-! ## Reading the effects of a run -/

/-- The tasks passed to `Submit`, in order. -/
def submittedTasks (fx : List Effect) : List DownloadTask :=
  fx.filterMap fun
    | .submit task _ => some task
    | _ => none

/-- The results received from the channel, in order. -/
def received (fx : List Effect) : List ImageData :=
  fx.filterMap fun
    | .recv r => some r
    | _ => none

/-- The calls of `imageCallback`, in order, as (image, index, total). -/
def imageCalls (fx : List Effect) : List (ImageData × Int × Int) :=
  fx.filterMap fun
    | .imageCallback img index total => some (img, index, total)
    | _ => none

/-- The calls of `progressCallback`, in order, as (current, total). -/
def progressCalls (fx : List Effect) : List (Int × Int) :=
  fx.filterMap fun
    | .progressCallback current total => some (current, total)
    | _ => none

/-- The capacities of the channels created. -/
def channelsMade (fx : List Effect) : List Nat :=
  fx.filterMap fun
    | .makeChan capacity => some capacity
    | _ => none

/-- The results among the cases of the `select`, in order. -/
def results (evs : List Event) : List ImageData :=
  evs.filterMap fun
    | .result r => some r
    | _ => none

/-- Whether a result carries a payload: the test `len(result.Data) > 0` of
line 126. -/
def hasData (r : ImageData) : Bool :=
  decide (r.Data.length > 0)

/-- The deadline logs "Processing timeout", as (downloaded, total). -/
def timeoutLogs (fx : List Effect) : List (Int × Int) :=
  fx.filterMap fun
    | .logTimeout downloaded total => some (downloaded, total)
    | _ => none

/-! ## `Downloader.Download` (downloader.go, lines 43-76) -/

/-- What the network does with the request of one `Download` call. -/
inductive Fetch where
  /-- The call `http.NewRequestWithContext` fails. -/
  | requestError (err : String)
  /-- The call `d.httpClient.Do` fails (connection errors, the per-download timeout). -/
  | doError (err : String)
  /-- a response arrives: its status code, the bytes its body delivers, and
  whether the body then ends with a read error (`none` is a clean end) -/
  | response (StatusCode : Nat) (body : Bytes) (readErr : Option String)
  deriving DecidableEq, Repr

/-- The limit `10*1024*1024` given to `io.LimitReader`. -/
def bodyLimit : Nat := 10 * 1024 * 1024

/-- The read `io.ReadAll(io.LimitReader(resp.Body, 10*1024*1024))`: the limited reader
reports the end of the data once `bodyLimit` bytes were read, without reading
the body any further; a shorter body is read to its own end. -/
def readAllLimited (body : Bytes) (readErr : Option String) : Bytes × Option String :=
  if bodyLimit ≤ body.length then (body.take bodyLimit, none) else (body, readErr)

/-- The method `Downloader.Download`: the pair `([]byte, error)` it returns. -/
def Download (fetch : Fetch) : Bytes × Option String :=
  match fetch with
  | .requestError err => ([], some err)
  | .doError err => ([], some err)
  | .response StatusCode body readErr =>
    if StatusCode ≠ 200 then ([], some ("HTTP status " ++ toString StatusCode))
    else
      match readAllLimited body readErr with
      | (_, some err) => ([], some err)
      | (data, none) =>
        if data.length = 0 then ([], some "empty response") else (data, none)

/-! ## `WorkerPool.processTask` (worker_pool.go, lines 81-145) -/

/-- The constant `time.Second`, in nanoseconds (the unit of `time.Duration`). -/
def Second : Int := 1000000000

/-- The constant `maxRetries := 3` of `processTask`. -/
def maxRetries : Nat := 3

/-- The case taken by the `select` that publishes the result (lines 136-144). -/
inductive PublishCase where
  /-- The case `task.Result <- result`. -/
  | sent
  /-- The case `<-p.ctx.Done()`. -/
  | ctxDone
  /-- The case `<-time.After(5 * time.Second)`. -/
  | timeout
  deriving DecidableEq, Repr

/-- What `processTask` does to the outside, in program order. -/
inductive TaskEffect where
  /-- the timer `time.After(delay)` of a retry ran out: `delay` was waited -/
  | wait (delay : Int)
  /-- the pool's context was cancelled during the wait before a retry -/
  | cancelled
  /-- The call `p.downloader.Download(p.ctx, url)`. -/
  | download (url : String)
  /-- the result was sent on `task.Result` -/
  | publish (result : ImageData)
  /-- the result was dropped: the context was cancelled -/
  | discard (result : ImageData)
  /-- the result was dropped: the 5 second wait ran out -/
  | sendTimeout (result : ImageData)
  deriving DecidableEq, Repr

/-- The loop `for attempt := 0; attempt <= maxRetries; attempt++` (lines 86-120),
entered at `attempt` with `remaining = maxRetries + 1 - attempt` iterations left
and `cur` the present values of `data, err`. `fetches a` is what the network
does with the `Download` call of attempt `a`; `ctxDone a` tells whether the
pool's context is cancelled during the wait before attempt `a`. The result is
`none` when the function returned from inside the loop, and the values of
`data, err` at the end of the loop otherwise. -/
def attemptLoop (task : DownloadTask) (fetches : Nat → Fetch) (ctxDone : Nat → Bool) :
    (remaining : Nat) → (attempt : Nat) → (cur : Bytes × Option String) →
    Option (Bytes × Option String) × List TaskEffect
  | 0, _, cur => (some cur, [])
  | remaining + 1, attempt, _ =>
    if attempt > 0 ∧ ctxDone attempt = true then (none, [TaskEffect.cancelled])
    else
      let waited : List TaskEffect :=
        if attempt > 0 then [TaskEffect.wait ((attempt : Int) * 2 * Second)] else []
      let got := Download (fetches attempt)
      if got.2 = none ∧ got.1.length > 0 then
        (some got, waited ++ [TaskEffect.download task.URL])
      else
        let later := attemptLoop task fetches ctxDone remaining (attempt + 1) got
        (later.1, waited ++ TaskEffect.download task.URL :: later.2)

/-- The method `WorkerPool.processTask`. -/
def processTask (task : DownloadTask) (fetches : Nat → Fetch) (ctxDone : Nat → Bool)
    (publishCase : PublishCase) : List TaskEffect :=
  match attemptLoop task fetches ctxDone (maxRetries + 1) 0 ([], none) with
  | (none, fx) => fx
  | (some (data, _), fx) =>
    let result : ImageData :=
      { URL := task.URL, TrackID := task.TrackID, Data := data, Filename := "" }
    match publishCase with
    | .sent => fx ++ [TaskEffect.publish result]
    | .ctxDone => fx ++ [TaskEffect.discard result]
    | .timeout => fx ++ [TaskEffect.sendTimeout result]

/-- The `Download` calls made, in order. -/
def downloadCalls (fx : List TaskEffect) : List String :=
  fx.filterMap fun
    | .download url => some url
    | _ => none

/-- The delays waited before retries, in order. -/
def waits (fx : List TaskEffect) : List Int :=
  fx.filterMap fun
    | .wait delay => some delay
    | _ => none

/-- The results sent on the result channel of the task. -/
def published (fx : List TaskEffect) : List ImageData :=
  fx.filterMap fun
    | .publish result => some result
    | _ => none

/-! ## Delivery agents (`internal/telegram/sender.go`, lines 17-99) -/

/-- The value of an `int64` (and of an `int`) after an arithmetic result `x` is
stored in it. -/
def wrapInt64 (x : Int) : Int :=
  (x + 9223372036854775808) % 18446744073709551616 - 9223372036854775808

/-- The struct `BotWorker`. The field `bot` is not modelled: an agent is known
by its position in the pool. `lastSendTime` is an instant of the explicit
clock, in nanoseconds; `failures` is an `int32`. -/
structure BotWorker where
  lastSendTime : Int
  failures : Int
  deriving DecidableEq, Repr

/-- The struct `Sender`. `currentWorker` is an `int32`, `messageInterval` a
`time.Duration` in nanoseconds. -/
structure Sender where
  workerBots : List BotWorker
  currentWorker : Int
  maxFileSizeMB : Int
  messageInterval : Int
  logChannelID : Int
  deriving DecidableEq, Repr

/-- How the loop of lines 83-91 of `getNextWorker` ends. -/
inductive Scan where
  /-- The agent at position `idx` has fewer than 3 failures: `return worker`. -/
  | found (idx : Nat)
  /-- All `attempts` candidates were skipped. -/
  | exhausted
  /-- The access `s.workerBots[idx]` is out of range: the run-time panic. -/
  | outOfRange (idx : Int)
  deriving DecidableEq, Repr

/-- A run of the loop of lines 83-91: how it ends, the value of the cursor
`currentWorker` afterwards, and the indexes `idx` it computed, in order. -/
structure ScanRun where
  result : Scan
  currentWorker : Int
  examined : List Int
  deriving DecidableEq, Repr

/-- The loop `for i := 0; i < attempts; i++` of `getNextWorker` with `remaining`
iterations left. Go's `%` truncates towards zero (`Int.tmod`). -/
def scanWorkers (workerBots : List BotWorker) : (remaining : Nat) → (currentWorker : Int) → ScanRun
  | 0, currentWorker => ⟨.exhausted, currentWorker, []⟩
  | remaining + 1, currentWorker =>
    let cursor := addInt32 currentWorker 1
    let idx := cursor.tmod workerBots.length
    if idx < 0 then ⟨.outOfRange idx, cursor, [idx]⟩
    else
      match workerBots[idx.toNat]? with
      | none => ⟨.outOfRange idx, cursor, [idx]⟩
      | some worker =>
        if worker.failures < 3 then ⟨.found idx.toNat, cursor, [idx]⟩
        else
          let later := scanWorkers workerBots remaining cursor
          { later with examined := idx :: later.examined }

/-- What `getNextWorker` gives back. -/
inductive Selected where
  /-- The value `nil`: the pool is empty. -/
  | nil
  /-- The agent at position `idx` of the pool. -/
  | worker (idx : Nat)
  /-- No value: the call panicked. -/
  | panic
  deriving DecidableEq, Repr

/-- One call of `getNextWorker`: the sender afterwards, the value returned and
the indexes examined. -/
structure Selection where
  sender : Sender
  selected : Selected
  examined : List Int
  deriving DecidableEq, Repr

/-- The method `Sender.getNextWorker`. -/
def getNextWorker (s : Sender) : Selection :=
  if s.workerBots.length = 0 then ⟨s, .nil, []⟩
  else
    let attempts := s.workerBots.length * 2
    let run := scanWorkers s.workerBots attempts s.currentWorker
    match run.result with
    | .found idx => ⟨{ s with currentWorker := run.currentWorker }, .worker idx, run.examined⟩
    | .outOfRange _ => ⟨{ s with currentWorker := run.currentWorker }, .panic, run.examined⟩
    | .exhausted =>
      ⟨{ s with currentWorker := run.currentWorker,
                workerBots := s.workerBots.map (fun worker => { worker with failures := 0 }) },
        .worker 0, run.examined⟩

/-! ## Throttle hints (`sender.go`, lines 175-179 and 265-274) -/

/-- The function `strings.Index` on the characters of two strings: the position
of the first occurrence of `substr` in `s`. The pattern searched here is ASCII,
so positions in characters and in bytes cut the string at the same places. -/
def stringsIndex : (s substr : List Char) → Option Nat
  | [], substr => if substr = [] then some 0 else none
  | c :: cs, substr =>
    if substr.isPrefixOf (c :: cs) then some 0
    else (stringsIndex cs substr).map (fun i => i + 1)

/-- The function `strings.Contains`. -/
def stringsContains (s substr : String) : Bool :=
  (stringsIndex s.data substr.data).isSome

/-- The white space of package `fmt` when scanning, the line feed apart. -/
def isSpace (c : Char) : Bool :=
  c.val = 0x09 || c.val = 0x0b || c.val = 0x0c || c.val = 0x0d || c.val = 0x20 ||
  c.val = 0x85 || c.val = 0xa0 || c.val = 0x1680 || (0x2000 ≤ c.val && c.val ≤ 0x200a) ||
  c.val = 0x2028 || c.val = 0x2029 || c.val = 0x202f || c.val = 0x205f || c.val = 0x3000

/-- The method `SkipSpace` of the scanner of `fmt.Sscanf`: white space is
skipped, a line feed is an error (`none`). -/
def skipSpace : List Char → Option (List Char)
  | [] => some []
  | c :: cs =>
    if c = '\n' then none
    else if isSpace c then skipSpace cs
    else some (c :: cs)

/-- The value of a run of decimal digits, as `strconv.ParseInt` reads it. -/
def decimalValue (digits : List Char) : Nat :=
  digits.foldl (fun acc d => acc * 10 + (d.toNat - 48)) 0

/-- The call `fmt.Sscanf(substr, "%d", &seconds)` with `seconds` an `int`: the
number scanned, or `none` when `Sscanf` returns an error (a line feed or
nothing after the white space, no digit after the optional sign, or a number
that does not fit 64 bits). -/
def sscanfInt (substr : List Char) : Option Int :=
  match skipSpace substr with
  | none => none
  | some [] => none
  | some (c :: cs) =>
    let negative := decide (c = '-')
    let rest := if c = '-' ∨ c = '+' then cs else c :: cs
    let digits := rest.takeWhile Char.isDigit
    if digits = [] then none
    else
      let value : Int := if negative then -(decimalValue digits : Int) else decimalValue digits
      if value < -9223372036854775808 ∨ 9223372036854775807 < value then none
      else some value

/-- The method `Sender.parseRetryAfter`, a `time.Duration` in nanoseconds. -/
def parseRetryAfter (errMsg : String) : Int :=
  match stringsIndex errMsg.data "retry after ".data with
  | some idx =>
    let substr := errMsg.data.drop (idx + 12)
    match sscanfInt substr with
    | some seconds => wrapInt64 (seconds * Second)
    | none => 0
  | none => 0

/-- The test of lines 175 and 239: the error is a throttle error. -/
def isFloodWait (err : String) : Bool :=
  stringsContains err "429" || stringsContains err "retry after"

/-- The variable `waitTime` of lines 176-179 and 240-243 in attempt `retry`. -/
def waitTime (err : String) (retry : Nat) : Int :=
  if parseRetryAfter err = 0 then ((retry : Int) + 1) * 3 * Second else parseRetryAfter err

/-! ## `Sender.StreamImage` (`sender.go`, lines 102-263) -/

/-- The part of `tele.Photo` that `StreamImage` reads from a sent message. -/
structure Photo where
  FileID : String
  deriving DecidableEq, Repr

/-- The part of `tele.Message` that `StreamImage` reads: `Photo` may be `nil`. -/
structure Message where
  Photo : Option Photo
  deriving DecidableEq, Repr

/-- What one call of `bot.Send` returns: a message and a nil error, or an error
together with a message that may be `nil`. -/
inductive SendOutcome where
  /-- The pair `(sent, nil)`. -/
  | ok (sent : Message)
  /-- The pair `(sent, err)` with `err` not nil. -/
  | fail (err : String) (sent : Option Message)
  deriving DecidableEq, Repr

/-- The file of the photo that is sent: the raw image bytes
(`tele.FromReader(bytes.NewReader(img.Data))`) or a reference to a file stored
by the service (`tele.File{FileID: fileID}`). -/
inductive PhotoFile where
  /-- The raw bytes of the image. -/
  | fromReader (data : Bytes)
  /-- The reference `fileID`. -/
  | fileID (id : String)
  deriving DecidableEq, Repr

/-- What `StreamImage` does to the outside, in program order. -/
inductive SendEffect where
  /-- The call `time.Sleep(d)`. -/
  | sleep (d : Int)
  /-- The call `bot.Send(logChannel, photo)` of stage 1, through the agent at
  position `idx` of the pool (`some idx`) or through the primary bot (`none`). -/
  | sendLog (worker : Option Nat) (data : Bytes)
  /-- The debug log "FloodWait on log channel, switching worker" with its
  fields `retry` and `wait_time`. -/
  | logFloodWait (retry : Int) (waitTime : Int)
  /-- The call `s.primaryBot.Send(recipient, photo)` of stage 2. -/
  | sendUser (file : PhotoFile) (caption : String)
  deriving DecidableEq, Repr

/-- The state a run of `StreamImage` works on: the sender, the explicit clock
`now` (nanoseconds) and the local variable `fileID`. -/
structure DeliveryState where
  sender : Sender
  now : Int
  fileID : String
  deriving DecidableEq, Repr

/-- The clock after `time.Sleep(d)`: a duration that is not positive returns at
once. -/
def timeSleep (now d : Int) : Int :=
  if d ≤ 0 then now else now + d

/-- The rate limiting of lines 125-143 for the value `worker` returned by
`getNextWorker`: for an agent, sleep what is left of `messageInterval` since its
last send and stamp `lastSendTime`; for the primary bot, sleep `messageInterval`. -/
def rateLimit (s : Sender) (now : Int) (worker : Option Nat) : Sender × Int × List SendEffect :=
  match worker with
  | some idx =>
    match s.workerBots[idx]? with
    | some w =>
      let elapsed := now - w.lastSendTime
      if elapsed < s.messageInterval then
        let now1 := timeSleep now (s.messageInterval - elapsed)
        ({ s with workerBots := s.workerBots.set idx { w with lastSendTime := now1 } }, now1,
          [SendEffect.sleep (s.messageInterval - elapsed)])
      else ({ s with workerBots := s.workerBots.set idx { w with lastSendTime := now } }, now, [])
    | none => (s, now, [])
  | none => (s, timeSleep now s.messageInterval, [SendEffect.sleep s.messageInterval])

/-- The store `atomic.StoreInt32(&worker.failures, 0)` of line 157, guarded by
`worker != nil`. -/
def resetFailures (s : Sender) (worker : Option Nat) : Sender :=
  match worker with
  | some idx =>
    match s.workerBots[idx]? with
    | some w => { s with workerBots := s.workerBots.set idx { w with failures := 0 } }
    | none => s
  | none => s

/-- The increment `atomic.AddInt32(&worker.failures, 1)` of line 171, guarded by
`worker != nil`. -/
def countFailure (s : Sender) (worker : Option Nat) : Sender :=
  match worker with
  | some idx =>
    match s.workerBots[idx]? with
    | some w =>
      { s with workerBots := s.workerBots.set idx { w with failures := addInt32 w.failures 1 } }
    | none => s
  | none => s

/-- One iteration of a retry loop of `StreamImage`: whether it panicked, whether
it left the loop (`break` or `return`), the state and the effects. -/
structure AttemptRun where
  panicked : Bool
  stop : Bool
  st : DeliveryState
  effects : List SendEffect
  deriving DecidableEq, Repr

/-- Lines 125-193 for the value `worker` that `getNextWorker` returned, in
attempt `retry`, when `bot.Send` answers `outcome`. -/
def mirrorSend (img : ImageData) (st : DeliveryState) (worker : Option Nat) (retry : Nat)
    (outcome : SendOutcome) : AttemptRun :=
  let limited := rateLimit st.sender st.now worker
  let s1 := limited.1
  let now1 := limited.2.1
  let fx := limited.2.2 ++ [SendEffect.sendLog worker img.Data]
  match outcome with
  | .ok sent =>
    match sent.Photo with
    | some photo =>
      if photo.FileID ≠ "" then
        ⟨false, true, ⟨resetFailures s1 worker, now1, photo.FileID⟩, fx⟩
      else ⟨false, true, ⟨s1, now1, st.fileID⟩, fx⟩
    | none => ⟨false, true, ⟨s1, now1, st.fileID⟩, fx⟩
  | .fail err _ =>
    let s2 := countFailure s1 worker
    if isFloodWait err then
      ⟨false, false, ⟨s2, timeSleep now1 (1 * Second), st.fileID⟩,
        fx ++ [SendEffect.logFloodWait ((retry : Int) + 1) (waitTime err retry),
               SendEffect.sleep (1 * Second)]⟩
    else
      ⟨false, false, ⟨s2, timeSleep now1 (((retry : Int) + 1) * Second), st.fileID⟩,
        fx ++ [SendEffect.sleep (((retry : Int) + 1) * Second)]⟩

/-- One iteration of the loop of stage 1 (lines 122-193). -/
def mirrorAttempt (img : ImageData) (st : DeliveryState) (retry : Nat) (outcome : SendOutcome) :
    AttemptRun :=
  let sel := getNextWorker st.sender
  match sel.selected with
  | .panic => ⟨true, true, { st with sender := sel.sender }, []⟩
  | .nil => mirrorSend img { st with sender := sel.sender } none retry outcome
  | .worker idx => mirrorSend img { st with sender := sel.sender } (some idx) retry outcome

/-- A run of a stage: whether it panicked, the state and the effects. -/
structure StageRun where
  panicked : Bool
  st : DeliveryState
  effects : List SendEffect
  deriving DecidableEq, Repr

/-- The loop `for retry := 0; retry < maxRetries; retry++` of stage 1 (lines
121-194), entered at `retry` with `remaining` iterations left; `logSends r` is
what the send of attempt `r` answers. -/
def mirrorLoop (img : ImageData) (logSends : Nat → SendOutcome) :
    (remaining : Nat) → (retry : Nat) → DeliveryState → StageRun
  | 0, _, st => ⟨false, st, []⟩
  | remaining + 1, retry, st =>
    let attempt := mirrorAttempt img st retry (logSends retry)
    if attempt.panicked then ⟨true, attempt.st, attempt.effects⟩
    else if attempt.stop then ⟨false, attempt.st, attempt.effects⟩
    else
      let later := mirrorLoop img logSends remaining (retry + 1) attempt.st
      ⟨later.panicked, later.st, attempt.effects ++ later.effects⟩

/-- The caption of lines 214-216 and 223-225. -/
def caption (index total : Int) : String :=
  if index.tmod 10 = 1 then toString index ++ "/" ++ toString total else ""

/-- How a call ends: it returns an error value (`none` is `nil`) or panics. -/
inductive Outcome where
  /-- The call returned `err`. -/
  | returned (err : Option String)
  /-- The call panicked. -/
  | panicked
  deriving DecidableEq, Repr

/-- A run of stage 2: the value returned by `StreamImage` from it, the state
and the effects. -/
structure ForwardRun where
  err : Option String
  st : DeliveryState
  effects : List SendEffect
  deriving DecidableEq, Repr

/-- Lines 254-256: `if fileID == "" && sent != nil && sent.Photo != nil` then
`fileID = sent.Photo.FileID`. -/
def captureFileID (fileID : String) (sent : Option Message) : String :=
  if fileID = "" then
    match sent with
    | some message =>
      match message.Photo with
      | some photo => photo.FileID
      | none => fileID
    | none => fileID
  else fileID

/-- The loop of stage 2 (lines 200-262) with the `return` that follows it,
entered at `retry` with `remaining` iterations left; `userSends r` is what the
send of attempt `r` answers. -/
def forwardLoop (img : ImageData) (index total : Int) (userSends : Nat → SendOutcome) :
    (remaining : Nat) → (retry : Nat) → DeliveryState → ForwardRun
  | 0, _, st => ⟨some "failed to send image after 3 retries", st, []⟩
  | remaining + 1, retry, st =>
    let now1 := timeSleep st.now st.sender.messageInterval
    let file := if st.fileID ≠ "" then PhotoFile.fileID st.fileID else PhotoFile.fromReader img.Data
    let fx := [SendEffect.sleep st.sender.messageInterval,
               SendEffect.sendUser file (caption index total)]
    match userSends retry with
    | .ok _ => ⟨none, { st with now := now1 }, fx⟩
    | .fail err sent =>
      if isFloodWait err then
        let fileID := captureFileID st.fileID sent
        let later := forwardLoop img index total userSends remaining (retry + 1)
          ⟨st.sender, timeSleep now1 (waitTime err retry), fileID⟩
        ⟨later.err, later.st, fx ++ SendEffect.sleep (waitTime err retry) :: later.effects⟩
      else
        let later := forwardLoop img index total userSends remaining (retry + 1)
          ⟨st.sender, timeSleep now1 (((retry : Int) + 1) * Second), st.fileID⟩
        ⟨later.err, later.st,
          fx ++ SendEffect.sleep (((retry : Int) + 1) * Second) :: later.effects⟩

/-- The local `maxFileSize := int64(s.maxFileSizeMB * 1024 * 1024)`. -/
def maxFileSize (s : Sender) : Int :=
  wrapInt64 (s.maxFileSizeMB * 1024 * 1024)

/-- One run of `StreamImage`. -/
structure StreamRun where
  outcome : Outcome
  st : DeliveryState
  effects : List SendEffect
  deriving DecidableEq, Repr

/-- The method `Sender.StreamImage`, started at the instant `now` of the clock.
`logSends r` and `userSends r` are what the sends of attempt `r` of stage 1 and
of stage 2 answer. The parameters `chatID` and `username` only name the
recipient and are left out. The local `maxRetries` is 3 in both stages. -/
def StreamImage (s : Sender) (now : Int) (img : ImageData) (index total : Int)
    (logSends userSends : Nat → SendOutcome) : StreamRun :=
  if (img.Data.length : Int) > maxFileSize s then ⟨.returned none, ⟨s, now, ""⟩, []⟩
  else if img.Data.length = 0 then ⟨.returned none, ⟨s, now, ""⟩, []⟩
  else
    let stage1 : StageRun :=
      if s.logChannelID ≠ 0 then mirrorLoop img logSends 3 0 ⟨s, now, ""⟩
      else ⟨false, ⟨s, now, ""⟩, []⟩
    if stage1.panicked then ⟨.panicked, stage1.st, stage1.effects⟩
    else
      let stage2 := forwardLoop img index total userSends 3 0 stage1.st
      ⟨.returned stage2.err, stage2.st, stage1.effects ++ stage2.effects⟩

/-- The sends of stage 1, in order: the agent used (`none` is the primary bot). -/
def logSendsMade (fx : List SendEffect) : List (Option Nat) :=
  fx.filterMap fun
    | .sendLog worker _ => some worker
    | _ => none

/-- The sends of stage 2, in order: the file each one carries. -/
def userSendsMade (fx : List SendEffect) : List PhotoFile :=
  fx.filterMap fun
    | .sendUser file _ => some file
    | _ => none

/-- The durations slept, in order. -/
def sleeps (fx : List SendEffect) : List Int :=
  fx.filterMap fun
    | .sleep d => some d
    | _ => none

/-! ## `WorkerPool.worker` (worker_pool.go, lines 59-79) -/

/-- The case taken by one execution of the `select` of the worker loop, a
dequeued task coming with what the network, the context of the pool and the
result channel do while it is processed. -/
inductive WorkerEvent where
  /-- The case `<-p.ctx.Done()`. -/
  | ctxDone
  /-- The case `task, ok := <-p.tasks` with `ok` false: the queue is closed. -/
  | closed
  /-- The case `task, ok := <-p.tasks` with a task. -/
  | task (task : DownloadTask) (fetches : Nat → Fetch) (ctxDone : Nat → Bool)
      (publishCase : PublishCase)

/-- The method `WorkerPool.worker`: the effects of the tasks it processes. -/
def worker : List WorkerEvent → List TaskEffect
  | [] => []
  | .ctxDone :: _ => []
  | .closed :: _ => []
  | .task task fetches ctxDone publishCase :: events =>
    processTask task fetches ctxDone publishCase ++ worker events

/-- The tasks a worker takes from the queue. -/
def dequeued : List WorkerEvent → List DownloadTask
  | [] => []
  | .ctxDone :: _ => []
  | .closed :: _ => []
  | .task task _ _ _ :: events => task :: dequeued events

/-- The failure counters of the pool, by position. -/
def failureCounts (s : Sender) : List Int :=
  s.workerBots.map (fun worker => worker.failures)

/-- The test `err == nil` on what a send returned. -/
def succeeded : SendOutcome → Bool
  | .ok _ => true
  | .fail _ _ => false

/-- The stamps `lastSendTime` of the pool, by position. -/
def lastSendTimes (s : Sender) : List Int :=
  s.workerBots.map (fun worker => worker.lastSendTime)

/-! ## `Handlers.HandleMessage`: the image callback (`handlers.go`, lines 143-162) -/

/-- One call of the closure `imageCallback` of `HandleMessage`: how it ends, the
counter `sentCount` (an `int32`) after it, and what the call of `StreamImage`
inside it left and did. -/
structure CallbackRun where
  outcome : Outcome
  sentCount : Int
  st : DeliveryState
  effects : List SendEffect
  deriving DecidableEq, Repr

/-- The closure `imageCallback` of `HandleMessage` (lines 156-162): it calls
`h.sender.StreamImage`, adds one to `sentCount` when the error is `nil`, and
returns the error. -/
def HandleMessage.imageCallback (s : Sender) (now : Int) (sentCount : Int) (img : ImageData)
    (index total : Int) (logSends userSends : Nat → SendOutcome) : CallbackRun :=
  let run := StreamImage s now img index total logSends userSends
  match run.outcome with
  | .returned none => ⟨.returned none, addInt32 sentCount 1, run.st, run.effects⟩
  | .returned (some err) => ⟨.returned (some err), sentCount, run.st, run.effects⟩
  | .panicked => ⟨.panicked, sentCount, run.st, run.effects⟩

/-! ## `WorkerPool.Submit` and `WorkerPool.Shutdown` (worker_pool.go, lines 147-171) -/

/-- The part of the struct `WorkerPool` that `Submit` and `Shutdown` act on: the
tasks buffered in the channel `p.tasks` with its capacity (`workers*10`),
whether `close(p.tasks)` was called, and whether `p.cancel()` was called, which
closes `p.ctx.Done()`. -/
structure WorkerPool where
  queue : List DownloadTask
  capacity : Nat
  closed : Bool
  cancelled : Bool
  deriving DecidableEq, Repr

/-- The cases of the `select` of `Submit`. -/
inductive SubmitCase where
  /-- The case `p.tasks <- task`. -/
  | send
  /-- The case `<-p.ctx.Done()`. -/
  | done
  deriving DecidableEq, Repr

/-- How a call of `Submit` ends. -/
inductive SubmitResult where
  /-- The call returned `accepted`. -/
  | returned (accepted : Bool)
  /-- The call panicked with "send on closed channel". -/
  | panic
  /-- No case of the `select` can proceed: the call is blocked. -/
  | blocked
  deriving DecidableEq, Repr

/-- The method `WorkerPool.Submit`. A send can proceed when the channel has room
and also when it is closed, in which case it proceeds by panicking; the receive
from `p.ctx.Done()` can proceed when the context is cancelled. When both cases
can proceed the runtime picks one of them at random: `pick` is that choice. -/
def WorkerPool.Submit (p : WorkerPool) (task : DownloadTask) (pick : SubmitCase) :
    WorkerPool × SubmitResult :=
  let sendReady := p.closed || decide (p.queue.length < p.capacity)
  let doneReady := p.cancelled
  if sendReady && (!doneReady || pick == .send) then
    if p.closed then (p, .panic)
    else ({ p with queue := p.queue ++ [task] }, .returned true)
  else if doneReady then (p, .returned false)
  else (p, .blocked)

/-- The method `WorkerPool.Shutdown` up to `p.wg.Wait()`: `close(p.tasks)`, which
panics (`none`) on a channel that is already closed, then `p.cancel()`. -/
def WorkerPool.Shutdown (p : WorkerPool) : Option WorkerPool :=
  if p.closed then none
  else some { p with closed := true, cancelled := true }

/-! ## The result channel of a batch -/

/-- What happens on the result channel of a batch and in the drain loop that
reads it, in the order in which it happens. -/
inductive ChanEvent where
  /-- A worker's send `task.Result <- result` (worker_pool.go, line 137) is taken. -/
  | publish (result : ImageData)
  /-- The drain loop takes a case of its `select`. -/
  | loop (ev : Event)
  deriving DecidableEq, Repr

/-- The results sent on the channel, in order. -/
def publishes (trace : List ChanEvent) : List ImageData :=
  trace.filterMap fun
    | .publish result => some result
    | _ => none

/-- The cases the `select` of the drain loop takes, in order. -/
def loopEvents (trace : List ChanEvent) : List Event :=
  trace.filterMap fun
    | .loop ev => some ev
    | _ => none

/-- The buffer of the channel after the trace, from the buffer `buffer`: a send
appends to it and a receive takes its first element. The result is `none` when
the trace is not one of a channel: it receives from an empty buffer, or receives
another value than the first one buffered. A send to the receiver that waits
is a send followed by the receive. -/
def buffered : List ChanEvent → (buffer : List ImageData) → Option (List ImageData)
  | [], buffer => some buffer
  | .publish result :: trace, buffer => buffered trace (buffer ++ [result])
  | .loop (.result r) :: trace, buffer =>
    match buffer with
    | first :: others => if first = r then buffered trace others else none
    | [] => none
  | .loop _ :: trace, buffer => buffered trace buffer

/-- One task taken by a worker, with what the network, the context of the pool
and the result channel do while it is processed. -/
structure Job where
  task : DownloadTask
  fetches : Nat → Fetch
  ctxDone : Nat → Bool
  publishCase : PublishCase

/-- The results that the runs of `processTask` for the jobs send. -/
def jobResults (jobs : List Job) : List ImageData :=
  jobs.flatMap fun job => published (processTask job.task job.fetches job.ctxDone job.publishCase)

/-! ## Spotify links (`internal/spotify/utils.go`, `client.go` lines 219-250)

The two regular expressions of `utils.go` are matched by hand-written matchers
that follow the leftmost-first rule of Go's `regexp`: the leftmost position at
which the pattern matches wins, alternatives are tried in order, and a greedy
repetition takes as much as it can. -/

/-- The function `CleanURL`: the URL up to its first question mark. -/
def CleanURL (rawURL : String) : String :=
  match stringsIndex rawURL.data "?".data with
  | some idx => ⟨rawURL.data.take idx⟩
  | none => rawURL

/-- The pattern `typ/([a-zA-Z0-9]+)` matched at the start of `s`: the text of
the group. `typ` is taken literally: the values that `DetectURLType` returns are
words without metacharacters. -/
def matchIDAt (typ s : List Char) : Option (List Char) :=
  if (typ ++ ['/']).isPrefixOf s then
    let id := (s.drop (typ.length + 1)).takeWhile Char.isAlphanum
    if id = [] then none else some id
  else none

/-- The group of the leftmost match of `typ/([a-zA-Z0-9]+)` in `s`
(`re.FindStringSubmatch`), `none` when there is no match. -/
def findID (typ : List Char) : List Char → Option (List Char)
  | [] => none
  | c :: cs =>
    match matchIDAt typ (c :: cs) with
    | some id => some id
    | none => findID typ cs

/-- The function `ExtractID`. -/
def ExtractID (rawURL typ : String) : Except String String :=
  let cleanedURL := CleanURL rawURL
  match findID typ.data cleanedURL.data with
  | none => .error ("cannot extract " ++ typ ++ " ID")
  | some id => .ok ⟨id⟩

/-- The function `DetectURLType`. -/
def DetectURLType (rawURL : String) : String :=
  let cleanedURL := CleanURL rawURL
  if stringsContains cleanedURL "/track/" then "track"
  else if stringsContains cleanedURL "/album/" then "album"
  else if stringsContains cleanedURL "/playlist/" then "playlist"
  else "unknown"

/-- The part `(track|album|playlist)/[a-zA-Z0-9]+` of the pattern of
`FindSpotifyURL` matched at the start of `s`: the text matched. -/
def matchKindID (s : List Char) : Option (List Char) :=
  ["track", "album", "playlist"].findSome? fun kind =>
    if (kind.data ++ ['/']).isPrefixOf s then
      let id := (s.drop (kind.data.length + 1)).takeWhile Char.isAlphanum
      if id = [] then none else some (kind.data ++ '/' :: id)
    else none

/-- The part `://open\.spotify\.com/(track|album|playlist)/[a-zA-Z0-9]+` matched
at the start of `s`. -/
def matchHostPath (s : List Char) : Option (List Char) :=
  if "://open.spotify.com/".data.isPrefixOf s then
    (matchKindID (s.drop "://open.spotify.com/".data.length)).map
      (fun m => "://open.spotify.com/".data ++ m)
  else none

/-- The pattern `https?://open\.spotify\.com/(track|album|playlist)/[a-zA-Z0-9]+`
matched at the start of `s`: first with the optional `s` taken, then without. -/
def matchSpotifyURLAt (s : List Char) : Option (List Char) :=
  if "http".data.isPrefixOf s then
    let rest := s.drop 4
    let withS : Option (List Char) :=
      match rest with
      | 's' :: rest1 => (matchHostPath rest1).map (fun m => "https".data ++ m)
      | _ => none
    match withS with
    | some m => some m
    | none => (matchHostPath rest).map (fun m => "http".data ++ m)
  else none

/-- The leftmost match of the pattern in `s` (`re.FindString`), empty when there
is none. -/
def findSpotifyURL : List Char → List Char
  | [] => []
  | c :: cs =>
    match matchSpotifyURLAt (c :: cs) with
    | some m => m
    | none => findSpotifyURL cs

/-- The function `FindSpotifyURL`. -/
def FindSpotifyURL (text : String) : String :=
  ⟨findSpotifyURL text.data⟩

/-- The method `Client.GetTracks`; the three lookups of the catalog are
parameters. -/
def GetTracks (url : String) (GetTrack : String → Except String Track)
    (GetAlbumTracks GetPlaylistTracks : String → Except String (List Track)) :
    Except String (List Track × String × String) :=
  let urlType := DetectURLType url
  match ExtractID url urlType with
  | .error err => .error err
  | .ok sourceID =>
    if urlType = "track" then
      match GetTrack sourceID with
      | .error err => .error err
      | .ok track => .ok ([track], sourceID, urlType)
    else if urlType = "album" then
      match GetAlbumTracks sourceID with
      | .error err => .error err
      | .ok tracks => .ok (tracks, sourceID, urlType)
    else if urlType = "playlist" then
      match GetPlaylistTracks sourceID with
      | .error err => .error err
      | .ok tracks => .ok (tracks, sourceID, urlType)
    else .error "unsupported URL type"

/-! ## Sample inputs -/

/-- A track with the given ID whose album images have the given URLs. -/
def sampleTrack (id : String) (urls : List String) : Track :=
  { Album := { Images := urls.map (fun u => { URL := u, Height := 640, Width := 640 }),
               Name := "album" },
    Name := "track", Artists := [], ID := id }

/-- A result whose payload has `n` bytes. -/
def sampleImage (n : Nat) : ImageData :=
  { Data := List.replicate n 0, Filename := "", URL := "u", TrackID := "t" }

/-- A list of `n` tracks whose first album images have pairwise distinct URLs:
track `i` has the URL made of `i` letters `u`. -/
def manyTracks (n : Nat) : List Track :=
  (List.range n).map (fun i => sampleTrack "t" [String.mk (List.replicate i 'u')])

/-! # Theorems -/

/-! ## Deduplication: auxiliary facts -/

theorem lookup_eq_none_iff_not_mem_keys (m : UniqueImages) (k : String) :
    m.lookup k = none ↔ k ∉ m.map Prod.fst := by
  induction m with
  | nil => simp
  | cons e m ih =>
    obtain ⟨a, b⟩ := e
    by_cases h : k = a
    · subst h; simp [List.lookup]
    · have h2 : (k == a) = false := by simpa using h
      simp [List.lookup, h2, ih, h]

theorem recordTrack_of_no_image (m : UniqueImages) (t : Track) (h : firstImageURL t = none) :
    recordTrack m t = m := by
  unfold firstImageURL at h
  unfold recordTrack
  cases hi : t.Album.Images with
  | nil => rfl
  | cons img rest => simp [hi] at h

theorem recordTrack_of_known (m : UniqueImages) (t : Track) (u : String)
    (h : firstImageURL t = some u) (hk : u ∈ m.map Prod.fst) : recordTrack m t = m := by
  unfold firstImageURL at h
  unfold recordTrack
  cases hi : t.Album.Images with
  | nil => rfl
  | cons img rest =>
    simp [hi] at h
    subst h
    cases hl : m.lookup img.URL with
    | none => exact absurd hk ((lookup_eq_none_iff_not_mem_keys m _).1 hl)
    | some v => simp [hl]

theorem recordTrack_of_new (m : UniqueImages) (t : Track) (u : String)
    (h : firstImageURL t = some u) (hk : u ∉ m.map Prod.fst) :
    recordTrack m t = m ++ [(u, if t.ID = "" then unknownID m.length else t.ID)] := by
  unfold firstImageURL at h
  unfold recordTrack
  cases hi : t.Album.Images with
  | nil => simp [hi] at h
  | cons img rest =>
    simp [hi] at h
    subst h
    have hl := (lookup_eq_none_iff_not_mem_keys m img.URL).2 hk
    simp [hl]


/-- The keys of the map after the loop ran over `tracks` from the map `m`. -/
theorem foldl_recordTrack_keys (tracks : List Track) (m : UniqueImages)
    (hm : (m.map Prod.fst).Nodup) :
    ((tracks.foldl recordTrack m).map Prod.fst).Nodup ∧
    ∀ u, u ∈ (tracks.foldl recordTrack m).map Prod.fst ↔
      u ∈ m.map Prod.fst ∨ u ∈ firstImageURLs tracks := by
  induction tracks generalizing m with
  | nil => simp [firstImageURLs, hm]
  | cons t ts ih =>
    simp only [List.foldl_cons]
    cases hu : firstImageURL t with
    | none =>
      rw [recordTrack_of_no_image m t hu]
      have := ih m hm
      simpa [firstImageURLs, List.filterMap_cons, hu] using this
    | some u =>
      by_cases hk : u ∈ m.map Prod.fst
      · rw [recordTrack_of_known m t u hu hk]
        obtain ⟨h1, h2⟩ := ih m hm
        refine ⟨h1, fun w => ?_⟩
        rw [h2 w]
        simp only [firstImageURLs, List.filterMap_cons, hu, List.mem_cons]
        constructor
        · rintro (h | h)
          · exact Or.inl h
          · exact Or.inr (Or.inr h)
        · rintro (h | h | h)
          · exact Or.inl h
          · exact Or.inl (h ▸ hk)
          · exact Or.inr h
      · rw [recordTrack_of_new m t u hu hk]
        have hm2 : ((m ++ [(u, if t.ID = "" then unknownID m.length else t.ID)]).map
            Prod.fst).Nodup := by
          rw [List.map_append, List.nodup_append]
          refine ⟨hm, by simp, ?_⟩
          intro a ha hb
          simp at hb
          exact hk (hb ▸ ha)
        obtain ⟨h1, h2⟩ := ih _ hm2
        refine ⟨h1, fun w => ?_⟩
        rw [h2 w]
        simp only [firstImageURLs, List.filterMap_cons, hu, List.mem_cons, List.map_append,
          List.mem_append, List.map_cons, List.map_nil, List.mem_singleton]
        tauto

theorem collectUniqueImages_keys_nodup (tracks : List Track) :
    ((collectUniqueImages tracks).map Prod.fst).Nodup :=
  (foldl_recordTrack_keys tracks [] (by simp)).1

theorem mem_collectUniqueImages_keys (tracks : List Track) (u : String) :
    u ∈ (collectUniqueImages tracks).map Prod.fst ↔ u ∈ firstImageURLs tracks := by
  have := (foldl_recordTrack_keys tracks [] (by simp)).2 u
  simpa [collectUniqueImages] using this

theorem collectUniqueImages_length (tracks : List Track) :
    (collectUniqueImages tracks).length = (firstImageURLs tracks).toFinset.card := by
  have h1 := collectUniqueImages_keys_nodup tracks
  have h2 : ((collectUniqueImages tracks).map Prod.fst).toFinset = (firstImageURLs tracks).toFinset := by
    ext u
    simp only [List.mem_toFinset]
    exact mem_collectUniqueImages_keys tracks u
  rw [← h2, List.toFinset_card_of_nodup h1, List.length_map]


/-! ## The drain loop: which effects it has -/

theorem onResult_not_setup {σ : Type} (total : Nat) (icb : ImageCallback σ)
    (pcb : ProgressCallback σ) (v : LoopVars σ) (r : ImageData) :
    ∀ e ∈ (onResult total icb pcb v r).2, e.isSetup = false := by
  intro e he
  unfold onResult at he
  simp only at he
  split at he <;> split at he <;> (try split at he) <;> (try split at he) <;>
    simp_all [Effect.isSetup] <;> (try split at he) <;> aesop

theorem onTick_not_setup {σ : Type} (total : Nat) (v : LoopVars σ) :
    ∀ e ∈ (onTick total v).2, e.isSetup = false := by
  intro e he
  unfold onTick at he
  simp only at he
  split at he <;> simp_all [Effect.isSetup]

theorem drainLoop_not_setup {σ : Type} (total : Nat) (icb : ImageCallback σ)
    (pcb : ProgressCallback σ) (evs : List Event) (v : LoopVars σ) :
    ∀ e ∈ (drainLoop total icb pcb evs v).effects, e.isSetup = false := by
  induction evs generalizing v with
  | nil => intro e he; unfold drainLoop at he; split at he <;> simp at he
  | cons ev evs ih =>
    intro e he
    unfold drainLoop at he
    split at he
    · cases ev with
      | result r =>
        simp only [List.mem_append] at he
        rcases he with he | he
        · exact onResult_not_setup total icb pcb v r e he
        · exact ih _ e he
      | tick =>
        simp only [List.mem_append] at he
        rcases he with he | he
        · exact onTick_not_setup total v e he
        · exact ih _ e he
      | done => simp at he; subst he; rfl
    · simp at he

theorem submittedTasks_of_not_setup (fx : List Effect) (h : ∀ e ∈ fx, e.isSetup = false) :
    submittedTasks fx = [] := by
  unfold submittedTasks
  rw [List.filterMap_eq_nil_iff]
  intro e he
  have := h e he
  cases e <;> simp_all [Effect.isSetup]

theorem channelsMade_of_not_setup (fx : List Effect) (h : ∀ e ∈ fx, e.isSetup = false) :
    channelsMade fx = [] := by
  unfold channelsMade
  rw [List.filterMap_eq_nil_iff]
  intro e he
  have := h e he
  cases e <;> simp_all [Effect.isSetup]

/-- The effects of a run whose lookup returned tracks with at least one image:
the setup, then the drain loop, then possibly the close of the channel. -/
theorem streamProcessURL_effects {σ : Type} (tracks : List Track)
    (Submit : DownloadTask → Bool) (icb : ImageCallback σ) (pcb : ProgressCallback σ)
    (events : List Event) (user : σ) (h : (collectUniqueImages tracks).length ≠ 0) :
    ∃ tail : List Effect, (tail = [] ∨ tail = [Effect.closeChan]) ∧
      (StreamProcessURL (.ok tracks) Submit icb pcb events user).effects =
        setupEffects (collectUniqueImages tracks) Submit ++
          (drainLoop (collectUniqueImages tracks).length icb pcb events ⟨0, 0, 0, user⟩).effects
          ++ tail := by
  have ht : tracks.length ≠ 0 := by
    intro h0
    have : tracks = [] := List.length_eq_zero.1 h0
    subst this
    exact h rfl
  unfold StreamProcessURL
  simp only [ht, h, if_false]
  split
  · exact ⟨[], Or.inl rfl, by simp⟩
  · exact ⟨[], Or.inl rfl, by simp⟩
  · split
    · exact ⟨[Effect.closeChan], Or.inr rfl, by simp⟩
    · exact ⟨[Effect.closeChan], Or.inr rfl, by simp⟩

theorem submittedTasks_setupEffects (m : UniqueImages) (Submit : DownloadTask → Bool) :
    submittedTasks (setupEffects m Submit) = m.map taskOf := by
  unfold setupEffects submittedTasks
  simp only [List.filterMap_cons, List.filterMap_append, List.filterMap_nil, List.append_nil]
  induction m with
  | nil => rfl
  | cons a m ih => simp only [List.map_cons, List.filterMap_cons]; rw [ih]

theorem channelsMade_setupEffects (m : UniqueImages) (Submit : DownloadTask → Bool) :
    channelsMade (setupEffects m Submit) = [m.length] := by
  unfold setupEffects channelsMade
  simp only [List.filterMap_cons, List.filterMap_append, List.filterMap_nil, List.append_nil]
  have : ∀ l : List DownloadTask, List.filterMap (fun x : Effect =>
      match x with
      | Effect.makeChan capacity => some capacity
      | _ => none) (l.map fun task => Effect.submit task (Submit task)) = [] := by
    intro l
    induction l with
    | nil => rfl
    | cons a l ih => simp only [List.map_cons, List.filterMap_cons]; exact ih
  rw [this]

theorem submittedTasks_streamProcessURL {σ : Type} (tracks : List Track)
    (Submit : DownloadTask → Bool) (icb : ImageCallback σ) (pcb : ProgressCallback σ)
    (events : List Event) (user : σ) :
    submittedTasks (StreamProcessURL (.ok tracks) Submit icb pcb events user).effects =
      (collectUniqueImages tracks).map taskOf := by
  by_cases h : (collectUniqueImages tracks).length = 0
  · have h0 : collectUniqueImages tracks = [] := List.length_eq_zero.1 h
    unfold StreamProcessURL
    simp only [h, if_true]
    split <;> simp [submittedTasks, h0]
  · obtain ⟨tail, htail, heq⟩ := streamProcessURL_effects tracks Submit icb pcb events user h
    have hloop := submittedTasks_of_not_setup _
      (drainLoop_not_setup (collectUniqueImages tracks).length icb pcb events ⟨0, 0, 0, user⟩)
    have happ : ∀ a b : List Effect,
        submittedTasks (a ++ b) = submittedTasks a ++ submittedTasks b := by
      intro a b; simp [submittedTasks, List.filterMap_append]
    rw [heq, happ, happ, hloop, submittedTasks_setupEffects]
    rcases htail with rfl | rfl <;> simp [submittedTasks]

theorem channelsMade_streamProcessURL {σ : Type} (tracks : List Track)
    (Submit : DownloadTask → Bool) (icb : ImageCallback σ) (pcb : ProgressCallback σ)
    (events : List Event) (user : σ) :
    channelsMade (StreamProcessURL (.ok tracks) Submit icb pcb events user).effects =
      if (collectUniqueImages tracks).length = 0 then []
      else [(collectUniqueImages tracks).length] := by
  by_cases h : (collectUniqueImages tracks).length = 0
  · unfold StreamProcessURL
    simp only [h, if_true]
    split <;> simp [channelsMade]
  · obtain ⟨tail, htail, heq⟩ := streamProcessURL_effects tracks Submit icb pcb events user h
    have hloop := channelsMade_of_not_setup _
      (drainLoop_not_setup (collectUniqueImages tracks).length icb pcb events ⟨0, 0, 0, user⟩)
    have happ : ∀ a b : List Effect,
        channelsMade (a ++ b) = channelsMade a ++ channelsMade b := by
      intro a b; simp [channelsMade, List.filterMap_append]
    rw [heq, happ, happ, hloop, channelsMade_setupEffects, if_neg h]
    rcases htail with rfl | rfl <;> simp [channelsMade]

/-- C1. For every track list the catalog lookup returns, the tasks that
`StreamProcessURL` creates and passes to `Submit` are exactly one per distinct
first-album-image URL of the tracks that have an album image: each such URL is
the URL of exactly one task, no other URL is, and the number of tasks and the
capacity `total` of the result channel equal the number of distinct URLs. Two
tracks with the same image URL therefore give one task, whatever their IDs. -/
theorem streamProcessURL_one_task_per_distinct_url {σ : Type} (tracks : List Track)
    (Submit : DownloadTask → Bool) (icb : ImageCallback σ) (pcb : ProgressCallback σ)
    (events : List Event) (user : σ) :
    (∀ u : String,
      ((submittedTasks (StreamProcessURL (.ok tracks) Submit icb pcb events user).effects).map
        (fun task => task.URL)).count u = if u ∈ firstImageURLs tracks then 1 else 0) ∧
    (submittedTasks (StreamProcessURL (.ok tracks) Submit icb pcb events user).effects).length
      = (firstImageURLs tracks).toFinset.card ∧
    (collectUniqueImages tracks).length = (firstImageURLs tracks).toFinset.card ∧
    (∀ c ∈ channelsMade (StreamProcessURL (.ok tracks) Submit icb pcb events user).effects,
      c = (firstImageURLs tracks).toFinset.card) := by
  have hurls : ((collectUniqueImages tracks).map taskOf).map (fun task => task.URL) =
      (collectUniqueImages tracks).map Prod.fst := by
    rw [List.map_map]; rfl
  refine ⟨fun u => ?_, ?_, collectUniqueImages_length tracks, ?_⟩
  · rw [submittedTasks_streamProcessURL, hurls]
    by_cases hu : u ∈ firstImageURLs tracks
    · rw [if_pos hu]
      exact List.count_eq_one_of_mem (collectUniqueImages_keys_nodup tracks)
        ((mem_collectUniqueImages_keys tracks u).2 hu)
    · rw [if_neg hu]
      exact List.count_eq_zero_of_not_mem
        (fun h => hu ((mem_collectUniqueImages_keys tracks u).1 h))
  · rw [submittedTasks_streamProcessURL, List.length_map, collectUniqueImages_length]
  · intro c hc
    rw [channelsMade_streamProcessURL] at hc
    split at hc
    · simp at hc
    · simp at hc
      rw [hc, collectUniqueImages_length]

theorem foldl_recordTrack_extends (tracks : List Track) (m : UniqueImages) :
    ∃ ext : UniqueImages, tracks.foldl recordTrack m = m ++ ext := by
  induction tracks generalizing m with
  | nil => exact ⟨[], by simp⟩
  | cons t ts ih =>
    simp only [List.foldl_cons]
    have hstep : ∃ e : UniqueImages, recordTrack m t = m ++ e := by
      cases hu : firstImageURL t with
      | none => exact ⟨[], by rw [recordTrack_of_no_image m t hu]; simp⟩
      | some u =>
        by_cases hk : u ∈ m.map Prod.fst
        · exact ⟨[], by rw [recordTrack_of_known m t u hu hk]; simp⟩
        · exact ⟨_, recordTrack_of_new m t u hu hk⟩
    obtain ⟨e, he⟩ := hstep
    obtain ⟨ext, hext⟩ := ih (recordTrack m t)
    exact ⟨e ++ ext, by rw [hext, he, List.append_assoc]⟩

/-- The entry recorded for the first track that carries the image URL `u`. -/
theorem collectUniqueImages_first_wins (pre post : List Track) (t : Track) (u : String)
    (ht : firstImageURL t = some u) (hpre : u ∉ firstImageURLs pre) :
    (u, if t.ID = "" then unknownID (firstImageURLs pre).toFinset.card else t.ID) ∈
      collectUniqueImages (pre ++ t :: post) := by
  have hk : u ∉ (collectUniqueImages pre).map Prod.fst :=
    fun h => hpre ((mem_collectUniqueImages_keys pre u).1 h)
  have hstep := recordTrack_of_new (collectUniqueImages pre) t u ht hk
  rw [collectUniqueImages_length] at hstep
  obtain ⟨ext, hext⟩ := foldl_recordTrack_extends post (recordTrack (collectUniqueImages pre) t)
  have : collectUniqueImages (pre ++ t :: post) =
      post.foldl recordTrack (recordTrack (collectUniqueImages pre) t) := by
    simp [collectUniqueImages, List.foldl_append]
  rw [this, hext, hstep]
  simp

/-- C2. When `t` is the first track in list order whose first album image has
URL `u`, the task submitted for `u` carries the ID of `t`, whatever tracks with
the same URL follow; and when the ID of `t` is empty it carries `unknown_k`,
where `k` is the number of distinct image URLs recorded before `t`. -/
theorem streamProcessURL_first_track_id_wins {σ : Type} (pre post : List Track) (t : Track)
    (u : String) (Submit : DownloadTask → Bool) (icb : ImageCallback σ)
    (pcb : ProgressCallback σ) (events : List Event) (user : σ)
    (ht : firstImageURL t = some u) (hpre : u ∉ firstImageURLs pre) :
    ({ URL := u,
       TrackID := if t.ID = "" then unknownID (firstImageURLs pre).toFinset.card else t.ID }
        : DownloadTask) ∈
      submittedTasks (StreamProcessURL (.ok (pre ++ t :: post)) Submit icb pcb events user).effects
    ∧ ∀ task ∈ submittedTasks
        (StreamProcessURL (.ok (pre ++ t :: post)) Submit icb pcb events user).effects,
      task.URL = u →
        task.TrackID =
          if t.ID = "" then unknownID (firstImageURLs pre).toFinset.card else t.ID := by
  have hmem := collectUniqueImages_first_wins pre post t u ht hpre
  rw [submittedTasks_streamProcessURL]
  refine ⟨List.mem_map.2 ⟨_, hmem, rfl⟩, ?_⟩
  intro task htask hurl
  obtain ⟨e, he, rfl⟩ := List.mem_map.1 htask
  have hinj := List.inj_on_of_nodup_map (collectUniqueImages_keys_nodup (pre ++ t :: post))
  have := hinj he hmem hurl
  rw [this]
  rfl

/-- C2 at a concrete input: the second of three tracks has no ID and is the
first to carry `u2`, after one distinct URL was recorded. -/
theorem streamProcessURL_first_track_id_wins_witness :
    (firstImageURL (sampleTrack "" ["u2"]) = some "u2" ∧
      "u2" ∉ firstImageURLs [sampleTrack "a" ["u1"]]) ∧
    (({ URL := "u2", TrackID := "unknown_1" } : DownloadTask) ∈
      submittedTasks (StreamProcessURL
        (.ok ([sampleTrack "a" ["u1"]] ++ sampleTrack "" ["u2"] :: [sampleTrack "c" ["u2"]]))
        (fun _ => true) (none : ImageCallback Unit) none [] ()).effects
    ∧ ∀ task ∈ submittedTasks (StreamProcessURL
        (.ok ([sampleTrack "a" ["u1"]] ++ sampleTrack "" ["u2"] :: [sampleTrack "c" ["u2"]]))
        (fun _ => true) (none : ImageCallback Unit) none [] ()).effects,
      task.URL = "u2" → task.TrackID = "unknown_1") :=
  ⟨⟨by decide, by decide⟩,
    streamProcessURL_first_track_id_wins [sampleTrack "a" ["u1"]] [sampleTrack "c" ["u2"]]
      (sampleTrack "" ["u2"]) "u2" (fun _ => true) none none [] () (by decide) (by decide)⟩

theorem collectUniqueImages_of_no_images (tracks : List Track)
    (h : ∀ t ∈ tracks, t.Album.Images = []) : collectUniqueImages tracks = [] := by
  have hurls : firstImageURLs tracks = [] := by
    unfold firstImageURLs
    rw [List.filterMap_eq_nil_iff]
    intro t ht
    simp [firstImageURL, h t ht]
  apply List.length_eq_zero.1
  rw [collectUniqueImages_length, hurls]
  rfl

/-- C7. When no track returned by the catalog lookup has an album image,
`StreamProcessURL` returns without any effect (no result channel is created, no
task is submitted, no callback is invoked and the state of the caller is
untouched): with the error "no images found" when there is at least one track,
and with the error "no tracks found" when there is none. -/
theorem streamProcessURL_fails_fast_without_images {σ : Type} (tracks : List Track)
    (Submit : DownloadTask → Bool) (icb : ImageCallback σ) (pcb : ProgressCallback σ)
    (events : List Event) (user : σ) (h : ∀ t ∈ tracks, t.Album.Images = []) :
    (StreamProcessURL (.ok tracks) Submit icb pcb events user).ret =
      Return.returned (some (if tracks.length = 0 then "no tracks found" else "no images found")) ∧
    (StreamProcessURL (.ok tracks) Submit icb pcb events user).effects = [] ∧
    (StreamProcessURL (.ok tracks) Submit icb pcb events user).user = user := by
  have h0 := collectUniqueImages_of_no_images tracks h
  unfold StreamProcessURL
  simp only [h0, List.length_nil, if_true]
  split <;> simp

/-- C7 at concrete inputs: one track without images, two results already waiting
and both callbacks present. -/
theorem streamProcessURL_fails_fast_without_images_witness :
    (∀ t ∈ [sampleTrack "a" []], t.Album.Images = []) ∧
    (StreamProcessURL (.ok [sampleTrack "a" []]) (fun _ => true)
        (some fun _ index _ (s : List Int) => (index :: s, none))
        (some fun current _ s => current :: s)
        [Event.result (sampleImage 1), Event.result (sampleImage 2)] []).ret =
      Return.returned (some "no images found") ∧
    (StreamProcessURL (.ok [sampleTrack "a" []]) (fun _ => true)
        (some fun _ index _ (s : List Int) => (index :: s, none))
        (some fun current _ s => current :: s)
        [Event.result (sampleImage 1), Event.result (sampleImage 2)] []).effects = [] ∧
    (StreamProcessURL (.ok [sampleTrack "a" []]) (fun _ => true)
        (some fun _ index _ (s : List Int) => (index :: s, none))
        (some fun current _ s => current :: s)
        [Event.result (sampleImage 1), Event.result (sampleImage 2)] []).user = [] :=
  ⟨by decide,
    streamProcessURL_fails_fast_without_images [sampleTrack "a" []] (fun _ => true)
      (some fun _ index _ (s : List Int) => (index :: s, none))
      (some fun current _ s => current :: s)
      [Event.result (sampleImage 1), Event.result (sampleImage 2)] [] (by decide)⟩

/-! ## The drain loop: one step -/

theorem addInt32_one_of_lt (d : Int) (h0 : 0 ≤ d) (h : d < 2147483647) : addInt32 d 1 = d + 1 := by
  unfold addInt32 wrapInt32
  omega

theorem wrapInt32_of_range (x : Int) (h0 : -2147483648 ≤ x) (h : x < 2147483648) :
    wrapInt32 x = x := by
  unfold wrapInt32
  omega

theorem wrapInt32_range (x : Int) : -2147483648 ≤ wrapInt32 x ∧ wrapInt32 x < 2147483648 := by
  unfold wrapInt32
  omega

theorem onResult_downloadedCount {σ : Type} (total : Nat) (icb : ImageCallback σ)
    (pcb : ProgressCallback σ) (v : LoopVars σ) (r : ImageData) :
    (onResult total icb pcb v r).1.downloadedCount = addInt32 v.downloadedCount 1 := by
  unfold onResult
  rcases icb with _ | cb <;> rcases pcb with _ | p <;> simp only <;>
    repeat (first | rfl | split)

theorem onResult_successCount {σ : Type} (total : Nat) (icb : ImageCallback σ)
    (pcb : ProgressCallback σ) (v : LoopVars σ) (r : ImageData) :
    (onResult total icb pcb v r).1.successCount =
      if hasData r then addInt32 v.successCount 1 else v.successCount := by
  unfold onResult hasData
  by_cases h : r.Data.length > 0 <;>
  rcases icb with _ | cb <;> rcases pcb with _ | p <;> simp only [h, if_true, if_false, decide_True, decide_False] <;>
    repeat (first | rfl | split)

theorem onResult_lastReported {σ : Type} (total : Nat) (icb : ImageCallback σ)
    (pcb : ProgressCallback σ) (v : LoopVars σ) (r : ImageData) :
    (onResult total icb pcb v r).1.lastReported = v.lastReported := by
  unfold onResult
  rcases icb with _ | cb <;> rcases pcb with _ | p <;> simp only <;>
    repeat (first | rfl | split)

theorem onResult_received {σ : Type} (total : Nat) (icb : ImageCallback σ)
    (pcb : ProgressCallback σ) (v : LoopVars σ) (r : ImageData) :
    received (onResult total icb pcb v r).2 = [r] := by
  unfold onResult received
  rcases icb with _ | cb <;> rcases pcb with _ | p <;> simp only <;>
    repeat (first | rfl | split)

theorem onResult_timeoutLogs {σ : Type} (total : Nat) (icb : ImageCallback σ)
    (pcb : ProgressCallback σ) (v : LoopVars σ) (r : ImageData) :
    timeoutLogs (onResult total icb pcb v r).2 = [] := by
  unfold onResult timeoutLogs
  rcases icb with _ | cb <;> rcases pcb with _ | p <;> simp only <;>
    repeat (first | rfl | split)

theorem onResult_imageCalls {σ : Type} (total : Nat) (cb : ImageData → Int → Int → σ → σ × Option String)
    (pcb : ProgressCallback σ) (v : LoopVars σ) (r : ImageData) :
    imageCalls (onResult total (some cb) pcb v r).2 =
      if hasData r then [(r, addInt32 v.successCount 1, (total : Int))] else [] := by
  unfold onResult imageCalls hasData
  by_cases h : r.Data.length > 0 <;>
  rcases pcb with _ | p <;> simp only [h, if_true, if_false, decide_True, decide_False] <;>
    repeat (first | rfl | split)

theorem onResult_imageCalls_none {σ : Type} (total : Nat)
    (pcb : ProgressCallback σ) (v : LoopVars σ) (r : ImageData) :
    imageCalls (onResult total none pcb v r).2 = [] := by
  unfold onResult imageCalls
  rcases pcb with _ | p <;> simp only <;>
    repeat (first | rfl | split)

theorem onResult_progressCalls {σ : Type} (total : Nat) (icb : ImageCallback σ)
    (p : Int → Int → σ → σ) (v : LoopVars σ) (r : ImageData) :
    progressCalls (onResult total icb (some p) v r).2 =
      if (addInt32 v.downloadedCount 1).tmod 10 = 0 ∨
          addInt32 v.downloadedCount 1 = wrapInt32 total then
        [(addInt32 v.downloadedCount 1, (total : Int))] else [] := by
  unfold onResult progressCalls
  by_cases h : (addInt32 v.downloadedCount 1).tmod 10 = 0 ∨
          addInt32 v.downloadedCount 1 = wrapInt32 total <;>
  rcases icb with _ | cb <;> simp only [h, if_true, if_false] <;>
    repeat (first | rfl | split | simp [List.filterMap_append])

theorem onResult_progressCalls_none {σ : Type} (total : Nat) (icb : ImageCallback σ)
    (v : LoopVars σ) (r : ImageData) :
    progressCalls (onResult total icb none v r).2 = [] := by
  unfold onResult progressCalls
  rcases icb with _ | cb <;> simp only <;>
    repeat (first | rfl | split)

theorem onTick_counters {σ : Type} (total : Nat) (v : LoopVars σ) :
    (onTick total v).1.downloadedCount = v.downloadedCount ∧
    (onTick total v).1.successCount = v.successCount ∧
    (onTick total v).1.user = v.user := by
  unfold onTick
  simp only
  split <;> simp

theorem onTick_effects {σ : Type} (total : Nat) (v : LoopVars σ) :
    received (onTick total v).2 = [] ∧ imageCalls (onTick total v).2 = [] ∧
    progressCalls (onTick total v).2 = [] ∧ timeoutLogs (onTick total v).2 = [] := by
  unfold onTick
  simp only
  split <;> simp [received, imageCalls, progressCalls, timeoutLogs]

/-! ## The drain loop: unfolding -/

theorem drainLoop_of_not_lt {σ : Type} (total : Nat) (icb : ImageCallback σ)
    (pcb : ProgressCallback σ) (evs : List Event) (v : LoopVars σ)
    (h : ¬ v.downloadedCount < total) :
    drainLoop total icb pcb evs v = ⟨.completed, v, [], evs⟩ := by
  cases evs <;> simp [drainLoop, h]

theorem drainLoop_nil_of_lt {σ : Type} (total : Nat) (icb : ImageCallback σ)
    (pcb : ProgressCallback σ) (v : LoopVars σ) (h : v.downloadedCount < total) :
    drainLoop total icb pcb [] v = ⟨.waiting, v, [], []⟩ := by
  simp [drainLoop, h]

theorem drainLoop_result_of_lt {σ : Type} (total : Nat) (icb : ImageCallback σ)
    (pcb : ProgressCallback σ) (r : ImageData) (evs : List Event) (v : LoopVars σ)
    (h : v.downloadedCount < total) :
    drainLoop total icb pcb (Event.result r :: evs) v =
      { drainLoop total icb pcb evs (onResult total icb pcb v r).1 with
        effects := (onResult total icb pcb v r).2 ++
          (drainLoop total icb pcb evs (onResult total icb pcb v r).1).effects } := by
  simp [drainLoop, h]

theorem drainLoop_tick_of_lt {σ : Type} (total : Nat) (icb : ImageCallback σ)
    (pcb : ProgressCallback σ) (evs : List Event) (v : LoopVars σ)
    (h : v.downloadedCount < total) :
    drainLoop total icb pcb (Event.tick :: evs) v =
      { drainLoop total icb pcb evs (onTick total v).1 with
        effects := (onTick total v).2 ++
          (drainLoop total icb pcb evs (onTick total v).1).effects } := by
  simp [drainLoop, h]

theorem drainLoop_done_of_lt {σ : Type} (total : Nat) (icb : ImageCallback σ)
    (pcb : ProgressCallback σ) (evs : List Event) (v : LoopVars σ)
    (h : v.downloadedCount < total) :
    drainLoop total icb pcb (Event.done :: evs) v =
      ⟨.timedOut, v, [Effect.logTimeout v.downloadedCount total], evs⟩ := by
  simp [drainLoop, h]

theorem received_append (a b : List Effect) : received (a ++ b) = received a ++ received b := by
  simp [received, List.filterMap_append]

theorem imageCalls_append (a b : List Effect) :
    imageCalls (a ++ b) = imageCalls a ++ imageCalls b := by
  simp [imageCalls, List.filterMap_append]

theorem progressCalls_append (a b : List Effect) :
    progressCalls (a ++ b) = progressCalls a ++ progressCalls b := by
  simp [progressCalls, List.filterMap_append]

theorem timeoutLogs_append (a b : List Effect) :
    timeoutLogs (a ++ b) = timeoutLogs a ++ timeoutLogs b := by
  simp [timeoutLogs, List.filterMap_append]

/-- The progress test of line 137 on a counter that has not wrapped. -/
theorem progress_test_of_lt (total c : Nat) (hN : total < 2147483648) (hc : c < 2147483648) :
    (((c : Int).tmod 10 = 0 ∨ (c : Int) = wrapInt32 total) ↔ (c % 10 = 0 ∨ c = total)) := by
  rw [wrapInt32_of_range (total : Int) (by omega) (by omega),
    Int.tmod_eq_emod (by omega) (by norm_num)]
  omega

/-! ## The drain loop while the counters stay below `2^31` -/

/-- From counters `d` and `s` that have not wrapped, the loop adds one to
`downloadedCount` per received result and one to `successCount` per received
result with a payload, never passes `total`, and completes exactly when
`downloadedCount` reaches `total`. -/
theorem drainLoop_counts {σ : Type} (total : Nat) (hN : total < 2147483648)
    (icb : ImageCallback σ) (pcb : ProgressCallback σ) (evs : List Event) :
    ∀ (v : LoopVars σ) (d s : Nat), v.downloadedCount = d → v.successCount = s → s ≤ d →
      d ≤ total →
      (drainLoop total icb pcb evs v).vars.downloadedCount =
        ((d + (received (drainLoop total icb pcb evs v).effects).length : Nat) : Int) ∧
      d + (received (drainLoop total icb pcb evs v).effects).length ≤ total ∧
      (drainLoop total icb pcb evs v).vars.successCount =
        ((s + ((received (drainLoop total icb pcb evs v).effects).filter hasData).length : Nat)
          : Int) ∧
      ((drainLoop total icb pcb evs v).status = .completed ↔
        d + (received (drainLoop total icb pcb evs v).effects).length = total) := by
  induction evs with
  | nil =>
    intro v d s hd hs hsd hdt
    by_cases h : v.downloadedCount < total
    · rw [drainLoop_nil_of_lt total icb pcb v h]
      simp [received, hd, hs, hdt]
      omega
    · rw [drainLoop_of_not_lt total icb pcb [] v h]
      simp [received, hd, hs, hdt]
      omega
  | cons ev evs ih =>
    intro v d s hd hs hsd hdt
    by_cases h : v.downloadedCount < total
    · cases ev with
      | result r =>
        rw [drainLoop_result_of_lt total icb pcb r evs v h]
        simp only [received_append, onResult_received]
        have hd1 : (onResult total icb pcb v r).1.downloadedCount = ((d + 1 : Nat) : Int) := by
          rw [onResult_downloadedCount, addInt32_one_of_lt _ (by omega) (by omega), hd]
          push_cast; ring
        have hs1 : (onResult total icb pcb v r).1.successCount =
            ((s + (if hasData r then 1 else 0) : Nat) : Int) := by
          rw [onResult_successCount]
          split
          · rw [addInt32_one_of_lt _ (by omega) (by omega), hs]; push_cast; ring
          · rw [hs]; simp
        have hlt : d < total := by omega
        obtain ⟨i1, i2, i3, i4⟩ := ih (onResult total icb pcb v r).1 (d + 1)
          (s + (if hasData r then 1 else 0)) hd1 hs1 (by split <;> omega) (by omega)
        refine ⟨?_, ?_, ?_, ?_⟩
        · rw [i1]; simp only [List.singleton_append, List.length_cons]; push_cast; ring
        · simp only [List.singleton_append, List.length_cons]; omega
        · rw [i3]
          simp only [List.singleton_append, List.filter_cons]
          split
          · simp; ring
          · simp
        · rw [i4]; simp only [List.singleton_append, List.length_cons]; omega
      | tick =>
        rw [drainLoop_tick_of_lt total icb pcb evs v h]
        simp only [received_append, (onTick_effects total v).1, List.nil_append]
        exact ih (onTick total v).1 d s (by rw [(onTick_counters total v).1, hd])
          (by rw [(onTick_counters total v).2.1, hs]) hsd hdt
      | done =>
        rw [drainLoop_done_of_lt total icb pcb evs v h]
        simp [received, hd, hs]
        omega
    · rw [drainLoop_of_not_lt total icb pcb (ev :: evs) v h]
      simp [received, hd, hs, hdt]
      omega


/-- The calls of `imageCallback` made by the loop started with `s` successes:
one per received result with a payload, in order, indexed from `s + 1`. -/
theorem drainLoop_imageCalls {σ : Type} (total : Nat) (hN : total < 2147483648)
    (cb : ImageData → Int → Int → σ → σ × Option String) (pcb : ProgressCallback σ)
    (evs : List Event) :
    ∀ (v : LoopVars σ) (d s : Nat), v.downloadedCount = d → v.successCount = s → s ≤ d →
      d ≤ total →
      imageCalls (drainLoop total (some cb) pcb evs v).effects =
        (((received (drainLoop total (some cb) pcb evs v).effects).filter hasData).enumFrom
          (s + 1)).map (fun p => (p.2, (p.1 : Int), (total : Int))) := by
  induction evs with
  | nil =>
    intro v d s hd hs hsd hdt
    by_cases h : v.downloadedCount < total
    · rw [drainLoop_nil_of_lt total _ pcb v h]; simp [received, imageCalls]
    · rw [drainLoop_of_not_lt total _ pcb [] v h]; simp [received, imageCalls]
  | cons ev evs ih =>
    intro v d s hd hs hsd hdt
    by_cases h : v.downloadedCount < total
    · cases ev with
      | result r =>
        rw [drainLoop_result_of_lt total _ pcb r evs v h]
        simp only [received_append, onResult_received, imageCalls_append, onResult_imageCalls]
        have hd1 : (onResult total (some cb) pcb v r).1.downloadedCount = ((d + 1 : Nat) : Int) := by
          rw [onResult_downloadedCount, addInt32_one_of_lt _ (by omega) (by omega), hd]
          push_cast; ring
        have hs1 : (onResult total (some cb) pcb v r).1.successCount =
            ((s + (if hasData r then 1 else 0) : Nat) : Int) := by
          rw [onResult_successCount]
          split
          · rw [addInt32_one_of_lt _ (by omega) (by omega), hs]; push_cast; ring
          · rw [hs]; simp
        have hlt : d < total := by omega
        rw [ih (onResult total (some cb) pcb v r).1 (d + 1)
          (s + (if hasData r then 1 else 0)) hd1 hs1 (by split <;> omega) (by omega)]
        by_cases hr : hasData r = true
        · have hadd : addInt32 v.successCount 1 = ((s + 1 : Nat) : Int) := by
            rw [addInt32_one_of_lt _ (by omega) (by omega), hs]; push_cast; ring
          simp [hr, List.enumFrom_cons, hadd]
        · simp [hr]
      | tick =>
        rw [drainLoop_tick_of_lt total _ pcb evs v h]
        simp only [received_append, imageCalls_append, (onTick_effects total v).1,
          (onTick_effects total v).2.1, List.nil_append]
        exact ih (onTick total v).1 d s (by rw [(onTick_counters total v).1, hd])
          (by rw [(onTick_counters total v).2.1, hs]) hsd hdt
      | done =>
        rw [drainLoop_done_of_lt total _ pcb evs v h]
        simp [received, imageCalls]
    · rw [drainLoop_of_not_lt total _ pcb (ev :: evs) v h]
      simp [received, imageCalls]

/-- Without an `imageCallback` the loop makes no such call. -/
theorem drainLoop_imageCalls_none {σ : Type} (total : Nat) (pcb : ProgressCallback σ)
    (evs : List Event) (v : LoopVars σ) :
    imageCalls (drainLoop total none pcb evs v).effects = [] := by
  induction evs generalizing v with
  | nil => unfold drainLoop; split <;> rfl
  | cons ev evs ih =>
    by_cases h : v.downloadedCount < total
    · cases ev with
      | result r =>
        rw [drainLoop_result_of_lt total _ pcb r evs v h]
        simp only [imageCalls_append, onResult_imageCalls_none, ih, List.append_nil]
      | tick =>
        rw [drainLoop_tick_of_lt total _ pcb evs v h]
        simp only [imageCalls_append, (onTick_effects total v).2.1, ih, List.append_nil]
      | done => rw [drainLoop_done_of_lt total _ pcb evs v h]; rfl
    · rw [drainLoop_of_not_lt total _ pcb (ev :: evs) v h]; rfl

/-- The calls of `progressCallback` made by the loop started at the count `d`:
one for each count reached that is a multiple of 10 or equals `total`. -/
theorem drainLoop_progressCalls {σ : Type} (total : Nat) (hN : total < 2147483648)
    (icb : ImageCallback σ) (p : Int → Int → σ → σ) (evs : List Event) :
    ∀ (v : LoopVars σ) (d : Nat), v.downloadedCount = d → d ≤ total →
      progressCalls (drainLoop total icb (some p) evs v).effects =
        ((List.range' (d + 1) (received (drainLoop total icb (some p) evs v).effects).length).filter
          (fun c => decide (c % 10 = 0 ∨ c = total))).map
          (fun (c : Nat) => ((c : Int), (total : Int))) := by
  induction evs with
  | nil =>
    intro v d hd hdt
    by_cases h : v.downloadedCount < total
    · rw [drainLoop_nil_of_lt total icb _ v h]; simp [received, progressCalls]
    · rw [drainLoop_of_not_lt total icb _ [] v h]; simp [received, progressCalls]
  | cons ev evs ih =>
    intro v d hd hdt
    by_cases h : v.downloadedCount < total
    · cases ev with
      | result r =>
        rw [drainLoop_result_of_lt total icb _ r evs v h]
        simp only [received_append, onResult_received, progressCalls_append,
          onResult_progressCalls]
        have hadd : addInt32 v.downloadedCount 1 = ((d + 1 : Nat) : Int) := by
          rw [addInt32_one_of_lt _ (by omega) (by omega), hd]; push_cast; ring
        have hd1 : (onResult total icb (some p) v r).1.downloadedCount = ((d + 1 : Nat) : Int) := by
          rw [onResult_downloadedCount, hadd]
        rw [ih (onResult total icb (some p) v r).1 (d + 1) hd1 (by omega), hadd]
        have htest := progress_test_of_lt total (d + 1) hN (by omega)
        simp only [List.singleton_append, List.length_cons, List.range'_succ, List.filter_cons]
        by_cases hc : ((d + 1) % 10 = 0 ∨ d + 1 = total)
        · rw [if_pos (htest.2 hc)]
          simp [hc]
        · rw [if_neg (fun hh => hc (htest.1 hh))]
          simp [hc]
      | tick =>
        rw [drainLoop_tick_of_lt total icb _ evs v h]
        simp only [received_append, progressCalls_append, (onTick_effects total v).1,
          (onTick_effects total v).2.2.1, List.nil_append]
        exact ih (onTick total v).1 d (by rw [(onTick_counters total v).1, hd]) hdt
      | done =>
        rw [drainLoop_done_of_lt total icb _ evs v h]
        simp [received, progressCalls]
    · rw [drainLoop_of_not_lt total icb _ (ev :: evs) v h]
      simp [received, progressCalls]

/-! ## The drain loop: which events it consumes -/

theorem results_append (a b : List Event) : results (a ++ b) = results a ++ results b := by
  simp [results, List.filterMap_append]

/-- The loop consumes a prefix of the events; the results it receives are the
results of that prefix. -/
theorem drainLoop_consumed {σ : Type} (total : Nat) (icb : ImageCallback σ)
    (pcb : ProgressCallback σ) (evs : List Event) (v : LoopVars σ) :
    ∃ consumed : List Event, evs = consumed ++ (drainLoop total icb pcb evs v).rest ∧
      received (drainLoop total icb pcb evs v).effects = results consumed := by
  induction evs generalizing v with
  | nil =>
    refine ⟨[], ?_, ?_⟩
    · unfold drainLoop; split <;> rfl
    · unfold drainLoop; split <;> rfl
  | cons ev evs ih =>
    by_cases h : v.downloadedCount < total
    · cases ev with
      | result r =>
        obtain ⟨c, hc1, hc2⟩ := ih (onResult total icb pcb v r).1
        refine ⟨Event.result r :: c, ?_, ?_⟩
        · rw [drainLoop_result_of_lt total icb pcb r evs v h]
          simp only [List.cons_append]
          exact congrArg _ hc1
        · rw [drainLoop_result_of_lt total icb pcb r evs v h]
          simp only [received_append, onResult_received, hc2]
          simp [results]
      | tick =>
        obtain ⟨c, hc1, hc2⟩ := ih (onTick total v).1
        refine ⟨Event.tick :: c, ?_, ?_⟩
        · rw [drainLoop_tick_of_lt total icb pcb evs v h]
          simp only [List.cons_append]
          exact congrArg _ hc1
        · rw [drainLoop_tick_of_lt total icb pcb evs v h]
          simp only [received_append, (onTick_effects total v).1, hc2]
          simp [results]
      | done =>
        refine ⟨[Event.done], ?_, ?_⟩
        · rw [drainLoop_done_of_lt total icb pcb evs v h]; rfl
        · rw [drainLoop_done_of_lt total icb pcb evs v h]; rfl
    · refine ⟨[], ?_, ?_⟩
      · rw [drainLoop_of_not_lt total icb pcb (ev :: evs) v h]; rfl
      · rw [drainLoop_of_not_lt total icb pcb (ev :: evs) v h]; rfl

/-- The loop stops waiting only with all events consumed, and it stops in any
state other than `completed` only while `downloadedCount < total`. -/
theorem drainLoop_status {σ : Type} (total : Nat) (icb : ImageCallback σ)
    (pcb : ProgressCallback σ) (evs : List Event) (v : LoopVars σ) :
    ((drainLoop total icb pcb evs v).status = .waiting →
      (drainLoop total icb pcb evs v).rest = []) ∧
    ((drainLoop total icb pcb evs v).status ≠ .completed →
      (drainLoop total icb pcb evs v).vars.downloadedCount < total) ∧
    ((drainLoop total icb pcb evs v).status = .completed →
      ¬ (drainLoop total icb pcb evs v).vars.downloadedCount < total) ∧
    timeoutLogs (drainLoop total icb pcb evs v).effects =
      (if (drainLoop total icb pcb evs v).status = .timedOut then
        [((drainLoop total icb pcb evs v).vars.downloadedCount, (total : Int))] else []) ∧
    (Event.done ∉ evs → (drainLoop total icb pcb evs v).status ≠ .timedOut) := by
  induction evs generalizing v with
  | nil =>
    by_cases h : v.downloadedCount < total
    · rw [drainLoop_nil_of_lt total icb pcb v h]; simp [timeoutLogs, h]
    · rw [drainLoop_of_not_lt total icb pcb [] v h]; simp [timeoutLogs, h]
  | cons ev evs ih =>
    by_cases h : v.downloadedCount < total
    · cases ev with
      | result r =>
        rw [drainLoop_result_of_lt total icb pcb r evs v h]
        obtain ⟨i1, i2, i3, i4, i5⟩ := ih (onResult total icb pcb v r).1
        simp only [timeoutLogs_append, onResult_timeoutLogs, List.nil_append]
        refine ⟨i1, i2, i3, i4, fun hd => i5 (fun hm => hd (List.mem_cons_of_mem _ hm))⟩
      | tick =>
        rw [drainLoop_tick_of_lt total icb pcb evs v h]
        obtain ⟨i1, i2, i3, i4, i5⟩ := ih (onTick total v).1
        simp only [timeoutLogs_append, (onTick_effects total v).2.2.2, List.nil_append]
        refine ⟨i1, i2, i3, i4, fun hd => i5 (fun hm => hd (List.mem_cons_of_mem _ hm))⟩
      | done =>
        rw [drainLoop_done_of_lt total icb pcb evs v h]
        simp [timeoutLogs, h]
    · rw [drainLoop_of_not_lt total icb pcb (ev :: evs) v h]; simp [timeoutLogs, h]

/-- When the loop completes after having been entered, the last event it
consumed is a result: it exits right after a receive. -/
theorem drainLoop_exit_after_result {σ : Type} (total : Nat) (icb : ImageCallback σ)
    (pcb : ProgressCallback σ) (evs : List Event) (v : LoopVars σ)
    (hlt : v.downloadedCount < total)
    (hc : (drainLoop total icb pcb evs v).status = .completed) :
    ∃ (pre : List Event) (r : ImageData),
      evs = pre ++ Event.result r :: (drainLoop total icb pcb evs v).rest ∧
      received (drainLoop total icb pcb evs v).effects = results pre ++ [r] := by
  induction evs generalizing v with
  | nil => rw [drainLoop_nil_of_lt total icb pcb v hlt] at hc; cases hc
  | cons ev evs ih =>
    cases ev with
    | result r =>
      rw [drainLoop_result_of_lt total icb pcb r evs v hlt] at hc ⊢
      simp only at hc ⊢
      by_cases h1 : (onResult total icb pcb v r).1.downloadedCount < total
      · obtain ⟨pre, r2, hp1, hp2⟩ := ih (onResult total icb pcb v r).1 h1 hc
        refine ⟨Event.result r :: pre, r2, ?_, ?_⟩
        · simp only [List.cons_append]; exact congrArg _ hp1
        · simp only [received_append, onResult_received, hp2]
          simp [results]
      · refine ⟨[], r, ?_, ?_⟩
        · rw [drainLoop_of_not_lt total icb pcb evs _ h1]; rfl
        · rw [drainLoop_of_not_lt total icb pcb evs _ h1]
          simp only [received_append, onResult_received]
          simp [results, received]
    | tick =>
      rw [drainLoop_tick_of_lt total icb pcb evs v hlt] at hc ⊢
      simp only at hc ⊢
      have h1 : (onTick total v).1.downloadedCount < total := by
        rw [(onTick_counters total v).1]; exact hlt
      obtain ⟨pre, r2, hp1, hp2⟩ := ih (onTick total v).1 h1 hc
      refine ⟨Event.tick :: pre, r2, ?_, ?_⟩
      · simp only [List.cons_append]; exact congrArg _ hp1
      · simp only [received_append, (onTick_effects total v).1, hp2]
        simp [results]
    | done => rw [drainLoop_done_of_lt total icb pcb evs v hlt] at hc; cases hc

theorem loopStatus_eq_waiting (st : LoopStatus) (h1 : st ≠ .completed) (h2 : st ≠ .timedOut) :
    st = .waiting := by
  cases st <;> simp_all

theorem results_nil : results [] = [] := rfl

/-- C3 (amended). For every total `N` with `1 ≤ N ≤ 2^31 - 1` and every
sequence of result and heartbeat events without the deadline, the drain loop
completes exactly when the sequence holds at least `N` results; it then has
received exactly `N` results and the last event it consumed is the `N`-th
result (everything after it is left unconsumed); otherwise it is still waiting
with all events consumed. In both cases `downloadedCount` equals the number of
results received, which is the number of results in the sequence capped at `N`:
one more per received result, unchanged by heartbeat ticks. -/
theorem drainLoop_exits_after_nth_result {σ : Type} (N : Nat) (icb : ImageCallback σ)
    (pcb : ProgressCallback σ) (evs : List Event) (user : σ)
    (h1 : 1 ≤ N) (hN : N < 2147483648) (hdl : Event.done ∉ evs) :
    ((drainLoop N icb pcb evs ⟨0, 0, 0, user⟩).status = .completed ↔
      N ≤ (results evs).length) ∧
    ((drainLoop N icb pcb evs ⟨0, 0, 0, user⟩).status = .completed →
      (received (drainLoop N icb pcb evs ⟨0, 0, 0, user⟩).effects).length = N ∧
      ∃ (pre : List Event) (r : ImageData),
        evs = pre ++ Event.result r :: (drainLoop N icb pcb evs ⟨0, 0, 0, user⟩).rest ∧
        (results pre).length + 1 = N) ∧
    ((drainLoop N icb pcb evs ⟨0, 0, 0, user⟩).status ≠ .completed →
      (drainLoop N icb pcb evs ⟨0, 0, 0, user⟩).status = .waiting ∧
      (drainLoop N icb pcb evs ⟨0, 0, 0, user⟩).rest = []) ∧
    (drainLoop N icb pcb evs ⟨0, 0, 0, user⟩).vars.downloadedCount =
      ((received (drainLoop N icb pcb evs ⟨0, 0, 0, user⟩).effects).length : Int) ∧
    (received (drainLoop N icb pcb evs ⟨0, 0, 0, user⟩).effects).length =
      min N (results evs).length := by
  obtain ⟨k1, k2, _, k4⟩ := drainLoop_counts N hN icb pcb evs ⟨0, 0, 0, user⟩ 0 0 rfl rfl
    (le_refl 0) (Nat.zero_le N)
  obtain ⟨s1, _, _, _, s5⟩ := drainLoop_status N icb pcb evs ⟨0, 0, 0, user⟩
  obtain ⟨consumed, c1, c2⟩ := drainLoop_consumed N icb pcb evs ⟨0, 0, 0, user⟩
  simp only [Nat.zero_add] at k1 k2 k4
  have hlen : (results evs).length = (received (drainLoop N icb pcb evs ⟨0, 0, 0, user⟩).effects).length
      + (results (drainLoop N icb pcb evs ⟨0, 0, 0, user⟩).rest).length := by
    conv_lhs => rw [c1]
    rw [results_append, List.length_append, c2]
  have hwait : (drainLoop N icb pcb evs ⟨0, 0, 0, user⟩).status ≠ .completed →
      (drainLoop N icb pcb evs ⟨0, 0, 0, user⟩).status = .waiting ∧
      (drainLoop N icb pcb evs ⟨0, 0, 0, user⟩).rest = [] := by
    intro hne
    have hw : (drainLoop N icb pcb evs ⟨0, 0, 0, user⟩).status = .waiting :=
      loopStatus_eq_waiting _ hne (s5 hdl)
    exact ⟨hw, s1 hw⟩
  have hiff : (drainLoop N icb pcb evs ⟨0, 0, 0, user⟩).status = .completed ↔
      N ≤ (results evs).length := by
    constructor
    · intro hc
      have := k4.1 hc
      omega
    · intro hle
      by_contra hne
      have hr := (hwait hne).2
      rw [hr] at hlen
      simp only [results_nil, List.length_nil, Nat.add_zero] at hlen
      have : (received (drainLoop N icb pcb evs ⟨0, 0, 0, user⟩).effects).length ≠ N :=
        fun h => hne (k4.2 h)
      omega
  refine ⟨hiff, ?_, hwait, k1, ?_⟩
  · intro hc
    refine ⟨k4.1 hc, ?_⟩
    obtain ⟨pre, r, e1, e2⟩ := drainLoop_exit_after_result N icb pcb evs ⟨0, 0, 0, user⟩
      (by simp only; exact_mod_cast h1) hc
    refine ⟨pre, r, e1, ?_⟩
    have := k4.1 hc
    rw [e2, List.length_append] at this
    simpa using this
  · by_cases hc : (drainLoop N icb pcb evs ⟨0, 0, 0, user⟩).status = .completed
    · have := k4.1 hc
      have := hiff.1 hc
      omega
    · have hr := (hwait hc).2
      rw [hr] at hlen
      simp only [results_nil, List.length_nil, Nat.add_zero] at hlen
      rw [hlen]
      omega

/-- C3 at a concrete input: `N = 2`, a tick, two results, a tick and a third
result; the loop exits after the second result and leaves the rest. -/
theorem drainLoop_exits_after_nth_result_witness :
    (1 ≤ 2 ∧ 2 < 2147483648 ∧
      Event.done ∉ [Event.tick, Event.result (sampleImage 1), Event.result (sampleImage 0),
        Event.tick, Event.result (sampleImage 3)]) ∧
    (drainLoop 2 (none : ImageCallback Unit) none
      [Event.tick, Event.result (sampleImage 1), Event.result (sampleImage 0),
        Event.tick, Event.result (sampleImage 3)] ⟨0, 0, 0, ()⟩).rest =
      [Event.tick, Event.result (sampleImage 3)] ∧
    (received (drainLoop 2 (none : ImageCallback Unit) none
      [Event.tick, Event.result (sampleImage 1), Event.result (sampleImage 0),
        Event.tick, Event.result (sampleImage 3)] ⟨0, 0, 0, ()⟩).effects).length =
      min 2 (results [Event.tick, Event.result (sampleImage 1), Event.result (sampleImage 0),
        Event.tick, Event.result (sampleImage 3)]).length :=
  ⟨⟨by decide, by decide, by decide⟩, by decide,
    (drainLoop_exits_after_nth_result 2 (none : ImageCallback Unit) none
      [Event.tick, Event.result (sampleImage 1), Event.result (sampleImage 0),
        Event.tick, Event.result (sampleImage 3)] () (by decide) (by decide) (by decide)).2.2.2.2⟩

/-! ## The drain loop when `total` does not fit the `int32` counters -/

/-- The counter `downloadedCount` stays an `int32`. -/
theorem drainLoop_downloadedCount_range {σ : Type} (total : Nat) (icb : ImageCallback σ)
    (pcb : ProgressCallback σ) (evs : List Event) (v : LoopVars σ)
    (hv : v.downloadedCount < 2147483648) :
    (drainLoop total icb pcb evs v).vars.downloadedCount < 2147483648 := by
  induction evs generalizing v with
  | nil => unfold drainLoop; split <;> exact hv
  | cons ev evs ih =>
    by_cases h : v.downloadedCount < total
    · cases ev with
      | result r =>
        rw [drainLoop_result_of_lt total icb pcb r evs v h]
        apply ih
        rw [onResult_downloadedCount]
        exact (wrapInt32_range _).2
      | tick =>
        rw [drainLoop_tick_of_lt total icb pcb evs v h]
        apply ih
        rw [(onTick_counters total v).1]
        exact hv
      | done => rw [drainLoop_done_of_lt total icb pcb evs v h]; exact hv
    · rw [drainLoop_of_not_lt total icb pcb (ev :: evs) v h]; exact hv

/-- With `total ≥ 2^31` the loop condition never becomes false: without a
deadline the loop consumes every event and goes on waiting. -/
theorem drainLoop_waits_of_large_total {σ : Type} (total : Nat) (ht : 2147483648 ≤ total)
    (icb : ImageCallback σ) (pcb : ProgressCallback σ) (evs : List Event) (v : LoopVars σ)
    (hv : v.downloadedCount < 2147483648) (hdl : Event.done ∉ evs) :
    (drainLoop total icb pcb evs v).status = .waiting ∧
    received (drainLoop total icb pcb evs v).effects = results evs := by
  obtain ⟨s1, _, s3, _, s5⟩ := drainLoop_status total icb pcb evs v
  have hr := drainLoop_downloadedCount_range total icb pcb evs v hv
  have hnc : (drainLoop total icb pcb evs v).status ≠ .completed := by
    intro hc
    apply s3 hc
    have : (2147483648 : Int) ≤ (total : Int) := by exact_mod_cast ht
    omega
  have hw := loopStatus_eq_waiting _ hnc (s5 hdl)
  refine ⟨hw, ?_⟩
  obtain ⟨consumed, c1, c2⟩ := drainLoop_consumed total icb pcb evs v
  rw [s1 hw, List.append_nil] at c1
  rw [c2, ← c1]

theorem results_replicate (n : Nat) (r : ImageData) :
    results (List.replicate n (Event.result r)) = List.replicate n r := by
  induction n with
  | zero => rfl
  | succ n ih =>
    rw [List.replicate_succ, List.replicate_succ]
    show r :: results (List.replicate n (Event.result r)) = _
    rw [ih]

theorem done_not_mem_replicate (n : Nat) (r : ImageData) :
    Event.done ∉ List.replicate n (Event.result r) := by
  intro h
  have := List.eq_of_mem_replicate h
  cases this

/-- C3, counterexample. With `N = 2^31` and a sequence of `2^31` results (no
deadline, no tick) the loop does not exit after the `N`-th result: it has
received all `N` of them and is still waiting. -/
theorem drainLoop_exits_after_nth_result_fails_at_2pow31 :
    Event.done ∉ List.replicate 2147483648 (Event.result (sampleImage 1)) ∧
    (results (List.replicate 2147483648 (Event.result (sampleImage 1)))).length = 2147483648 ∧
    (received (drainLoop 2147483648 (none : ImageCallback Unit) none
      (List.replicate 2147483648 (Event.result (sampleImage 1)))
      ⟨0, 0, 0, ()⟩).effects).length = 2147483648 ∧
    (drainLoop 2147483648 (none : ImageCallback Unit) none
      (List.replicate 2147483648 (Event.result (sampleImage 1)))
      ⟨0, 0, 0, ()⟩).status = .waiting := by
  have h := drainLoop_waits_of_large_total 2147483648 (le_refl _) (none : ImageCallback Unit) none
    (List.replicate 2147483648 (Event.result (sampleImage 1))) ⟨0, 0, 0, ()⟩
    (by show (0 : Int) < 2147483648; omega) (done_not_mem_replicate _ _)
  refine ⟨done_not_mem_replicate _ _, ?_, ?_, h.1⟩
  · rw [results_replicate, List.length_replicate]
  · rw [h.2, results_replicate, List.length_replicate]

/-! ## `StreamProcessURL` in terms of its drain loop -/

theorem setupEffects_isSetup (m : UniqueImages) (Submit : DownloadTask → Bool) :
    ∀ e ∈ setupEffects m Submit, e.isSetup = true := by
  intro e he
  unfold setupEffects at he
  simp only [List.mem_cons, List.mem_append, List.mem_map, List.not_mem_nil, or_false] at he
  rcases he with rfl | ⟨t, _, rfl⟩ | rfl <;> rfl

theorem loop_projections_of_isSetup (fx : List Effect) (h : ∀ e ∈ fx, e.isSetup = true) :
    received fx = [] ∧ imageCalls fx = [] ∧ progressCalls fx = [] ∧ timeoutLogs fx = [] := by
  unfold received imageCalls progressCalls timeoutLogs
  simp only [List.filterMap_eq_nil_iff]
  refine ⟨?_, ?_, ?_, ?_⟩ <;>
  · intro e he
    have := h e he
    cases e <;> simp_all [Effect.isSetup]

/-- The return value, the counters and the loop effects of a run with at least
one image are those of its drain loop. -/
theorem streamProcessURL_run {σ : Type} (tracks : List Track)
    (Submit : DownloadTask → Bool) (icb : ImageCallback σ) (pcb : ProgressCallback σ)
    (events : List Event) (user : σ) (N : Nat) (hlen : (collectUniqueImages tracks).length = N)
    (h : N ≠ 0) :
    (StreamProcessURL (.ok tracks) Submit icb pcb events user).ret =
      (match (drainLoop N icb pcb events ⟨0, 0, 0, user⟩).status with
        | .timedOut => Return.returned (some "processing timeout")
        | .waiting => Return.blocked
        | .completed =>
          if (drainLoop N icb pcb events ⟨0, 0, 0, user⟩).vars.successCount = 0 then
            Return.returned (some "no images were downloaded successfully")
          else Return.returned none) ∧
    (StreamProcessURL (.ok tracks) Submit icb pcb events user).downloadedCount =
      (drainLoop N icb pcb events ⟨0, 0, 0, user⟩).vars.downloadedCount ∧
    (StreamProcessURL (.ok tracks) Submit icb pcb events user).successCount =
      (drainLoop N icb pcb events ⟨0, 0, 0, user⟩).vars.successCount ∧
    received (StreamProcessURL (.ok tracks) Submit icb pcb events user).effects =
      received (drainLoop N icb pcb events ⟨0, 0, 0, user⟩).effects ∧
    imageCalls (StreamProcessURL (.ok tracks) Submit icb pcb events user).effects =
      imageCalls (drainLoop N icb pcb events ⟨0, 0, 0, user⟩).effects ∧
    progressCalls (StreamProcessURL (.ok tracks) Submit icb pcb events user).effects =
      progressCalls (drainLoop N icb pcb events ⟨0, 0, 0, user⟩).effects ∧
    timeoutLogs (StreamProcessURL (.ok tracks) Submit icb pcb events user).effects =
      timeoutLogs (drainLoop N icb pcb events ⟨0, 0, 0, user⟩).effects := by
  subst hlen
  obtain ⟨tail, htail, heq⟩ := streamProcessURL_effects tracks Submit icb pcb events user h
  obtain ⟨p1, p2, p3, p4⟩ := loop_projections_of_isSetup _
    (setupEffects_isSetup (collectUniqueImages tracks) Submit)
  have htl : received tail = [] ∧ imageCalls tail = [] ∧ progressCalls tail = [] ∧
      timeoutLogs tail = [] := by
    rcases htail with rfl | rfl <;> exact ⟨rfl, rfl, rfl, rfl⟩
  have ht : tracks.length ≠ 0 := by
    intro h0
    have : tracks = [] := List.length_eq_zero.1 h0
    subst this
    exact h rfl
  refine ⟨?_, ?_, ?_, ?_, ?_, ?_, ?_⟩
  · unfold StreamProcessURL
    simp only [ht, h, if_false]
    cases (drainLoop (collectUniqueImages tracks).length icb pcb events ⟨0, 0, 0, user⟩).status
    · simp only
      split <;> rfl
    · rfl
    · rfl
  · unfold StreamProcessURL
    simp only [ht, h, if_false]
    split <;> try rfl
    split <;> rfl
  · unfold StreamProcessURL
    simp only [ht, h, if_false]
    split <;> try rfl
    split <;> rfl
  · rw [heq, received_append, received_append, p1, htl.1]; simp
  · rw [heq, imageCalls_append, imageCalls_append, p2, htl.2.1]; simp
  · rw [heq, progressCalls_append, progressCalls_append, p3, htl.2.2.1]; simp
  · rw [heq, timeoutLogs_append, timeoutLogs_append, p4, htl.2.2.2]; simp

theorem hasData_eq_true_iff (r : ImageData) : hasData r = true ↔ r.Data ≠ [] := by
  unfold hasData
  simp [List.length_pos]

theorem filter_hasData_length_eq_zero_iff (rs : List ImageData) :
    (rs.filter hasData).length = 0 ↔ ∀ r ∈ rs, r.Data = [] := by
  rw [List.length_eq_zero, List.filter_eq_nil_iff]
  constructor
  · intro h r hr
    by_contra hne
    exact h r hr ((hasData_eq_true_iff r).2 hne)
  · intro h r hr hd
    exact (hasData_eq_true_iff r).1 hd (h r hr)

/-- C4 (amended). For every batch of `N` unique keys with `1 ≤ N ≤ 2^31 - 1`:
`StreamProcessURL` returns nil exactly when `N` results were received and at
least one had a non-empty payload; it returns "no images were downloaded
successfully" exactly when `N` results were received and every payload was
empty, and `imageCallback` was then never invoked; it returns "processing
timeout" exactly when the deadline case was taken, and `downloadedCount` was
then below `N`. -/
theorem streamProcessURL_return_value {σ : Type} (tracks : List Track)
    (Submit : DownloadTask → Bool) (icb : ImageCallback σ) (pcb : ProgressCallback σ)
    (events : List Event) (user : σ) (N : Nat) (hlen : (collectUniqueImages tracks).length = N)
    (h1 : 1 ≤ N) (hN : N < 2147483648) :
    ((StreamProcessURL (.ok tracks) Submit icb pcb events user).ret = Return.returned none ↔
      (received (StreamProcessURL (.ok tracks) Submit icb pcb events user).effects).length = N ∧
      ∃ r ∈ received (StreamProcessURL (.ok tracks) Submit icb pcb events user).effects,
        r.Data ≠ []) ∧
    ((StreamProcessURL (.ok tracks) Submit icb pcb events user).ret =
        Return.returned (some "no images were downloaded successfully") ↔
      (received (StreamProcessURL (.ok tracks) Submit icb pcb events user).effects).length = N ∧
      ∀ r ∈ received (StreamProcessURL (.ok tracks) Submit icb pcb events user).effects,
        r.Data = []) ∧
    ((StreamProcessURL (.ok tracks) Submit icb pcb events user).ret =
        Return.returned (some "no images were downloaded successfully") →
      imageCalls (StreamProcessURL (.ok tracks) Submit icb pcb events user).effects = []) ∧
    ((StreamProcessURL (.ok tracks) Submit icb pcb events user).ret =
        Return.returned (some "processing timeout") ↔
      timeoutLogs (StreamProcessURL (.ok tracks) Submit icb pcb events user).effects ≠ []) ∧
    ((StreamProcessURL (.ok tracks) Submit icb pcb events user).ret =
        Return.returned (some "processing timeout") →
      (StreamProcessURL (.ok tracks) Submit icb pcb events user).downloadedCount < N ∧
      timeoutLogs (StreamProcessURL (.ok tracks) Submit icb pcb events user).effects =
        [((StreamProcessURL (.ok tracks) Submit icb pcb events user).downloadedCount, (N : Int))])
    := by
  obtain ⟨r1, r2, _, r4, r5, _, r7⟩ := streamProcessURL_run tracks Submit icb pcb events user N
    hlen (by omega)
  obtain ⟨_, _, k3, k4⟩ := drainLoop_counts N hN icb pcb events ⟨0, 0, 0, user⟩ 0 0 rfl rfl
    (le_refl 0) (Nat.zero_le N)
  obtain ⟨_, s2, _, s4, _⟩ := drainLoop_status N icb pcb events ⟨0, 0, 0, user⟩
  simp only [Nat.zero_add] at k3 k4
  rw [r1, r2, r4, r5, r7]
  have hs0 : (drainLoop N icb pcb events ⟨0, 0, 0, user⟩).vars.successCount = 0 ↔
      ∀ r ∈ received (drainLoop N icb pcb events ⟨0, 0, 0, user⟩).effects, r.Data = [] := by
    rw [k3, ← filter_hasData_length_eq_zero_iff]
    exact_mod_cast Iff.rfl
  have hcalls : (∀ r ∈ received (drainLoop N icb pcb events ⟨0, 0, 0, user⟩).effects,
      r.Data = []) → imageCalls (drainLoop N icb pcb events ⟨0, 0, 0, user⟩).effects = [] := by
    intro hall
    cases icb with
    | none => exact drainLoop_imageCalls_none N pcb events _
    | some cb =>
      rw [drainLoop_imageCalls N hN cb pcb events ⟨0, 0, 0, user⟩ 0 0 rfl rfl (le_refl 0)
        (Nat.zero_le N), List.length_eq_zero.1 ((filter_hasData_length_eq_zero_iff _).2 hall)]
      rfl
  cases hst : (drainLoop N icb pcb events ⟨0, 0, 0, user⟩).status with
  | completed =>
    have hN' := k4.1 hst
    simp only [hst, if_true, if_false] at s4 ⊢
    by_cases hz : (drainLoop N icb pcb events ⟨0, 0, 0, user⟩).vars.successCount = 0
    · have hall := hs0.1 hz
      simp only [hz, if_true, s4]
      refine ⟨?_, ?_, fun _ => hcalls hall, ?_, ?_⟩
      · constructor
        · intro h; cases h
        · rintro ⟨_, r, hr, hne⟩; exact absurd (hall r hr) hne
      · exact ⟨fun _ => ⟨hN', hall⟩, fun _ => trivial⟩
      · constructor
        · intro h; exact absurd (Return.returned.inj h) (by decide)
        · intro h; exact absurd rfl h
      · intro h; exact absurd (Return.returned.inj h) (by decide)
    · have hex : ∃ r ∈ received (drainLoop N icb pcb events ⟨0, 0, 0, user⟩).effects,
          r.Data ≠ [] := by
        by_contra hno
        push_neg at hno
        exact hz (hs0.2 hno)
      simp only [hz, if_false, s4]
      refine ⟨⟨fun _ => ⟨hN', hex⟩, fun _ => trivial⟩, ?_, ?_, ?_, ?_⟩
      · constructor
        · intro h; cases h
        · rintro ⟨_, hall⟩
          exact absurd (hs0.2 hall) hz
      · intro h; cases h
      · constructor
        · intro h; cases h
        · intro h; exact absurd rfl h
      · intro h; cases h
  | timedOut =>
    have hlt := s2 (by rw [hst]; decide)
    have hne : (received (drainLoop N icb pcb events ⟨0, 0, 0, user⟩).effects).length ≠ N :=
      fun h => by have := k4.2 h; rw [hst] at this; cases this
    simp only [hst, if_true] at s4 ⊢
    rw [s4]
    refine ⟨?_, ?_, ?_, ?_, ?_⟩
    · constructor
      · intro h; cases h
      · rintro ⟨h, _⟩; exact absurd h hne
    · constructor
      · intro h; exact absurd (Return.returned.inj h) (by decide)
      · rintro ⟨h, _⟩; exact absurd h hne
    · intro h; exact absurd (Return.returned.inj h) (by decide)
    · exact ⟨fun _ => by simp, fun _ => trivial⟩
    · intro _; exact ⟨hlt, rfl⟩
  | waiting =>
    have hne : (received (drainLoop N icb pcb events ⟨0, 0, 0, user⟩).effects).length ≠ N :=
      fun h => by have := k4.2 h; rw [hst] at this; cases this
    simp only [hst] at s4 ⊢
    rw [s4]
    refine ⟨?_, ?_, ?_, ?_, ?_⟩
    · constructor
      · intro h; cases h
      · rintro ⟨h, _⟩; exact absurd h hne
    · constructor
      · intro h; cases h
      · rintro ⟨h, _⟩; exact absurd h hne
    · intro h; cases h
    · constructor
      · intro h; cases h
      · intro h; simp at h
    · intro h; cases h

/-- C4 at a concrete input: two unique keys, both results empty. -/
theorem streamProcessURL_return_value_witness :
    ((collectUniqueImages [sampleTrack "a" ["u1"], sampleTrack "b" ["u2"]]).length = 2 ∧
      1 ≤ 2 ∧ 2 < 2147483648) ∧
    ((StreamProcessURL (.ok [sampleTrack "a" ["u1"], sampleTrack "b" ["u2"]]) (fun _ => true)
        (some fun _ index _ (s : List Int) => (index :: s, none)) none
        [Event.result (sampleImage 0), Event.tick, Event.result (sampleImage 0)] []).ret =
        Return.returned (some "no images were downloaded successfully") ↔
      (received (StreamProcessURL (.ok [sampleTrack "a" ["u1"], sampleTrack "b" ["u2"]])
        (fun _ => true) (some fun _ index _ (s : List Int) => (index :: s, none)) none
        [Event.result (sampleImage 0), Event.tick, Event.result (sampleImage 0)] []).effects).length
        = 2 ∧
      ∀ r ∈ received (StreamProcessURL (.ok [sampleTrack "a" ["u1"], sampleTrack "b" ["u2"]])
        (fun _ => true) (some fun _ index _ (s : List Int) => (index :: s, none)) none
        [Event.result (sampleImage 0), Event.tick, Event.result (sampleImage 0)] []).effects,
        r.Data = []) :=
  ⟨⟨by decide, by decide, by decide⟩,
    (streamProcessURL_return_value [sampleTrack "a" ["u1"], sampleTrack "b" ["u2"]]
      (fun _ => true) (some fun _ index _ (s : List Int) => (index :: s, none)) none
      [Event.result (sampleImage 0), Event.tick, Event.result (sampleImage 0)] [] 2
      (by decide) (by decide) (by decide)).2.1⟩

theorem firstImageURLs_manyTracks (n : Nat) :
    firstImageURLs (manyTracks n) =
      (List.range n).map (fun i => String.mk (List.replicate i 'u')) := by
  unfold firstImageURLs manyTracks
  rw [List.filterMap_map]
  have : (firstImageURL ∘ fun i => sampleTrack "t" [String.mk (List.replicate i 'u')]) =
      fun i => some (String.mk (List.replicate i 'u')) := by
    funext i; rfl
  rw [this]
  induction List.range n with
  | nil => rfl
  | cons a l ih => simp only [List.filterMap_cons, List.map_cons, ih]

theorem collectUniqueImages_manyTracks_length (n : Nat) :
    (collectUniqueImages (manyTracks n)).length = n := by
  rw [collectUniqueImages_length, firstImageURLs_manyTracks]
  have hinj : Function.Injective (fun i : Nat => String.mk (List.replicate i 'u')) := by
    intro a b hab
    have h2 : List.replicate a 'u' = List.replicate b 'u' := congrArg String.data hab
    have := congrArg List.length h2
    simpa using this
  rw [List.toFinset_card_of_nodup ((List.nodup_range n).map hinj), List.length_map,
    List.length_range]

/-- C4, counterexample. For a batch of `2^31` unique keys in which all `2^31`
results are received, each with a non-empty payload, `StreamProcessURL` does not
return nil: it is still blocked in the drain loop. -/
theorem streamProcessURL_return_value_fails_at_2pow31 :
    (collectUniqueImages (manyTracks 2147483648)).length = 2147483648 ∧
    (received (StreamProcessURL (.ok (manyTracks 2147483648)) (fun _ => true)
      (none : ImageCallback Unit) none
      (List.replicate 2147483648 (Event.result (sampleImage 1))) ()).effects).length
      = 2147483648 ∧
    (∃ r ∈ received (StreamProcessURL (.ok (manyTracks 2147483648)) (fun _ => true)
      (none : ImageCallback Unit) none
      (List.replicate 2147483648 (Event.result (sampleImage 1))) ()).effects, r.Data ≠ []) ∧
    (StreamProcessURL (.ok (manyTracks 2147483648)) (fun _ => true)
      (none : ImageCallback Unit) none
      (List.replicate 2147483648 (Event.result (sampleImage 1))) ()).ret = Return.blocked := by
  obtain ⟨r1, _, _, r4, _⟩ := streamProcessURL_run (manyTracks 2147483648) (fun _ => true)
    (none : ImageCallback Unit) none (List.replicate 2147483648 (Event.result (sampleImage 1)))
    () 2147483648 (collectUniqueImages_manyTracks_length _) (by omega)
  have h := drainLoop_waits_of_large_total 2147483648 (le_refl _) (none : ImageCallback Unit) none
    (List.replicate 2147483648 (Event.result (sampleImage 1))) ⟨0, 0, 0, ()⟩
    (by show (0 : Int) < 2147483648; omega) (done_not_mem_replicate _ _)
  refine ⟨collectUniqueImages_manyTracks_length _, ?_, ?_, ?_⟩
  · rw [r4, h.2, results_replicate, List.length_replicate]
  · rw [r4, h.2, results_replicate]
    exact ⟨sampleImage 1, List.mem_replicate.2 ⟨by omega, rfl⟩, by decide⟩
  · rw [r1, h.1]

/-! ## The drain loop does not depend on what the callbacks do -/

/-- Status, counters, received results and unconsumed events of the loop are
the same whatever the callbacks are and whatever they return. -/
theorem drainLoop_callbacks_irrelevant {σ τ : Type} (total : Nat)
    (icb1 : ImageCallback σ) (pcb1 : ProgressCallback σ)
    (icb2 : ImageCallback τ) (pcb2 : ProgressCallback τ) (evs : List Event)
    (v1 : LoopVars σ) (v2 : LoopVars τ)
    (hd : v1.downloadedCount = v2.downloadedCount) (hs : v1.successCount = v2.successCount) :
    (drainLoop total icb1 pcb1 evs v1).status = (drainLoop total icb2 pcb2 evs v2).status ∧
    (drainLoop total icb1 pcb1 evs v1).vars.downloadedCount =
      (drainLoop total icb2 pcb2 evs v2).vars.downloadedCount ∧
    (drainLoop total icb1 pcb1 evs v1).vars.successCount =
      (drainLoop total icb2 pcb2 evs v2).vars.successCount ∧
    (drainLoop total icb1 pcb1 evs v1).rest = (drainLoop total icb2 pcb2 evs v2).rest ∧
    received (drainLoop total icb1 pcb1 evs v1).effects =
      received (drainLoop total icb2 pcb2 evs v2).effects := by
  induction evs generalizing v1 v2 with
  | nil =>
    by_cases h : v1.downloadedCount < total
    · rw [drainLoop_nil_of_lt total icb1 pcb1 v1 h,
        drainLoop_nil_of_lt total icb2 pcb2 v2 (hd ▸ h)]
      exact ⟨rfl, hd, hs, rfl, rfl⟩
    · rw [drainLoop_of_not_lt total icb1 pcb1 [] v1 h,
        drainLoop_of_not_lt total icb2 pcb2 [] v2 (hd ▸ h)]
      exact ⟨rfl, hd, hs, rfl, rfl⟩
  | cons ev evs ih =>
    by_cases h : v1.downloadedCount < total
    · have h2 : v2.downloadedCount < total := hd ▸ h
      cases ev with
      | result r =>
        rw [drainLoop_result_of_lt total icb1 pcb1 r evs v1 h,
          drainLoop_result_of_lt total icb2 pcb2 r evs v2 h2]
        simp only [received_append, onResult_received]
        obtain ⟨i1, i2, i3, i4, i5⟩ := ih (onResult total icb1 pcb1 v1 r).1
          (onResult total icb2 pcb2 v2 r).1
          (by rw [onResult_downloadedCount, onResult_downloadedCount, hd])
          (by rw [onResult_successCount, onResult_successCount, hs])
        exact ⟨i1, i2, i3, i4, by rw [i5]⟩
      | tick =>
        rw [drainLoop_tick_of_lt total icb1 pcb1 evs v1 h,
          drainLoop_tick_of_lt total icb2 pcb2 evs v2 h2]
        simp only [received_append, (onTick_effects total v1).1, (onTick_effects total v2).1]
        exact ih (onTick total v1).1 (onTick total v2).1
          (by rw [(onTick_counters total v1).1, (onTick_counters total v2).1, hd])
          (by rw [(onTick_counters total v1).2.1, (onTick_counters total v2).2.1, hs])
      | done =>
        rw [drainLoop_done_of_lt total icb1 pcb1 evs v1 h,
          drainLoop_done_of_lt total icb2 pcb2 evs v2 h2]
        exact ⟨rfl, hd, hs, rfl, rfl⟩
    · rw [drainLoop_of_not_lt total icb1 pcb1 (ev :: evs) v1 h,
        drainLoop_of_not_lt total icb2 pcb2 (ev :: evs) v2 (hd ▸ h)]
      exact ⟨rfl, hd, hs, rfl, rfl⟩

/-- C5 (amended). For every batch of `N` unique keys with `1 ≤ N ≤ 2^31 - 1`,
every sequence of events and every `imageCallback`: the callback is invoked
once for each received result with a non-empty payload and for no other, in
arrival order, the `j`-th such result with index `j` (1, 2, 3, ...) and with
total `N`. Replacing the callback by any other one (one that returns other
errors, or none, and acts on another state) changes neither these invocations
nor the results received nor the value `StreamProcessURL` returns. -/
theorem streamProcessURL_imageCallback_calls {σ τ : Type} (tracks : List Track)
    (Submit : DownloadTask → Bool) (cb : ImageData → Int → Int → σ → σ × Option String)
    (pcb : ProgressCallback σ) (events : List Event) (user : σ) (N : Nat)
    (hlen : (collectUniqueImages tracks).length = N) (h1 : 1 ≤ N) (hN : N < 2147483648) :
    imageCalls (StreamProcessURL (.ok tracks) Submit (some cb) pcb events user).effects =
      (((received (StreamProcessURL (.ok tracks) Submit (some cb) pcb events user).effects).filter
        hasData).enumFrom 1).map (fun p => (p.2, (p.1 : Int), (N : Int))) ∧
    ∀ (cb2 : ImageData → Int → Int → τ → τ × Option String) (pcb2 : ProgressCallback τ)
      (user2 : τ),
      imageCalls (StreamProcessURL (.ok tracks) Submit (some cb2) pcb2 events user2).effects =
        imageCalls (StreamProcessURL (.ok tracks) Submit (some cb) pcb events user).effects ∧
      received (StreamProcessURL (.ok tracks) Submit (some cb2) pcb2 events user2).effects =
        received (StreamProcessURL (.ok tracks) Submit (some cb) pcb events user).effects ∧
      (StreamProcessURL (.ok tracks) Submit (some cb2) pcb2 events user2).ret =
        (StreamProcessURL (.ok tracks) Submit (some cb) pcb events user).ret := by
  obtain ⟨r1, _, _, r4, r5, _⟩ := streamProcessURL_run tracks Submit (some cb) pcb events user N
    hlen (by omega)
  have hcalls := drainLoop_imageCalls N hN cb pcb events ⟨0, 0, 0, user⟩ 0 0 rfl rfl (le_refl 0)
    (Nat.zero_le N)
  refine ⟨by rw [r5, r4, hcalls], ?_⟩
  intro cb2 pcb2 user2
  obtain ⟨q1, _, _, q4, q5, _⟩ := streamProcessURL_run tracks Submit (some cb2) pcb2 events
    user2 N hlen (by omega)
  have hcalls2 := drainLoop_imageCalls N hN cb2 pcb2 events ⟨0, 0, 0, user2⟩ 0 0 rfl rfl
    (le_refl 0) (Nat.zero_le N)
  obtain ⟨e1, _, e3, _, e5⟩ := drainLoop_callbacks_irrelevant N (some cb2) pcb2 (some cb) pcb
    events ⟨0, 0, 0, user2⟩ ⟨0, 0, 0, user⟩ rfl rfl
  refine ⟨?_, ?_, ?_⟩
  · rw [q5, r5, hcalls, hcalls2, e5]
  · rw [q4, r4, e5]
  · rw [q1, r1, e1, e3]

/-- C5 at a concrete input: three unique keys, three results with a payload
(and a tick in between), a callback that fails on its second invocation: three
invocations, with indexes 1, 2, 3 and total 3. -/
theorem streamProcessURL_imageCallback_calls_witness :
    ((collectUniqueImages
        [sampleTrack "a" ["u1"], sampleTrack "b" ["u2"], sampleTrack "c" ["u3"]]).length = 3 ∧
      1 ≤ 3 ∧ 3 < 2147483648) ∧
    imageCalls (StreamProcessURL
      (.ok [sampleTrack "a" ["u1"], sampleTrack "b" ["u2"], sampleTrack "c" ["u3"]])
      (fun _ => true)
      (some fun _ index _ (s : List Int) =>
        (index :: s, if index = 2 then some "send failed" else none))
      none
      [Event.result (sampleImage 1), Event.tick, Event.result (sampleImage 2),
        Event.result (sampleImage 3)] []).effects =
      [(sampleImage 1, 1, 3), (sampleImage 2, 2, 3), (sampleImage 3, 3, 3)] :=
  ⟨⟨by decide, by decide, by decide⟩,
    (@streamProcessURL_imageCallback_calls (List Int) Unit
      [sampleTrack "a" ["u1"], sampleTrack "b" ["u2"], sampleTrack "c" ["u3"]]
      (fun _ => true)
      (fun _ index _ (s : List Int) =>
        (index :: s, if index = 2 then some "send failed" else none))
      none
      [Event.result (sampleImage 1), Event.tick, Event.result (sampleImage 2),
        Event.result (sampleImage 3)] [] 3 (by decide) (by decide) (by decide)).1⟩

/-- With `total ≥ 2^31` and `n` results that carry a payload, the `j`-th call of
`imageCallback` has the index `successCount + j` reduced to an `int32`. -/
theorem drainLoop_imageCalls_replicate {σ : Type} (total : Nat) (ht : 2147483648 ≤ total)
    (cb : ImageData → Int → Int → σ → σ × Option String) (pcb : ProgressCallback σ)
    (r : ImageData) (hr : hasData r = true) (n : Nat) :
    ∀ (v : LoopVars σ) (j : Nat), v.downloadedCount < 2147483648 → j < n →
      (r, wrapInt32 (v.successCount + j + 1), (total : Int)) ∈
        imageCalls (drainLoop total (some cb) pcb
          (List.replicate n (Event.result r)) v).effects := by
  induction n with
  | zero => intro v j _ hj; omega
  | succ n ih =>
    intro v j hv hj
    have hlt : v.downloadedCount < total := by
      have : (2147483648 : Int) ≤ (total : Int) := by exact_mod_cast ht
      omega
    rw [List.replicate_succ, drainLoop_result_of_lt total (some cb) pcb r _ v hlt]
    simp only [imageCalls_append, onResult_imageCalls, hr, if_true, List.mem_append,
      List.mem_singleton]
    cases j with
    | zero =>
      left
      simp [addInt32]
    | succ j =>
      right
      have := ih (onResult total (some cb) pcb v r).1 j
        (by rw [onResult_downloadedCount]; exact (wrapInt32_range _).2) (by omega)
      rw [onResult_successCount, hr, if_pos rfl] at this
      have hw : wrapInt32 (addInt32 v.successCount 1 + (j : Int) + 1) =
          wrapInt32 (v.successCount + ((j + 1 : Nat) : Int) + 1) := by
        unfold addInt32 wrapInt32
        push_cast
        omega
      rw [← hw]
      exact this

/-- C5, counterexample. For a batch of `2^31` unique keys in which `2^31`
results with a payload are received, the invocation of `imageCallback` for the
last of them has the index `-2^31`, not `2^31`. -/
theorem streamProcessURL_imageCallback_index_fails_at_2pow31 :
    (sampleImage 1, (-2147483648 : Int), (2147483648 : Int)) ∈
      imageCalls (StreamProcessURL (.ok (manyTracks 2147483648)) (fun _ => true)
        (some fun _ _ _ (s : Unit) => (s, none)) none
        (List.replicate 2147483648 (Event.result (sampleImage 1))) ()).effects := by
  obtain ⟨_, _, _, _, r5, _⟩ := streamProcessURL_run (manyTracks 2147483648) (fun _ => true)
    (some fun _ _ _ (s : Unit) => (s, none)) none
    (List.replicate 2147483648 (Event.result (sampleImage 1)))
    () 2147483648 (collectUniqueImages_manyTracks_length _) (by omega)
  rw [r5]
  have h := drainLoop_imageCalls_replicate 2147483648 (le_refl _)
    (fun _ _ _ (s : Unit) => (s, none)) none (sampleImage 1) (by decide) 2147483648
    ⟨0, 0, 0, ()⟩ 2147483647 (by show (0 : Int) < 2147483648; omega) (by omega)
  have hw : wrapInt32 ((0 : Int) + ((2147483647 : Nat) : Int) + 1) = -2147483648 := by
    unfold wrapInt32
    norm_num
  rw [hw] at h
  exact h

/-- The counts at which progress is reported among `1..n + 1`: those among
`1..n`, then `n + 1` when it is the total. -/
theorem progress_counts_succ (n : Nat) :
    (List.range' 1 (n + 1)).filter (fun c => decide (c % 10 = 0 ∨ c = n + 1)) =
      (List.range' 1 n).filter (fun c => decide (c % 10 = 0 ∨ c = n + 1)) ++ [n + 1] := by
  rw [List.range'_concat, List.filter_append]
  simp [Nat.add_comm]

/-- C6 (amended). For every batch of `N` unique keys with `1 ≤ N ≤ 2^31 - 1` in
which all `N` results are received, `progressCallback` is invoked exactly once
for each count `c` in `1..N` with `c mod 10 = 0` or `c = N`, with the arguments
`(c, N)`, in increasing order of `c`, and for no other count; the last
invocation is `(N, N)` and it occurs once, also when `N` is a multiple of 10. -/
theorem streamProcessURL_progressCallback_calls {σ : Type} (tracks : List Track)
    (Submit : DownloadTask → Bool) (icb : ImageCallback σ) (p : Int → Int → σ → σ)
    (events : List Event) (user : σ) (N : Nat)
    (hlen : (collectUniqueImages tracks).length = N) (h1 : 1 ≤ N) (hN : N < 2147483648)
    (hall : (received
      (StreamProcessURL (.ok tracks) Submit icb (some p) events user).effects).length = N) :
    progressCalls (StreamProcessURL (.ok tracks) Submit icb (some p) events user).effects =
      ((List.range' 1 N).filter (fun c => decide (c % 10 = 0 ∨ c = N))).map
        (fun (c : Nat) => ((c : Int), (N : Int))) ∧
    (progressCalls
      (StreamProcessURL (.ok tracks) Submit icb (some p) events user).effects).getLast? =
      some ((N : Int), (N : Int)) ∧
    (progressCalls
      (StreamProcessURL (.ok tracks) Submit icb (some p) events user).effects).count
      ((N : Int), (N : Int)) = 1 := by
  obtain ⟨_, _, _, r4, _, r6, _⟩ := streamProcessURL_run tracks Submit icb (some p) events user
    N hlen (by omega)
  have hcalls := drainLoop_progressCalls N hN icb p events ⟨0, 0, 0, user⟩ 0 rfl (Nat.zero_le N)
  rw [r4] at hall
  rw [hall] at hcalls
  simp only [Nat.zero_add] at hcalls
  rw [r6, hcalls]
  refine ⟨rfl, ?_, ?_⟩
  · obtain ⟨n, rfl⟩ : ∃ n, N = n + 1 := ⟨N - 1, by omega⟩
    rw [progress_counts_succ, List.map_append]
    simp
  · obtain ⟨n, rfl⟩ : ∃ n, N = n + 1 := ⟨N - 1, by omega⟩
    rw [progress_counts_succ, List.map_append, List.count_append]
    have h0 : List.count (((n + 1 : Nat) : Int), ((n + 1 : Nat) : Int))
        (List.map (fun c : Nat => ((c : Int), ((n + 1 : Nat) : Int)))
          ((List.range' 1 n).filter (fun c => decide (c % 10 = 0 ∨ c = n + 1)))) = 0 := by
      apply List.count_eq_zero_of_not_mem
      intro hm
      obtain ⟨c, hc, heq⟩ := List.mem_map.1 hm
      have hc2 := (List.mem_filter.1 hc).1
      rw [List.mem_range'_1] at hc2
      have : (c : Int) = ((n + 1 : Nat) : Int) := congrArg Prod.fst heq
      omega
    rw [h0]
    simp

/-- C6 at a concrete input: ten unique keys, ten results; the only invocation
is `(10, 10)`, once. -/
theorem streamProcessURL_progressCallback_calls_witness :
    ((collectUniqueImages (manyTracks 10)).length = 10 ∧ 1 ≤ 10 ∧ 10 < 2147483648 ∧
      (received (StreamProcessURL (.ok (manyTracks 10)) (fun _ => true) none
        (some fun current _ (s : List Int) => current :: s)
        (List.replicate 10 (Event.result (sampleImage 1))) []).effects).length = 10) ∧
    progressCalls (StreamProcessURL (.ok (manyTracks 10)) (fun _ => true) none
      (some fun current _ (s : List Int) => current :: s)
      (List.replicate 10 (Event.result (sampleImage 1))) []).effects = [(10, 10)] :=
  ⟨⟨by decide, by decide, by decide, by decide⟩,
    (streamProcessURL_progressCallback_calls (manyTracks 10) (fun _ => true) none
      (fun current _ (s : List Int) => current :: s)
      (List.replicate 10 (Event.result (sampleImage 1))) [] 10
      (by decide) (by decide) (by decide) (by decide)).1⟩

/-- Every count passed to `progressCallback` is an `int32`. -/
theorem drainLoop_progressCalls_range {σ : Type} (total : Nat) (icb : ImageCallback σ)
    (pcb : ProgressCallback σ) (evs : List Event) (v : LoopVars σ) :
    ∀ c ∈ progressCalls (drainLoop total icb pcb evs v).effects, c.1 < 2147483648 := by
  induction evs generalizing v with
  | nil => intro c hc; unfold drainLoop at hc; split at hc <;> simp [progressCalls] at hc
  | cons ev evs ih =>
    intro c hc
    by_cases h : v.downloadedCount < total
    · cases ev with
      | result r =>
        rw [drainLoop_result_of_lt total icb pcb r evs v h] at hc
        simp only [progressCalls_append, List.mem_append] at hc
        rcases hc with hc | hc
        · cases pcb with
          | none => rw [onResult_progressCalls_none] at hc; simp at hc
          | some p =>
            rw [onResult_progressCalls] at hc
            split at hc
            · simp only [List.mem_singleton] at hc
              rw [hc]
              exact (wrapInt32_range _).2
            · simp at hc
        · exact ih _ c hc
      | tick =>
        rw [drainLoop_tick_of_lt total icb pcb evs v h] at hc
        simp only [progressCalls_append, (onTick_effects total v).2.2.1, List.nil_append] at hc
        exact ih _ c hc
      | done =>
        rw [drainLoop_done_of_lt total icb pcb evs v h] at hc
        simp [progressCalls] at hc
    · rw [drainLoop_of_not_lt total icb pcb (ev :: evs) v h] at hc
      simp [progressCalls] at hc

/-- C6, counterexample. For a batch of `2^31` unique keys in which all `2^31`
results are received, `progressCallback` is never invoked with `(2^31, 2^31)`. -/
theorem streamProcessURL_progressCallback_fails_at_2pow31 :
    (received (StreamProcessURL (.ok (manyTracks 2147483648)) (fun _ => true)
      none (some fun _ _ (s : Unit) => s)
      (List.replicate 2147483648 (Event.result (sampleImage 1))) ()).effects).length
      = 2147483648 ∧
    ((2147483648 : Int), (2147483648 : Int)) ∉
      progressCalls (StreamProcessURL (.ok (manyTracks 2147483648)) (fun _ => true)
        none (some fun _ _ (s : Unit) => s)
        (List.replicate 2147483648 (Event.result (sampleImage 1))) ()).effects := by
  obtain ⟨_, _, _, r4, _, r6, _⟩ := streamProcessURL_run (manyTracks 2147483648) (fun _ => true)
    none (some fun _ _ (s : Unit) => s)
    (List.replicate 2147483648 (Event.result (sampleImage 1)))
    () 2147483648 (collectUniqueImages_manyTracks_length _) (by omega)
  have h := drainLoop_waits_of_large_total 2147483648 (le_refl _) (none : ImageCallback Unit)
    (some fun _ _ (s : Unit) => s)
    (List.replicate 2147483648 (Event.result (sampleImage 1))) ⟨0, 0, 0, ()⟩
    (by show (0 : Int) < 2147483648; omega) (done_not_mem_replicate _ _)
  refine ⟨?_, ?_⟩
  · rw [r4, h.2, results_replicate, List.length_replicate]
  · rw [r6]
    intro hm
    have := drainLoop_progressCalls_range _ _ _ _ _ _ hm
    simp at this

/-! ## `Download` and `processTask` -/

/-- The two shapes of what `Download` returns: no data and an error, or
non-empty data and no error. -/
theorem download_shape (fetch : Fetch) :
    ((Download fetch).1 = [] ∧ (Download fetch).2 ≠ none) ∨
    ((Download fetch).1 ≠ [] ∧ (Download fetch).2 = none) := by
  unfold Download
  cases fetch with
  | requestError err => simp
  | doError err => simp
  | response StatusCode body readErr =>
    simp only
    split
    · simp
    · split
      · simp
      · split
        · simp
        · rename_i h
          right
          exact ⟨fun h0 => h (by simp only at h0; rw [h0]; rfl), rfl⟩

/-- An attempt that is not accepted by the test of line 104 left no data. -/
theorem download_data_of_failed (fetch : Fetch)
    (h : ¬ ((Download fetch).2 = none ∧ (Download fetch).1.length > 0)) :
    (Download fetch).1 = [] := by
  rcases download_shape fetch with ⟨h1, _⟩ | ⟨h1, h2⟩
  · exact h1
  · exact absurd ⟨h2, List.length_pos.2 h1⟩ h

/-- The attempt loop without cancellation, effect by effect: a `Download` call,
then for each retry `a` in `1..n` the wait of `a × 2` seconds followed by the
`Download` call of that retry; `n` is the first attempt that succeeds, or 3 when
none does, and the loop ends with what attempt `n` returned. -/
theorem attemptLoop_no_cancel_effects (task : DownloadTask) (fetches : Nat → Fetch) :
    ∃ n : Nat, n ≤ 3 ∧
      attemptLoop task fetches (fun _ => false) (maxRetries + 1) 0 ([], none) =
        (some (Download (fetches n)),
          TaskEffect.download task.URL ::
            (List.range' 1 n).flatMap (fun (a : Nat) =>
              [TaskEffect.wait ((a : Int) * 2 * Second), TaskEffect.download task.URL])) ∧
      (∀ a, a < n → ¬ ((Download (fetches a)).2 = none ∧ (Download (fetches a)).1.length > 0)) ∧
      (((Download (fetches n)).2 = none ∧ (Download (fetches n)).1.length > 0) ∨ n = 3) := by
  by_cases h0 : (Download (fetches 0)).2 = none ∧ (Download (fetches 0)).1.length > 0
  · refine ⟨0, by omega, by simp [attemptLoop, maxRetries, h0], fun a ha => by omega, Or.inl h0⟩
  · by_cases h1 : (Download (fetches 1)).2 = none ∧ (Download (fetches 1)).1.length > 0
    · refine ⟨1, by omega, by simp [attemptLoop, maxRetries, h0, h1, List.range'], ?_, Or.inl h1⟩
      intro a ha
      have : a = 0 := by omega
      subst this; exact h0
    · by_cases h2 : (Download (fetches 2)).2 = none ∧ (Download (fetches 2)).1.length > 0
      · refine ⟨2, by omega, by simp [attemptLoop, maxRetries, h0, h1, h2, List.range'], ?_,
          Or.inl h2⟩
        intro a ha
        have : a = 0 ∨ a = 1 := by omega
        rcases this with rfl | rfl
        · exact h0
        · exact h1
      · refine ⟨3, by omega, ?_, ?_, Or.inr rfl⟩
        · by_cases h3 : (Download (fetches 3)).2 = none ∧ (Download (fetches 3)).1.length > 0
          · simp [attemptLoop, maxRetries, h0, h1, h2, h3, List.range']
          · simp [attemptLoop, maxRetries, h0, h1, h2, h3, List.range']
        · intro a ha
          have : a = 0 ∨ a = 1 ∨ a = 2 := by omega
          rcases this with rfl | rfl | rfl
          · exact h0
          · exact h1
          · exact h2

/-- C8 (amended). With no cancellation and the send on the result channel taken,
`processTask` stops at the first attempt whose `Download` returns a nil error
with non-empty data: after `k < 4` failed attempts and a success it has made
exactly `k + 1` `Download` calls and publishes that non-empty payload; after 4
failed attempts it has made exactly 4 calls and publishes a result with empty
`Data`. In every case exactly one result is published and it carries the URL
and the TrackID of the task. The `Download` calls do not depend on what the
final `select` takes, and nothing is published when the send is not taken. -/
theorem processTask_retries_until_success (task : DownloadTask) (fetches : Nat → Fetch) :
    (∀ k, k < 4 →
      (∀ a, a < k → ¬ ((Download (fetches a)).2 = none ∧ (Download (fetches a)).1.length > 0)) →
      ((Download (fetches k)).2 = none ∧ (Download (fetches k)).1.length > 0) →
      downloadCalls (processTask task fetches (fun _ => false) .sent) =
        List.replicate (k + 1) task.URL ∧
      published (processTask task fetches (fun _ => false) .sent) =
        [{ Data := (Download (fetches k)).1, Filename := "", URL := task.URL,
           TrackID := task.TrackID }] ∧
      (Download (fetches k)).1 ≠ []) ∧
    ((∀ a, a < 4 → ¬ ((Download (fetches a)).2 = none ∧ (Download (fetches a)).1.length > 0)) →
      downloadCalls (processTask task fetches (fun _ => false) .sent) =
        List.replicate 4 task.URL ∧
      published (processTask task fetches (fun _ => false) .sent) =
        [{ Data := [], Filename := "", URL := task.URL, TrackID := task.TrackID }]) ∧
    (∃ r, published (processTask task fetches (fun _ => false) .sent) = [r] ∧
      r.URL = task.URL ∧ r.TrackID = task.TrackID) ∧
    (∀ publishCase : PublishCase,
      downloadCalls (processTask task fetches (fun _ => false) publishCase) =
        downloadCalls (processTask task fetches (fun _ => false) .sent) ∧
      (publishCase ≠ .sent →
        published (processTask task fetches (fun _ => false) publishCase) = [])) := by
  refine ⟨?_, ?_, ?_, ?_⟩
  · intro k hk hfail hok
    have hne : (Download (fetches k)).1 ≠ [] := List.length_pos.1 hok.2
    refine ⟨?_, ?_, hne⟩
    · interval_cases k
      · simp [processTask, attemptLoop, maxRetries, hok, downloadCalls]
      · have f0 := hfail 0 (by omega)
        simp [processTask, attemptLoop, maxRetries, hok, f0, downloadCalls, List.replicate]
      · have f0 := hfail 0 (by omega)
        have f1 := hfail 1 (by omega)
        simp [processTask, attemptLoop, maxRetries, hok, f0, f1, downloadCalls, List.replicate]
      · have f0 := hfail 0 (by omega)
        have f1 := hfail 1 (by omega)
        have f2 := hfail 2 (by omega)
        simp [processTask, attemptLoop, maxRetries, hok, f0, f1, f2, downloadCalls,
          List.replicate]
    · interval_cases k
      · simp [processTask, attemptLoop, maxRetries, hok, published]
      · have f0 := hfail 0 (by omega)
        simp [processTask, attemptLoop, maxRetries, hok, f0, published]
      · have f0 := hfail 0 (by omega)
        have f1 := hfail 1 (by omega)
        simp [processTask, attemptLoop, maxRetries, hok, f0, f1, published]
      · have f0 := hfail 0 (by omega)
        have f1 := hfail 1 (by omega)
        have f2 := hfail 2 (by omega)
        simp [processTask, attemptLoop, maxRetries, hok, f0, f1, f2, published]
  · intro hfail
    have f0 := hfail 0 (by omega)
    have f1 := hfail 1 (by omega)
    have f2 := hfail 2 (by omega)
    have f3 := hfail 3 (by omega)
    have hd := download_data_of_failed (fetches 3) f3
    constructor
    · simp [processTask, attemptLoop, maxRetries, f0, f1, f2, f3, downloadCalls, List.replicate]
    · simp [processTask, attemptLoop, maxRetries, f0, f1, f2, f3, published, hd]
  · by_cases h0 : (Download (fetches 0)).2 = none ∧ (Download (fetches 0)).1.length > 0
    · exact ⟨_, by simp [processTask, attemptLoop, maxRetries, h0, published]; rfl, rfl, rfl⟩
    · by_cases h1 : (Download (fetches 1)).2 = none ∧ (Download (fetches 1)).1.length > 0
      · exact ⟨_, by simp [processTask, attemptLoop, maxRetries, h0, h1, published]; rfl,
          rfl, rfl⟩
      · by_cases h2 : (Download (fetches 2)).2 = none ∧ (Download (fetches 2)).1.length > 0
        · exact ⟨_, by simp [processTask, attemptLoop, maxRetries, h0, h1, h2, published]; rfl,
            rfl, rfl⟩
        · by_cases h3 : (Download (fetches 3)).2 = none ∧ (Download (fetches 3)).1.length > 0
          · exact ⟨_, by
              simp [processTask, attemptLoop, maxRetries, h0, h1, h2, h3, published]; rfl,
              rfl, rfl⟩
          · exact ⟨_, by
              simp [processTask, attemptLoop, maxRetries, h0, h1, h2, h3, published]; rfl,
              rfl, rfl⟩
  · intro publishCase
    obtain ⟨n, hn, hloop, _, _⟩ := attemptLoop_no_cancel_effects task fetches
    have hn' : n = 0 ∨ n = 1 ∨ n = 2 ∨ n = 3 := by omega
    unfold processTask
    rw [hloop]
    rcases hn' with rfl | rfl | rfl | rfl <;> cases publishCase <;>
      simp [downloadCalls, published, List.range', List.flatMap]

/-- C8 at a concrete input: two attempts answered with HTTP 500, the third with
a body of two bytes. -/
theorem processTask_retries_until_success_witness :
    (2 < 4 ∧
      (∀ a, a < 2 →
        ¬ ((Download ((fun a => if a < 2 then Fetch.response 500 [] none
              else Fetch.response 200 [1, 2] none) a)).2 = none ∧
          (Download ((fun a => if a < 2 then Fetch.response 500 [] none
              else Fetch.response 200 [1, 2] none) a)).1.length > 0)) ∧
      ((Download ((fun a => if a < 2 then Fetch.response 500 [] none
            else Fetch.response 200 [1, 2] none) 2)).2 = none ∧
        (Download ((fun a => if a < 2 then Fetch.response 500 [] none
            else Fetch.response 200 [1, 2] none) 2)).1.length > 0)) ∧
    (downloadCalls (processTask { URL := "u", TrackID := "t" }
        (fun a => if a < 2 then Fetch.response 500 [] none else Fetch.response 200 [1, 2] none)
        (fun _ => false) .sent) = List.replicate (2 + 1) "u" ∧
      published (processTask { URL := "u", TrackID := "t" }
        (fun a => if a < 2 then Fetch.response 500 [] none else Fetch.response 200 [1, 2] none)
        (fun _ => false) .sent) =
        [{ Data := [1, 2], Filename := "", URL := "u", TrackID := "t" }] ∧
      ([1, 2] : Bytes) ≠ []) :=
  ⟨⟨by decide, by decide, by decide⟩,
    (processTask_retries_until_success { URL := "u", TrackID := "t" }
      (fun a => if a < 2 then Fetch.response 500 [] none else Fetch.response 200 [1, 2] none)).1
      2 (by decide) (by decide) (by decide)⟩

/-- C8, counterexample. There is no cancellation and the first `Download`
returns a body of one byte, but the send on the result channel is not taken
within 5 seconds: `processTask` has made its one call, drops the result and
publishes nothing. -/
theorem processTask_untaken_send_publishes_nothing :
    processTask ⟨"u", "t"⟩ (fun _ => Fetch.response 200 [1] none) (fun _ => false) .timeout =
      [TaskEffect.download "u", TaskEffect.sendTimeout ⟨[1], "", "u", "t"⟩] ∧
    published (processTask ⟨"u", "t"⟩ (fun _ => Fetch.response 200 [1] none) (fun _ => false)
      .timeout) = [] := by
  decide

/-- The attempt loop without cancellation: it ends normally after `n + 1`
`Download` calls, `n ≤ 3`, having waited `a × 2` seconds before each retry `a`
in `1..n` and nothing before the first call. -/
theorem attemptLoop_no_cancel (task : DownloadTask) (fetches : Nat → Fetch) :
    ∃ (n : Nat) (cur : Bytes × Option String) (fx : List TaskEffect), n ≤ 3 ∧
      attemptLoop task fetches (fun _ => false) (maxRetries + 1) 0 ([], none) = (some cur, fx) ∧
      fx.head? = some (TaskEffect.download task.URL) ∧
      waits fx = (List.range' 1 n).map (fun (a : Nat) => (a : Int) * 2 * Second) ∧
      downloadCalls fx = List.replicate (n + 1) task.URL ∧
      ((∀ a, a < 4 → ¬ ((Download (fetches a)).2 = none ∧ (Download (fetches a)).1.length > 0)) →
        n = 3) := by
  by_cases h0 : (Download (fetches 0)).2 = none ∧ (Download (fetches 0)).1.length > 0
  · refine ⟨0, _, _, by omega, by simp [attemptLoop, maxRetries, h0]; exact ⟨rfl, rfl⟩, ?_, ?_, ?_,
      fun hf => absurd h0 (hf 0 (by omega))⟩
    · rfl
    · simp [waits]
    · simp [downloadCalls]
  · by_cases h1 : (Download (fetches 1)).2 = none ∧ (Download (fetches 1)).1.length > 0
    · refine ⟨1, _, _, by omega, by simp [attemptLoop, maxRetries, h0, h1]; exact ⟨rfl, rfl⟩,
        ?_, ?_, ?_, fun hf => absurd h1 (hf 1 (by omega))⟩
      · rfl
      · simp [waits]
      · simp [downloadCalls, List.replicate]
    · by_cases h2 : (Download (fetches 2)).2 = none ∧ (Download (fetches 2)).1.length > 0
      · refine ⟨2, _, _, by omega,
          by simp [attemptLoop, maxRetries, h0, h1, h2]; exact ⟨rfl, rfl⟩,
          ?_, ?_, ?_, fun hf => absurd h2 (hf 2 (by omega))⟩
        · rfl
        · simp [waits, List.range']
        · simp [downloadCalls, List.replicate]
      · by_cases h3 : (Download (fetches 3)).2 = none ∧ (Download (fetches 3)).1.length > 0
        · refine ⟨3, _, _, by omega,
            by simp [attemptLoop, maxRetries, h0, h1, h2, h3]; exact ⟨rfl, rfl⟩,
            ?_, ?_, ?_, fun _ => rfl⟩
          · rfl
          · simp [waits, List.range']
          · simp [downloadCalls, List.replicate]
        · refine ⟨3, _, _, by omega,
            by simp [attemptLoop, maxRetries, h0, h1, h2, h3]; exact ⟨rfl, rfl⟩,
            ?_, ?_, ?_, fun _ => rfl⟩
          · rfl
          · simp [waits, List.range']
          · simp [downloadCalls, List.replicate]

/-- C9. With no cancellation, the effects of `processTask` are, in this order: a
`Download` call with no wait before it; then, for each retry `a = 1, ..., n`, a
wait of exactly `a × 2` seconds immediately followed by the `Download` call of
retry `a`; then the one effect of the final `select`. Here `n ≤ 3` is the first
attempt that succeeds, or 3 when none does. So the wait before retry `a` is
`a × 2` seconds, and a task that exhausts all 4 attempts has waited 2, 4 and 6
seconds, 12 seconds in total. -/
theorem processTask_linear_backoff (task : DownloadTask) (fetches : Nat → Fetch)
    (publishCase : PublishCase) :
    (∃ n : Nat, n ≤ 3 ∧
      processTask task fetches (fun _ => false) publishCase =
        TaskEffect.download task.URL ::
          (List.range' 1 n).flatMap (fun (a : Nat) =>
            [TaskEffect.wait ((a : Int) * 2 * Second), TaskEffect.download task.URL]) ++
          [match publishCase with
            | .sent => TaskEffect.publish
                { URL := task.URL, TrackID := task.TrackID,
                  Data := (Download (fetches n)).1, Filename := "" }
            | .ctxDone => TaskEffect.discard
                { URL := task.URL, TrackID := task.TrackID,
                  Data := (Download (fetches n)).1, Filename := "" }
            | .timeout => TaskEffect.sendTimeout
                { URL := task.URL, TrackID := task.TrackID,
                  Data := (Download (fetches n)).1, Filename := "" }] ∧
      (∀ a, a < n → ¬ ((Download (fetches a)).2 = none ∧ (Download (fetches a)).1.length > 0)) ∧
      (((Download (fetches n)).2 = none ∧ (Download (fetches n)).1.length > 0) ∨ n = 3) ∧
      waits (processTask task fetches (fun _ => false) publishCase) =
        (List.range' 1 n).map (fun (a : Nat) => (a : Int) * 2 * Second) ∧
      downloadCalls (processTask task fetches (fun _ => false) publishCase) =
        List.replicate (n + 1) task.URL) ∧
    (processTask task fetches (fun _ => false) publishCase).head? =
      some (TaskEffect.download task.URL) ∧
    ((∀ a, a < 4 → ¬ ((Download (fetches a)).2 = none ∧ (Download (fetches a)).1.length > 0)) →
      processTask task fetches (fun _ => false) publishCase =
        [TaskEffect.download task.URL,
          TaskEffect.wait (2 * Second), TaskEffect.download task.URL,
          TaskEffect.wait (4 * Second), TaskEffect.download task.URL,
          TaskEffect.wait (6 * Second), TaskEffect.download task.URL,
          match publishCase with
            | .sent => TaskEffect.publish
                { URL := task.URL, TrackID := task.TrackID, Data := [], Filename := "" }
            | .ctxDone => TaskEffect.discard
                { URL := task.URL, TrackID := task.TrackID, Data := [], Filename := "" }
            | .timeout => TaskEffect.sendTimeout
                { URL := task.URL, TrackID := task.TrackID, Data := [], Filename := "" }] ∧
      waits (processTask task fetches (fun _ => false) publishCase) =
        [2 * Second, 4 * Second, 6 * Second] ∧
      (waits (processTask task fetches (fun _ => false) publishCase)).sum = 12 * Second ∧
      12 * Second = 12000000000) := by
  obtain ⟨n, hn, hloop, hfail, hlast⟩ := attemptLoop_no_cancel_effects task fetches
  have hpt : processTask task fetches (fun _ => false) publishCase =
      TaskEffect.download task.URL ::
        (List.range' 1 n).flatMap (fun (a : Nat) =>
          [TaskEffect.wait ((a : Int) * 2 * Second), TaskEffect.download task.URL]) ++
        [match publishCase with
          | .sent => TaskEffect.publish
              { URL := task.URL, TrackID := task.TrackID,
                Data := (Download (fetches n)).1, Filename := "" }
          | .ctxDone => TaskEffect.discard
              { URL := task.URL, TrackID := task.TrackID,
                Data := (Download (fetches n)).1, Filename := "" }
          | .timeout => TaskEffect.sendTimeout
              { URL := task.URL, TrackID := task.TrackID,
                Data := (Download (fetches n)).1, Filename := "" }] := by
    unfold processTask
    rw [hloop]
    cases publishCase <;> rfl
  have hn' : n = 0 ∨ n = 1 ∨ n = 2 ∨ n = 3 := by omega
  have hw : waits (processTask task fetches (fun _ => false) publishCase) =
      (List.range' 1 n).map (fun (a : Nat) => (a : Int) * 2 * Second) := by
    rw [hpt]
    rcases hn' with rfl | rfl | rfl | rfl <;> cases publishCase <;>
      simp [waits, List.range', List.flatMap]
  have hd : downloadCalls (processTask task fetches (fun _ => false) publishCase) =
      List.replicate (n + 1) task.URL := by
    rw [hpt]
    rcases hn' with rfl | rfl | rfl | rfl <;> cases publishCase <;>
      simp [downloadCalls, List.range', List.flatMap, List.replicate]
  refine ⟨⟨n, hn, hpt, hfail, hlast, hw, hd⟩, by rw [hpt]; rfl, ?_⟩
  intro hf
  have h3 : n = 3 := by
    rcases hlast with h | h
    · by_contra hne
      exact hf n (by omega) h
    · exact h
  subst h3
  have hdata : (Download (fetches 3)).1 = [] := download_data_of_failed (fetches 3) (hf 3 (by omega))
  have hw3 : waits (processTask task fetches (fun _ => false) publishCase) =
      [2 * Second, 4 * Second, 6 * Second] := by
    rw [hw]; simp [List.range']
  refine ⟨?_, hw3, ?_, by simp [Second]⟩
  · rw [hpt, hdata]
    cases publishCase <;> simp [List.range', List.flatMap]
  · rw [hw3]; simp; ring

/-- C9 at a concrete input: every attempt is answered with HTTP 503. -/
theorem processTask_linear_backoff_witness :
    (∀ a, a < 4 →
      ¬ ((Download ((fun _ => Fetch.response 503 [] none) a)).2 = none ∧
        (Download ((fun _ => Fetch.response 503 [] none) a)).1.length > 0)) ∧
    processTask { URL := "u", TrackID := "t" } (fun _ => Fetch.response 503 [] none)
        (fun _ => false) .sent =
      [TaskEffect.download "u",
        TaskEffect.wait (2 * Second), TaskEffect.download "u",
        TaskEffect.wait (4 * Second), TaskEffect.download "u",
        TaskEffect.wait (6 * Second), TaskEffect.download "u",
        TaskEffect.publish { URL := "u", TrackID := "t", Data := [], Filename := "" }] ∧
    (waits (processTask { URL := "u", TrackID := "t" } (fun _ => Fetch.response 503 [] none)
        (fun _ => false) .sent) = [2 * Second, 4 * Second, 6 * Second] ∧
      (waits (processTask { URL := "u", TrackID := "t" } (fun _ => Fetch.response 503 [] none)
        (fun _ => false) .sent)).sum = 12 * Second ∧
      12 * Second = 12000000000) :=
  ⟨by decide,
    ((processTask_linear_backoff { URL := "u", TrackID := "t" }
      (fun _ => Fetch.response 503 [] none) .sent).2.2 (by decide)).1,
    ((processTask_linear_backoff { URL := "u", TrackID := "t" }
      (fun _ => Fetch.response 503 [] none) .sent).2.2 (by decide)).2⟩

theorem bodyLimit_eq : bodyLimit = 10485760 := by
  unfold bodyLimit
  norm_num

/-- On a status 200 response whose body exceeds the limit, `Download` returns
the first `bodyLimit` bytes and a nil error. -/
theorem download_of_oversized (body : Bytes) (readErr : Option String)
    (h : bodyLimit < body.length) :
    Download (.response 200 body readErr) = (body.take bodyLimit, none) := by
  have hlen : (body.take bodyLimit).length = bodyLimit := by
    rw [List.length_take]; omega
  have hpos : (body.take bodyLimit).length ≠ 0 := by
    rw [hlen, bodyLimit_eq]; omega
  unfold Download readAllLimited
  simp only [ne_eq, not_true_eq_false, if_false, if_pos (le_of_lt h)]
  rw [if_neg hpos]

/-- C10, counterexample. A status 200 response with a body of `10 MiB + 1`
bytes is not treated as a failure: `Download` returns a nil error and a payload
of `10 MiB` bytes. -/
theorem download_oversized_is_accepted :
    bodyLimit < (List.replicate 10485761 (0 : UInt8)).length ∧
    (Download (.response 200 (List.replicate 10485761 (0 : UInt8)) none)).2 = none ∧
    (Download (.response 200 (List.replicate 10485761 (0 : UInt8)) none)).1.length
      = 10485760 := by
  have h : bodyLimit < (List.replicate 10485761 (0 : UInt8)).length := by
    rw [List.length_replicate, bodyLimit_eq]; omega
  refine ⟨h, ?_, ?_⟩
  · rw [download_of_oversized _ _ h]
  · rw [download_of_oversized _ _ h, List.length_take, List.length_replicate, bodyLimit_eq]
    omega

/-- C10 (amended). For every HTTP 200 response whose body is larger than
`10×1024×1024` bytes, `Download` reads only the first `10×1024×1024` bytes and
returns them as payload with a nil error; `processTask` accepts this truncated
payload on that attempt: it makes no further `Download` call and publishes the
truncated body. -/
theorem download_truncates_oversized (task : DownloadTask) (fetches : Nat → Fetch)
    (body : Bytes) (readErr : Option String) (h : bodyLimit < body.length)
    (hfirst : fetches 0 = .response 200 body readErr) :
    Download (.response 200 body readErr) = (body.take bodyLimit, none) ∧
    (body.take bodyLimit).length = 10 * 1024 * 1024 ∧
    downloadCalls (processTask task fetches (fun _ => false) .sent) = [task.URL] ∧
    published (processTask task fetches (fun _ => false) .sent) =
      [{ Data := body.take bodyLimit, Filename := "", URL := task.URL,
         TrackID := task.TrackID }] := by
  have hd := download_of_oversized body readErr h
  have hlen : (body.take bodyLimit).length = bodyLimit := by
    rw [List.length_take]; omega
  have hpos : 0 < (body.take bodyLimit).length := by
    rw [hlen, bodyLimit_eq]; omega
  have hb : 0 < bodyLimit := by rw [bodyLimit_eq]; omega
  have hbl : 0 < body.length := by omega
  refine ⟨hd, by rw [hlen]; rfl, ?_, ?_⟩
  · simp [processTask, attemptLoop, maxRetries, hfirst, hd, hb, hbl, downloadCalls]
  · simp [processTask, attemptLoop, maxRetries, hfirst, hd, hb, hbl, published]

/-- C10 at a concrete input: a body of `10 MiB + 1` bytes on the first attempt. -/
theorem download_truncates_oversized_witness :
    (bodyLimit < (List.replicate 10485761 (0 : UInt8)).length ∧
      (fun _ : Nat => Fetch.response 200 (List.replicate 10485761 (0 : UInt8)) none) 0 =
        Fetch.response 200 (List.replicate 10485761 (0 : UInt8)) none) ∧
    downloadCalls (processTask { URL := "u", TrackID := "t" }
      (fun _ => Fetch.response 200 (List.replicate 10485761 (0 : UInt8)) none)
      (fun _ => false) .sent) = ["u"] :=
  ⟨⟨by rw [List.length_replicate, bodyLimit_eq]; omega, rfl⟩,
    (download_truncates_oversized { URL := "u", TrackID := "t" }
      (fun _ => Fetch.response 200 (List.replicate 10485761 (0 : UInt8)) none)
      (List.replicate 10485761 (0 : UInt8)) none
      (by rw [List.length_replicate, bodyLimit_eq]; omega) rfl).2.2.1⟩

/-! ## `getNextWorker`: the scan of the pool -/

theorem wrapInt32_add_wrapInt32 (x y : Int) : wrapInt32 (wrapInt32 x + y) = wrapInt32 (x + y) := by
  unfold wrapInt32
  omega

theorem wrapInt32_succ_of_nonneg (v : Int) (h0 : 0 ≤ wrapInt32 v) (h1 : 0 ≤ wrapInt32 (v + 1)) :
    wrapInt32 (v + 1) = wrapInt32 v + 1 := by
  unfold wrapInt32 at *
  omega

/-- One iteration of the scan when the cursor after the increment is not
negative: the index is the cursor modulo the size of the pool, it is in range,
and the scan returns that agent or goes on. -/
theorem scanWorkers_step (bots : List BotWorker) (hn : 0 < bots.length) (k : Nat) (c : Int)
    (hv : 0 ≤ addInt32 c 1) :
    ∃ w, bots[(addInt32 c 1 % (bots.length : Int)).toNat]? = some w ∧
      scanWorkers bots (k + 1) c =
        if w.failures < 3 then
          ⟨.found (addInt32 c 1 % (bots.length : Int)).toNat, addInt32 c 1,
            [addInt32 c 1 % (bots.length : Int)]⟩
        else
          { scanWorkers bots k (addInt32 c 1) with
            examined := addInt32 c 1 % (bots.length : Int) ::
              (scanWorkers bots k (addInt32 c 1)).examined } := by
  have hnpos : (0 : Int) < (bots.length : Int) := by exact_mod_cast hn
  have hmod : (addInt32 c 1).tmod (bots.length : Int) = addInt32 c 1 % (bots.length : Int) :=
    Int.tmod_eq_emod hv (le_of_lt hnpos)
  have h0 : 0 ≤ addInt32 c 1 % (bots.length : Int) := Int.emod_nonneg _ (ne_of_gt hnpos)
  have hlt : addInt32 c 1 % (bots.length : Int) < (bots.length : Int) := Int.emod_lt_of_pos _ hnpos
  have hidx : (addInt32 c 1 % (bots.length : Int)).toNat < bots.length := (Int.toNat_lt h0).2 hlt
  refine ⟨bots[(addInt32 c 1 % (bots.length : Int)).toNat], List.getElem?_eq_getElem hidx, ?_⟩
  rw [scanWorkers]
  simp only [hmod, not_lt.2 h0, if_false, List.getElem?_eq_getElem hidx]

theorem scanWorkers_examined_pos (bots : List BotWorker) (k : Nat) (c : Int) :
    0 < (scanWorkers bots (k + 1) c).examined.length := by
  rw [scanWorkers]
  simp only
  split
  · simp
  · split
    · simp
    · split <;> simp

/-- When the agent `d` steps ahead of the cursor has fewer than 3 failures and
the cursor values taken stay non-negative, the scan returns an agent with fewer
than 3 failures, found after `m ≤ d` steps. -/
theorem scanWorkers_found (bots : List BotWorker) (hn : 0 < bots.length) :
    ∀ (k : Nat) (c : Int) (d : Nat), 1 ≤ d → d ≤ k →
      (∃ w, bots[((addInt32 c 1 + (d : Int) - 1) % (bots.length : Int)).toNat]? = some w ∧
        w.failures < 3) →
      (∀ i : Nat, i < (scanWorkers bots k c).examined.length →
        0 ≤ wrapInt32 (c + (i : Int) + 1)) →
      ∃ (m : Nat) (w : BotWorker), 1 ≤ m ∧ m ≤ d ∧
        (scanWorkers bots k c).result =
          .found ((addInt32 c 1 + (m : Int) - 1) % (bots.length : Int)).toNat ∧
        bots[((addInt32 c 1 + (m : Int) - 1) % (bots.length : Int)).toNat]? = some w ∧
        w.failures < 3 ∧ (scanWorkers bots k c).examined.length = m ∧
        (scanWorkers bots k c).currentWorker = addInt32 c 1 + (m : Int) - 1 := by
  intro k
  induction k with
  | zero => intro c d h1 hk; omega
  | succ k ih =>
    intro c d h1 hk hp hc
    have hv : 0 ≤ addInt32 c 1 := by
      have := hc 0 (scanWorkers_examined_pos bots k c)
      simpa [addInt32] using this
    obtain ⟨w, hw, hstep⟩ := scanWorkers_step bots hn k c hv
    by_cases hf : w.failures < 3
    · refine ⟨1, w, le_refl 1, h1, ?_, ?_, hf, ?_, ?_⟩
      · rw [hstep, if_pos hf]; simp
      · simpa using hw
      · rw [hstep, if_pos hf]; simp
      · rw [hstep, if_pos hf]; simp
    · rw [hstep, if_neg hf] at hc ⊢
      have hd1 : d ≠ 1 := by
        rintro rfl
        obtain ⟨w', hw', hf'⟩ := hp
        simp only [Nat.cast_one, add_sub_cancel_right] at hw'
        rw [hw] at hw'
        cases hw'
        exact hf hf'
      have hlen : 1 < (addInt32 c 1 % (bots.length : Int) ::
          (scanWorkers bots k (addInt32 c 1)).examined).length := by
        have : 0 < (scanWorkers bots k (addInt32 c 1)).examined.length := by
          obtain ⟨k', rfl⟩ : ∃ k', k = k' + 1 := ⟨k - 1, by omega⟩
          exact scanWorkers_examined_pos bots k' _
        simp only [List.length_cons]; omega
      have hv2 : 0 ≤ wrapInt32 (c + 1 + 1) := by
        have := hc 1 hlen
        simpa using this
      have hsucc : addInt32 (addInt32 c 1) 1 = addInt32 c 1 + 1 := by
        unfold addInt32 at hv ⊢
        rw [wrapInt32_add_wrapInt32]
        exact wrapInt32_succ_of_nonneg _ hv hv2
      obtain ⟨m, w2, hm1, hmd, hres, hw2, hf2, hlen2, hcw2⟩ := ih (addInt32 c 1) (d - 1) (by omega)
        (by omega)
        (by
          obtain ⟨w', hw', hf'⟩ := hp
          refine ⟨w', ?_, hf'⟩
          rw [hsucc]
          have : addInt32 c 1 + 1 + ((d - 1 : Nat) : Int) - 1 = addInt32 c 1 + (d : Int) - 1 := by
            omega
          rw [this]; exact hw')
        (by
          intro i hi
          have h3 := hc (i + 1) (by simp only [List.length_cons]; omega)
          have e : wrapInt32 (addInt32 c 1 + (i : Int) + 1) =
              wrapInt32 (c + ((i + 1 : Nat) : Int) + 1) := by
            unfold addInt32 wrapInt32
            push_cast
            omega
          rw [e]; exact h3)
      have hidx : addInt32 (addInt32 c 1) 1 + (m : Int) - 1 =
          addInt32 c 1 + ((m + 1 : Nat) : Int) - 1 := by
        rw [hsucc]; push_cast; ring
      refine ⟨m + 1, w2, by omega, by omega, ?_, ?_, hf2, ?_, ?_⟩
      · simp only; rw [hres, hidx]
      · rw [← hidx]; exact hw2
      · simp only [List.length_cons, hlen2]
      · simp only; rw [hcw2, hidx]

/-- The result of `getNextWorker` on a non-empty pool, in terms of the scan. -/
theorem getNextWorker_of_nonempty (s : Sender) (hn : 0 < s.workerBots.length) :
    (getNextWorker s).examined =
      (scanWorkers s.workerBots (s.workerBots.length * 2) s.currentWorker).examined ∧
    (∀ idx, (scanWorkers s.workerBots (s.workerBots.length * 2) s.currentWorker).result =
        .found idx →
      (getNextWorker s).selected = .worker idx ∧
      (getNextWorker s).sender.workerBots = s.workerBots) ∧
    ((scanWorkers s.workerBots (s.workerBots.length * 2) s.currentWorker).result = .exhausted →
      (getNextWorker s).selected = .worker 0 ∧
      (getNextWorker s).sender.workerBots =
        s.workerBots.map (fun worker => { worker with failures := 0 })) ∧
    (getNextWorker s).sender.currentWorker =
      (scanWorkers s.workerBots (s.workerBots.length * 2) s.currentWorker).currentWorker := by
  have h0 : s.workerBots.length ≠ 0 := by omega
  unfold getNextWorker
  simp only [h0, if_false]
  cases (scanWorkers s.workerBots (s.workerBots.length * 2) s.currentWorker).result <;> simp

/-- C11. For every non-empty pool in which some agent has fewer than 3
failures, and every cursor whose values during the call (the value after each
atomic increment) are non-negative, `getNextWorker` returns an agent of the
pool with fewer than 3 failures and leaves every failure counter unchanged. -/
theorem getNextWorker_returns_healthy (s : Sender) (hne : s.workerBots ≠ [])
    (hcur : ∀ i : Nat, i < (getNextWorker s).examined.length →
      0 ≤ wrapInt32 (s.currentWorker + (i : Int) + 1))
    (hex : ∃ w ∈ s.workerBots, w.failures < 3) :
    ∃ (idx : Nat) (w : BotWorker), (getNextWorker s).selected = .worker idx ∧
      s.workerBots[idx]? = some w ∧ w.failures < 3 ∧
      (getNextWorker s).sender.workerBots = s.workerBots := by
  have hn : 0 < s.workerBots.length := List.length_pos.2 hne
  have hnpos : (0 : Int) < (s.workerBots.length : Int) := by exact_mod_cast hn
  obtain ⟨hex1, hfound, _, _⟩ := getNextWorker_of_nonempty s hn
  rw [hex1] at hcur
  obtain ⟨w, hw, hf⟩ := hex
  obtain ⟨p, hp, rfl⟩ := List.getElem_of_mem hw
  -- the distance from the cursor to the position `p`
  have hd0 : 0 ≤ ((p : Int) - addInt32 s.currentWorker 1) % (s.workerBots.length : Int) :=
    Int.emod_nonneg _ (ne_of_gt hnpos)
  have hdlt : ((p : Int) - addInt32 s.currentWorker 1) % (s.workerBots.length : Int) <
      (s.workerBots.length : Int) := Int.emod_lt_of_pos _ hnpos
  obtain ⟨d0, hd0eq⟩ : ∃ d0 : Nat, (d0 : Int) =
      ((p : Int) - addInt32 s.currentWorker 1) % (s.workerBots.length : Int) :=
    ⟨_, Int.toNat_of_nonneg hd0⟩
  have htarget : (addInt32 s.currentWorker 1 + ((d0 + 1 : Nat) : Int) - 1) %
      (s.workerBots.length : Int) = (p : Int) := by
    have : addInt32 s.currentWorker 1 + ((d0 + 1 : Nat) : Int) - 1 =
        addInt32 s.currentWorker 1 + (d0 : Int) := by push_cast; ring
    rw [this, hd0eq, Int.add_emod_emod]
    have : addInt32 s.currentWorker 1 + ((p : Int) - addInt32 s.currentWorker 1) = (p : Int) := by
      ring
    rw [this]
    exact Int.emod_eq_of_lt (by omega) (by exact_mod_cast hp)
  obtain ⟨m, w2, _, _, hres, hw2, hf2, _⟩ := scanWorkers_found s.workerBots hn
    (s.workerBots.length * 2) s.currentWorker (d0 + 1) (by omega) (by omega)
    ⟨s.workerBots[p], by rw [htarget]; simp [List.getElem?_eq_getElem hp], hf⟩ hcur
  obtain ⟨hsel, hsame⟩ := hfound _ hres
  exact ⟨_, w2, hsel, hw2, hf2, hsame⟩

/-- C11 at a concrete input: three agents with 3, 1 and 5 failures, cursor 4. -/
theorem getNextWorker_returns_healthy_witness :
    (([⟨0, 3⟩, ⟨0, 1⟩, ⟨0, 5⟩] : List BotWorker) ≠ [] ∧
      (∀ i : Nat, i < (getNextWorker ⟨[⟨0, 3⟩, ⟨0, 1⟩, ⟨0, 5⟩], 4, 10, 100, 1⟩).examined.length →
        0 ≤ wrapInt32 ((4 : Int) + (i : Int) + 1)) ∧
      ∃ w ∈ ([⟨0, 3⟩, ⟨0, 1⟩, ⟨0, 5⟩] : List BotWorker), w.failures < 3) ∧
    ∃ (idx : Nat) (w : BotWorker),
      (getNextWorker ⟨[⟨0, 3⟩, ⟨0, 1⟩, ⟨0, 5⟩], 4, 10, 100, 1⟩).selected = .worker idx ∧
      ([⟨0, 3⟩, ⟨0, 1⟩, ⟨0, 5⟩] : List BotWorker)[idx]? = some w ∧ w.failures < 3 ∧
      (getNextWorker ⟨[⟨0, 3⟩, ⟨0, 1⟩, ⟨0, 5⟩], 4, 10, 100, 1⟩).sender.workerBots =
        [⟨0, 3⟩, ⟨0, 1⟩, ⟨0, 5⟩] :=
  ⟨⟨by decide, by decide, by decide⟩,
    getNextWorker_returns_healthy ⟨[⟨0, 3⟩, ⟨0, 1⟩, ⟨0, 5⟩], 4, 10, 100, 1⟩ (by decide)
      (by decide) (by decide)⟩

/-- When every agent has 3 failures or more and the cursor values taken stay
non-negative, the scan skips all `k` candidates. -/
theorem scanWorkers_exhausted (bots : List BotWorker) (hn : 0 < bots.length)
    (hall : ∀ w ∈ bots, 3 ≤ w.failures) :
    ∀ (k : Nat) (c : Int),
      (∀ i : Nat, i < (scanWorkers bots k c).examined.length →
        0 ≤ wrapInt32 (c + (i : Int) + 1)) →
      (scanWorkers bots k c).result = .exhausted ∧
      (scanWorkers bots k c).examined.length = k := by
  intro k
  induction k with
  | zero => intro c _; exact ⟨rfl, rfl⟩
  | succ k ih =>
    intro c hc
    have hv : 0 ≤ addInt32 c 1 := by
      have := hc 0 (scanWorkers_examined_pos bots k c)
      simpa [addInt32] using this
    obtain ⟨w, hw, hstep⟩ := scanWorkers_step bots hn k c hv
    have hf : ¬ w.failures < 3 := not_lt.2 (hall w (List.getElem?_mem hw))
    rw [hstep, if_neg hf] at hc ⊢
    obtain ⟨i1, i2⟩ := ih (addInt32 c 1) (by
      intro i hi
      have h3 := hc (i + 1) (by simp only [List.length_cons]; omega)
      have e : wrapInt32 (addInt32 c 1 + (i : Int) + 1) =
          wrapInt32 (c + ((i + 1 : Nat) : Int) + 1) := by
        unfold addInt32 wrapInt32
        push_cast
        omega
      rw [e]; exact h3)
    exact ⟨i1, by simp only [List.length_cons, i2]⟩

/-- The reset of `getNextWorker`: when every agent has 3 failures or more and
the cursor values taken during the call are non-negative, `getNextWorker`
examines exactly `2n` candidates, sets every failure counter to 0 and returns
the first agent of the pool. -/
theorem getNextWorker_resets_when_all_failed (s : Sender) (hne : s.workerBots ≠ [])
    (hcur : ∀ i : Nat, i < (getNextWorker s).examined.length →
      0 ≤ wrapInt32 (s.currentWorker + (i : Int) + 1))
    (hall : ∀ w ∈ s.workerBots, 3 ≤ w.failures) :
    (getNextWorker s).examined.length = 2 * s.workerBots.length ∧
    (getNextWorker s).selected = .worker 0 ∧
    (getNextWorker s).sender.workerBots.length = s.workerBots.length ∧
    (∀ w ∈ (getNextWorker s).sender.workerBots, w.failures = 0) := by
  have hn : 0 < s.workerBots.length := List.length_pos.2 hne
  obtain ⟨hex1, _, hexh, _⟩ := getNextWorker_of_nonempty s hn
  rw [hex1] at hcur ⊢
  obtain ⟨hres, hlen⟩ := scanWorkers_exhausted s.workerBots hn hall _ _ hcur
  obtain ⟨hsel, hbots⟩ := hexh hres
  refine ⟨by rw [hlen]; ring, hsel, by rw [hbots, List.length_map], ?_⟩
  intro w hw
  rw [hbots] at hw
  obtain ⟨w0, _, rfl⟩ := List.mem_map.1 hw
  rfl

/-- C12 at a failing input: three agents with 3 failures each and the cursor at
`2^31 - 1`. The increment wraps to `-2^31`, the index is `-2`, and the access
`s.workerBots[idx]` panics after one candidate: nothing is reset and no agent
is returned. -/
theorem getNextWorker_panics_after_cursor_wrap :
    (∀ w ∈ ([⟨0, 3⟩, ⟨0, 3⟩, ⟨0, 3⟩] : List BotWorker), 3 ≤ w.failures) ∧
    (getNextWorker ⟨[⟨0, 3⟩, ⟨0, 3⟩, ⟨0, 3⟩], 2147483647, 10, 100, 1⟩).selected = .panic ∧
    (getNextWorker ⟨[⟨0, 3⟩, ⟨0, 3⟩, ⟨0, 3⟩], 2147483647, 10, 100, 1⟩).examined = [-2] ∧
    (getNextWorker ⟨[⟨0, 3⟩, ⟨0, 3⟩, ⟨0, 3⟩], 2147483647, 10, 100, 1⟩).sender.workerBots =
      [⟨0, 3⟩, ⟨0, 3⟩, ⟨0, 3⟩] := by
  decide

/-! ## `StreamImage`: stage 1 and the failure counters -/

/-- Whatever the cursor, an agent returned by the scan has fewer than 3
failures. -/
theorem scanWorkers_found_healthy (bots : List BotWorker) :
    ∀ (k : Nat) (c : Int) (idx : Nat), (scanWorkers bots k c).result = .found idx →
      ∃ w, bots[idx]? = some w ∧ w.failures < 3 := by
  intro k
  induction k with
  | zero => intro c idx h; cases h
  | succ k ih =>
    intro c idx h
    rw [scanWorkers] at h
    simp only at h
    split at h
    · cases h
    · split at h
      · cases h
      · rename_i w hw
        split at h
        · rename_i hf
          simp only [Scan.found.injEq] at h
          subst h
          exact ⟨w, hw, hf⟩
        · exact ih _ idx h

/-- Whatever the cursor, an agent returned by `getNextWorker` is in the pool
and has fewer than 3 failures when the call is over. -/
theorem getNextWorker_selected_healthy (s : Sender) (idx : Nat)
    (h : (getNextWorker s).selected = .worker idx) :
    ∃ w, (getNextWorker s).sender.workerBots[idx]? = some w ∧ w.failures < 3 := by
  unfold getNextWorker at h ⊢
  by_cases h0 : s.workerBots.length = 0
  · simp only [h0, if_true] at h; cases h
  · simp only [h0, if_false] at h ⊢
    cases hres : (scanWorkers s.workerBots (s.workerBots.length * 2) s.currentWorker).result with
    | found i =>
      simp only [hres, Selected.worker.injEq] at h ⊢
      subst h
      exact scanWorkers_found_healthy _ _ _ _ hres
    | exhausted =>
      simp only [hres, Selected.worker.injEq] at h ⊢
      subst h
      have hpos : 0 < s.workerBots.length := by omega
      refine ⟨{ s.workerBots[0] with failures := 0 }, ?_, by simp⟩
      simp [List.getElem?_eq_getElem hpos]
    | outOfRange i => simp only [hres] at h; cases h

theorem failureCounts_set_lastSendTime (s : Sender) (idx : Nat) (w : BotWorker) (t : Int)
    (hw : s.workerBots[idx]? = some w) :
    failureCounts { s with workerBots := s.workerBots.set idx { w with lastSendTime := t } } =
      failureCounts s := by
  unfold failureCounts
  simp only
  apply List.ext_getElem?
  intro j
  simp only [List.getElem?_map, List.getElem?_set]
  by_cases hj : idx = j
  · subst hj
    have hlt : idx < s.workerBots.length := (List.getElem?_eq_some.1 hw).1
    simp [hlt, hw]
  · simp [hj]

theorem failureCounts_set_failures (s : Sender) (idx : Nat) (w : BotWorker) (f : Int) :
    failureCounts { s with workerBots := s.workerBots.set idx { w with failures := f } } =
      (failureCounts s).set idx f := by
  unfold failureCounts
  simp only
  apply List.ext_getElem?
  intro j
  simp only [List.getElem?_map, List.getElem?_set, List.length_map]
  by_cases hj : idx = j
  · subst hj
    by_cases hlt : idx < s.workerBots.length
    · simp [hlt]
    · simp [hlt, List.getElem?_eq_none (not_lt.1 hlt)]
  · simp [hj]

/-- The rate limiting changes no failure counter and keeps the agent in place. -/
theorem rateLimit_failureCounts (s : Sender) (now : Int) (idx : Nat) (w : BotWorker)
    (hw : s.workerBots[idx]? = some w) :
    failureCounts (rateLimit s now (some idx)).1 = failureCounts s ∧
    ∃ w1, (rateLimit s now (some idx)).1.workerBots[idx]? = some w1 ∧
      w1.failures = w.failures := by
  have hlt : idx < s.workerBots.length := (List.getElem?_eq_some.1 hw).1
  unfold rateLimit
  simp only [hw]
  split
  · exact ⟨failureCounts_set_lastSendTime s idx w _ hw,
      { w with lastSendTime := timeSleep now (s.messageInterval - (now - w.lastSendTime)) },
      by simp [hlt], rfl⟩
  · exact ⟨failureCounts_set_lastSendTime s idx w _ hw, { w with lastSendTime := now },
      by simp [hlt], rfl⟩


/-- The failure counters stay `int32` values through `getNextWorker`. -/
theorem getNextWorker_failures_int32 (s : Sender)
    (h : ∀ w ∈ s.workerBots, -2147483648 ≤ w.failures) :
    ∀ w ∈ (getNextWorker s).sender.workerBots, -2147483648 ≤ w.failures := by
  unfold getNextWorker
  by_cases h0 : s.workerBots.length = 0
  · simp only [h0, if_true]; exact h
  · simp only [h0, if_false]
    cases (scanWorkers s.workerBots (s.workerBots.length * 2) s.currentWorker).result with
    | found i => exact h
    | outOfRange i => exact h
    | exhausted =>
      intro w hw
      simp only [List.mem_map] at hw
      obtain ⟨w0, _, rfl⟩ := hw
      simp

/-- C13 (amended). In stage 1, for every send made through an agent `w` (the
agent at position `idx` returned by `getNextWorker`), with the failure counters
taken right before the send: if the send succeeds and the message returned
carries a photo with a non-empty FileID, the counter of `w` is 0 afterwards; if
it succeeds without one, no counter changes; if it fails, the counter of `w` is
exactly one more than before. In each case no other counter changes. -/
theorem mirrorAttempt_failure_counters (img : ImageData) (st : DeliveryState) (retry : Nat)
    (outcome : SendOutcome) (idx : Nat)
    (hsel : (getNextWorker st.sender).selected = .worker idx)
    (hint : ∀ w ∈ st.sender.workerBots, -2147483648 ≤ w.failures) :
    logSendsMade (mirrorAttempt img st retry outcome).effects = [some idx] ∧
    ∃ before : Int, (failureCounts (getNextWorker st.sender).sender)[idx]? = some before ∧
      (∀ photo, outcome = .ok ⟨some photo⟩ → photo.FileID ≠ "" →
        failureCounts (mirrorAttempt img st retry outcome).st.sender =
          (failureCounts (getNextWorker st.sender).sender).set idx 0) ∧
      (∀ sent, outcome = .ok sent → (∀ photo, sent.Photo = some photo → photo.FileID = "") →
        failureCounts (mirrorAttempt img st retry outcome).st.sender =
          failureCounts (getNextWorker st.sender).sender) ∧
      (∀ err sent, outcome = .fail err sent →
        failureCounts (mirrorAttempt img st retry outcome).st.sender =
          (failureCounts (getNextWorker st.sender).sender).set idx (before + 1)) := by
  obtain ⟨w, hw, hf⟩ := getNextWorker_selected_healthy st.sender idx hsel
  obtain ⟨hrl, w1, hw1, hw1f⟩ := rateLimit_failureCounts (getNextWorker st.sender).sender st.now
    idx w hw
  have hlo := getNextWorker_failures_int32 st.sender hint w (List.getElem?_mem hw)
  have hadd : addInt32 w1.failures 1 = w.failures + 1 := by
    rw [hw1f]
    unfold addInt32 wrapInt32
    omega
  have hbefore : (failureCounts (getNextWorker st.sender).sender)[idx]? = some w.failures := by
    unfold failureCounts
    rw [List.getElem?_map, hw]
    rfl
  have hset : ∀ f : Int,
      failureCounts { (rateLimit (getNextWorker st.sender).sender st.now (some idx)).1 with
        workerBots := (rateLimit (getNextWorker st.sender).sender st.now
          (some idx)).1.workerBots.set idx { w1 with failures := f } } =
        (failureCounts (getNextWorker st.sender).sender).set idx f := by
    intro f
    rw [failureCounts_set_failures, hrl]
  refine ⟨?_, w.failures, hbefore, ?_, ?_, ?_⟩
  · unfold mirrorAttempt
    simp only [hsel]
    unfold mirrorSend rateLimit
    simp only [hw]
    cases outcome with
    | ok sent =>
      rcases sent with ⟨_ | photo⟩
      · simp only; split <;> simp [logSendsMade]
      · simp only; split <;> split <;> simp [logSendsMade]
    | fail err sent =>
      simp only; split <;> split <;> simp [logSendsMade, List.filterMap_append]
  · intro photo ho hid
    subst ho
    unfold mirrorAttempt
    simp only [hsel]
    unfold mirrorSend resetFailures
    simp only [hid, ne_eq, not_false_eq_true, if_true, hw1]
    exact hset 0
  · intro sent ho hnone
    subst ho
    unfold mirrorAttempt
    simp only [hsel]
    unfold mirrorSend
    rcases sent with ⟨_ | photo⟩
    · simp only; exact hrl
    · have hid := hnone photo rfl
      simp only [hid, ne_eq, not_true_eq_false, if_false]
      exact hrl
  · intro err sent ho
    subst ho
    unfold mirrorAttempt
    simp only [hsel]
    unfold mirrorSend countFailure
    simp only [hw1]
    split
    · simp only; rw [hset, hadd]
    · simp only; rw [hset, hadd]

/-- C13 at a concrete input: two agents with 2 and 0 failures, cursor 1; the
send goes through the first agent and fails. -/
theorem mirrorAttempt_failure_counters_witness :
    ((getNextWorker (⟨⟨[⟨0, 2⟩, ⟨0, 0⟩], 1, 10, 100, 1⟩, 1000, ""⟩ : DeliveryState).sender).selected
        = .worker 0 ∧
      ∀ w ∈ (⟨⟨[⟨0, 2⟩, ⟨0, 0⟩], 1, 10, 100, 1⟩, 1000, ""⟩ : DeliveryState).sender.workerBots,
        -2147483648 ≤ w.failures) ∧
    logSendsMade (mirrorAttempt (sampleImage 1) ⟨⟨[⟨0, 2⟩, ⟨0, 0⟩], 1, 10, 100, 1⟩, 1000, ""⟩ 0
      (.fail "connection reset" none)).effects = [some 0] ∧
    failureCounts (mirrorAttempt (sampleImage 1) ⟨⟨[⟨0, 2⟩, ⟨0, 0⟩], 1, 10, 100, 1⟩, 1000, ""⟩ 0
      (.fail "connection reset" none)).st.sender = [3, 0] :=
  ⟨⟨by decide, by decide⟩,
    (mirrorAttempt_failure_counters (sampleImage 1) ⟨⟨[⟨0, 2⟩, ⟨0, 0⟩], 1, 10, 100, 1⟩, 1000, ""⟩
      0 (.fail "connection reset" none) 0 (by decide) (by decide)).1,
    by decide⟩

/-- C13, counterexample. One agent with 2 failures; the send of stage 1 through
it succeeds, but the message returned carries no photo: the counter of the
agent is still 2 afterwards, not 0. -/
theorem streamImage_success_without_photo_keeps_failures :
    logSendsMade (StreamImage ⟨[⟨0, 2⟩], 0, 10, 0, 1⟩ 1000 (sampleImage 1) 1 1
      (fun _ => .ok ⟨none⟩) (fun _ => .ok ⟨none⟩)).effects = [some 0] ∧
    failureCounts (StreamImage ⟨[⟨0, 2⟩], 0, 10, 0, 1⟩ 1000 (sampleImage 1) 1 1
      (fun _ => .ok ⟨none⟩) (fun _ => .ok ⟨none⟩)).st.sender = [2] := by
  decide

/-- An attempt of stage 1 whose selection is the primary agent. -/
theorem mirrorAttempt_of_nil (img : ImageData) (st : DeliveryState) (retry : Nat)
    (outcome : SendOutcome) (hs : (getNextWorker st.sender).selected = .nil) :
    mirrorAttempt img st retry outcome =
      mirrorSend img { st with sender := (getNextWorker st.sender).sender } none retry outcome := by
  unfold mirrorAttempt
  simp only [hs]

/-- An attempt of stage 1 whose selection is the agent at `idx`. -/
theorem mirrorAttempt_of_worker (img : ImageData) (st : DeliveryState) (retry : Nat)
    (outcome : SendOutcome) (idx : Nat) (hs : (getNextWorker st.sender).selected = .worker idx) :
    mirrorAttempt img st retry outcome =
      mirrorSend img { st with sender := (getNextWorker st.sender).sender } (some idx) retry
        outcome := by
  unfold mirrorAttempt
  simp only [hs]

/-- An attempt of stage 1 whose selection panics. -/
theorem mirrorAttempt_of_panic (img : ImageData) (st : DeliveryState) (retry : Nat)
    (outcome : SendOutcome) (hs : (getNextWorker st.sender).selected = .panic) :
    mirrorAttempt img st retry outcome =
      ⟨true, true, { st with sender := (getNextWorker st.sender).sender }, []⟩ := by
  unfold mirrorAttempt
  simp only [hs]

/-- After a failed send of stage 1 with a throttle error, what `mirrorSend`
does after the send: it logs the wait time and sleeps one second. -/
theorem mirrorSend_of_floodWait (img : ImageData) (st : DeliveryState) (worker : Option Nat)
    (retry : Nat) (err : String) (sent : Option Message) (hflood : isFloodWait err = true) :
    (mirrorSend img st worker retry (.fail err sent)).effects =
      (rateLimit st.sender st.now worker).2.2 ++
        [SendEffect.sendLog worker img.Data,
         SendEffect.logFloodWait ((retry : Int) + 1) (waitTime err retry),
         SendEffect.sleep (1 * Second)] ∧
    (mirrorSend img st worker retry (.fail err sent)).st.now =
      (rateLimit st.sender st.now worker).2.1 + 1 * Second ∧
    (mirrorSend img st worker retry (.fail err sent)).stop = false ∧
    (mirrorSend img st worker retry (.fail err sent)).panicked = false := by
  unfold mirrorSend
  simp only [hflood, if_true, List.append_assoc, List.singleton_append, and_true]
  refine ⟨trivial, ?_⟩
  unfold timeSleep Second
  simp

/-- C14 (amended). In stage 1, when mirror send number `retry` fails with a
throttle error, the wait duration extracted for that failure (the duration that
`parseRetryAfter` reads from the hint, or `(retry + 1) × 3` seconds when it
reads none) is only logged: after the send the attempt sleeps exactly 1 second,
the clock advances by 1 second, and the loop goes on to the next attempt. -/
theorem mirrorAttempt_floodWait_sleeps_one_second (img : ImageData) (st : DeliveryState)
    (retry : Nat) (err : String) (sent : Option Message)
    (hflood : isFloodWait err = true)
    (hsel : (getNextWorker st.sender).selected ≠ .panic) :
    ∃ (worker : Option Nat) (limited : List SendEffect) (sendTime : Int),
      (mirrorAttempt img st retry (.fail err sent)).effects =
        limited ++ [SendEffect.sendLog worker img.Data,
          SendEffect.logFloodWait ((retry : Int) + 1) (waitTime err retry),
          SendEffect.sleep (1 * Second)] ∧
      (mirrorAttempt img st retry (.fail err sent)).st.now = sendTime + 1 * Second ∧
      (mirrorAttempt img st retry (.fail err sent)).stop = false ∧
      waitTime err retry =
        (if parseRetryAfter err = 0 then ((retry : Int) + 1) * 3 * Second
          else parseRetryAfter err) ∧
      1 * Second = 1000000000 := by
  cases hs : (getNextWorker st.sender).selected with
  | panic => exact absurd hs hsel
  | nil =>
    obtain ⟨h1, h2, h3, _⟩ := mirrorSend_of_floodWait img
      { st with sender := (getNextWorker st.sender).sender } none retry err sent hflood
    rw [mirrorAttempt_of_nil img st retry _ hs]
    exact ⟨none, _, _, h1, h2, h3, rfl, by simp [Second]⟩
  | worker idx =>
    obtain ⟨h1, h2, h3, _⟩ := mirrorSend_of_floodWait img
      { st with sender := (getNextWorker st.sender).sender } (some idx) retry err sent hflood
    rw [mirrorAttempt_of_worker img st retry _ idx hs]
    exact ⟨some idx, _, _, h1, h2, h3, rfl, by simp [Second]⟩

/-- C14 at a concrete input: one agent, the first mirror send answered with
"retry after 7". -/
theorem mirrorAttempt_floodWait_sleeps_one_second_witness :
    (isFloodWait "Too Many Requests: retry after 7" = true ∧
      (getNextWorker (⟨⟨[⟨0, 0⟩], 0, 10, 0, 1⟩, 1000, ""⟩ : DeliveryState).sender).selected
        ≠ .panic) ∧
    ∃ (worker : Option Nat) (limited : List SendEffect) (sendTime : Int),
      (mirrorAttempt (sampleImage 1) ⟨⟨[⟨0, 0⟩], 0, 10, 0, 1⟩, 1000, ""⟩ 0
        (.fail "Too Many Requests: retry after 7" none)).effects =
        limited ++ [SendEffect.sendLog worker (sampleImage 1).Data,
          SendEffect.logFloodWait (((0 : Nat) : Int) + 1)
            (waitTime "Too Many Requests: retry after 7" 0),
          SendEffect.sleep (1 * Second)] ∧
      (mirrorAttempt (sampleImage 1) ⟨⟨[⟨0, 0⟩], 0, 10, 0, 1⟩, 1000, ""⟩ 0
        (.fail "Too Many Requests: retry after 7" none)).st.now = sendTime + 1 * Second ∧
      (mirrorAttempt (sampleImage 1) ⟨⟨[⟨0, 0⟩], 0, 10, 0, 1⟩, 1000, ""⟩ 0
        (.fail "Too Many Requests: retry after 7" none)).stop = false ∧
      waitTime "Too Many Requests: retry after 7" 0 =
        (if parseRetryAfter "Too Many Requests: retry after 7" = 0 then
          (((0 : Nat) : Int) + 1) * 3 * Second
          else parseRetryAfter "Too Many Requests: retry after 7") ∧
      1 * Second = 1000000000 :=
  ⟨⟨by decide, by decide⟩,
    mirrorAttempt_floodWait_sleeps_one_second (sampleImage 1) ⟨⟨[⟨0, 0⟩], 0, 10, 0, 1⟩, 1000, ""⟩
      0 "Too Many Requests: retry after 7" none (by decide) (by decide)⟩

/-- C14, counterexample. One agent, no rate-limit interval; the first mirror
send fails with "retry after 7", the second succeeds. The wait extracted is 7
seconds, but between the two sends `StreamImage` sleeps 1 second only. -/
theorem streamImage_mirror_floodWait_sleeps_one_second :
    waitTime "Too Many Requests: retry after 7" 0 = 7 * Second ∧
    (StreamImage ⟨[⟨0, 0⟩], 0, 10, 0, 1⟩ 1000 (sampleImage 1) 1 1
      (fun r => if r = 0 then .fail "Too Many Requests: retry after 7" none
        else .ok ⟨some ⟨"F"⟩⟩)
      (fun _ => .ok ⟨none⟩)).effects =
      [SendEffect.sendLog (some 0) (sampleImage 1).Data,
       SendEffect.logFloodWait 1 (7 * Second),
       SendEffect.sleep (1 * Second),
       SendEffect.sendLog (some 0) (sampleImage 1).Data,
       SendEffect.sleep 0,
       SendEffect.sendUser (PhotoFile.fileID "F") "1/1"] := by
  decide

/-! ## `StreamImage`: the agent of the next attempt of stage 1 -/

/-- The cursor stays a value of `int32` through the scan. -/
theorem scanWorkers_cursor_range (bots : List BotWorker) :
    ∀ (k : Nat) (c : Int), -2147483648 ≤ c ∧ c < 2147483648 →
      -2147483648 ≤ (scanWorkers bots k c).currentWorker ∧
        (scanWorkers bots k c).currentWorker < 2147483648 := by
  intro k
  induction k with
  | zero => intro c hc; simpa [scanWorkers] using hc
  | succ k ih =>
    intro c _
    have hr := wrapInt32_range (c + 1)
    rw [scanWorkers]
    simp only
    split
    · exact hr
    · split
      · exact hr
      · split
        · exact hr
        · exact ih (addInt32 c 1) hr

/-- When the agent at position `p` has fewer than 3 failures and the cursor
values taken stay non-negative, `getNextWorker` returns the agent at the cursor,
found after `m` steps with `m` at most the distance from the cursor to `p`. -/
theorem getNextWorker_found (s : Sender) (p : Nat) (w : BotWorker)
    (hw : s.workerBots[p]? = some w) (hf : w.failures < 3)
    (hcur : ∀ i : Nat, i < (getNextWorker s).examined.length →
      0 ≤ wrapInt32 (s.currentWorker + (i : Int) + 1)) :
    ∃ m : Nat, 1 ≤ m ∧
      (m : Int) ≤ ((p : Int) - addInt32 s.currentWorker 1) % (s.workerBots.length : Int) + 1 ∧
      (getNextWorker s).selected =
        .worker ((addInt32 s.currentWorker 1 + (m : Int) - 1) % (s.workerBots.length : Int)).toNat ∧
      (getNextWorker s).sender.workerBots = s.workerBots ∧
      (getNextWorker s).sender.currentWorker = addInt32 s.currentWorker 1 + (m : Int) - 1 ∧
      0 ≤ addInt32 s.currentWorker 1 := by
  have hp : p < s.workerBots.length := by
    by_contra h
    rw [List.getElem?_eq_none (by omega)] at hw
    cases hw
  have hn : 0 < s.workerBots.length := by omega
  have hnpos : (0 : Int) < (s.workerBots.length : Int) := by exact_mod_cast hn
  obtain ⟨hex1, hfound, _, hcw⟩ := getNextWorker_of_nonempty s hn
  rw [hex1] at hcur
  have hv : 0 ≤ addInt32 s.currentWorker 1 := by
    have hk : s.workerBots.length * 2 = (s.workerBots.length * 2 - 1) + 1 := by omega
    have h0 := hcur 0 (by rw [hk]; exact scanWorkers_examined_pos _ _ _)
    simpa [addInt32] using h0
  have hd0 : 0 ≤ ((p : Int) - addInt32 s.currentWorker 1) % (s.workerBots.length : Int) :=
    Int.emod_nonneg _ (ne_of_gt hnpos)
  have hdlt : ((p : Int) - addInt32 s.currentWorker 1) % (s.workerBots.length : Int) <
      (s.workerBots.length : Int) := Int.emod_lt_of_pos _ hnpos
  obtain ⟨d0, hd0eq⟩ : ∃ d0 : Nat, (d0 : Int) =
      ((p : Int) - addInt32 s.currentWorker 1) % (s.workerBots.length : Int) :=
    ⟨_, Int.toNat_of_nonneg hd0⟩
  have htarget : (addInt32 s.currentWorker 1 + ((d0 + 1 : Nat) : Int) - 1) %
      (s.workerBots.length : Int) = (p : Int) := by
    have : addInt32 s.currentWorker 1 + ((d0 + 1 : Nat) : Int) - 1 =
        addInt32 s.currentWorker 1 + (d0 : Int) := by push_cast; ring
    rw [this, hd0eq, Int.add_emod_emod]
    have : addInt32 s.currentWorker 1 + ((p : Int) - addInt32 s.currentWorker 1) = (p : Int) := by
      ring
    rw [this]
    exact Int.emod_eq_of_lt (by omega) (by exact_mod_cast hp)
  obtain ⟨m, w2, hm1, hmd, hres, _, _, _, hcw2⟩ := scanWorkers_found s.workerBots hn
    (s.workerBots.length * 2) s.currentWorker (d0 + 1) (by omega) (by omega)
    ⟨w, by rw [htarget]; simpa using hw, hf⟩ hcur
  obtain ⟨hsel, hsame⟩ := hfound _ hres
  refine ⟨m, hm1, ?_, hsel, hsame, by rw [hcw, hcw2], hv⟩
  rw [← hd0eq]
  exact_mod_cast hmd

/-- A failed send of stage 1 through the agent at `idx` leaves the cursor and
every other agent of the pool as they were. -/
theorem mirrorSend_fail_sender (img : ImageData) (st : DeliveryState) (idx retry : Nat)
    (err : String) (sent : Option Message) :
    (mirrorSend img st (some idx) retry (.fail err sent)).st.sender.currentWorker =
      st.sender.currentWorker ∧
    (mirrorSend img st (some idx) retry (.fail err sent)).st.sender.workerBots.length =
      st.sender.workerBots.length ∧
    ∀ j : Nat, j ≠ idx →
      (mirrorSend img st (some idx) retry (.fail err sent)).st.sender.workerBots[j]? =
        st.sender.workerBots[j]? := by
  have hrl : (rateLimit st.sender st.now (some idx)).1.currentWorker = st.sender.currentWorker ∧
      (rateLimit st.sender st.now (some idx)).1.workerBots.length = st.sender.workerBots.length ∧
      ∀ j : Nat, j ≠ idx → (rateLimit st.sender st.now (some idx)).1.workerBots[j]? =
        st.sender.workerBots[j]? := by
    unfold rateLimit
    simp only
    split
    · split
      · refine ⟨rfl, by simp, ?_⟩
        intro j hj
        simp only
        rw [List.getElem?_set_ne (Ne.symm hj)]
      · refine ⟨rfl, by simp, ?_⟩
        intro j hj
        simp only
        rw [List.getElem?_set_ne (Ne.symm hj)]
    · exact ⟨rfl, rfl, fun _ _ => rfl⟩
  have hcf : ∀ s : Sender, (countFailure s (some idx)).currentWorker = s.currentWorker ∧
      (countFailure s (some idx)).workerBots.length = s.workerBots.length ∧
      ∀ j : Nat, j ≠ idx → (countFailure s (some idx)).workerBots[j]? = s.workerBots[j]? := by
    intro s
    unfold countFailure
    simp only
    split
    · refine ⟨rfl, by simp, ?_⟩
      intro j hj
      simp only
      rw [List.getElem?_set_ne (Ne.symm hj)]
    · exact ⟨rfl, rfl, fun _ _ => rfl⟩
  obtain ⟨c1, l1, g1⟩ := hcf (rateLimit st.sender st.now (some idx)).1
  obtain ⟨c2, l2, g2⟩ := hrl
  have hst : (mirrorSend img st (some idx) retry (.fail err sent)).st.sender =
      countFailure (rateLimit st.sender st.now (some idx)).1 (some idx) := by
    unfold mirrorSend
    simp only
    split <;> rfl
  rw [hst]
  exact ⟨c1.trans c2, l1.trans l2, fun j hj => (g1 j hj).trans (g2 j hj)⟩

/-- Where the retry does switch agents. Let a mirror send through the agent
`idx` fail, where `idx` was found by the round-robin scan while some other agent
`j` had fewer than 3 failures, let no other call move the shared cursor before
the next selection, and let the cursor values taken by the two calls of
`getNextWorker` stay non-negative. Then the agent selected next is an agent of
the pool with fewer than 3 failures that is different from `idx`. -/
theorem mirrorAttempt_failure_switches_agent (img : ImageData) (st : DeliveryState)
    (retry : Nat) (err : String) (sent : Option Message) (idx j : Nat) (wj : BotWorker)
    (hsel : (getNextWorker st.sender).selected = .worker idx)
    (hji : j ≠ idx) (hwj : st.sender.workerBots[j]? = some wj) (hjf : wj.failures < 3)
    (hcur0 : ∀ i : Nat, i < (getNextWorker st.sender).examined.length →
      0 ≤ wrapInt32 (st.sender.currentWorker + (i : Int) + 1))
    (hcur1 : ∀ i : Nat,
      i < (getNextWorker (mirrorAttempt img st retry (.fail err sent)).st.sender).examined.length →
      0 ≤ wrapInt32
        ((mirrorAttempt img st retry (.fail err sent)).st.sender.currentWorker + (i : Int) + 1)) :
    ∃ (next : Nat) (w : BotWorker),
      (getNextWorker (mirrorAttempt img st retry (.fail err sent)).st.sender).selected =
        .worker next ∧
      next ≠ idx ∧
      (getNextWorker (mirrorAttempt img st retry (.fail err sent)).st.sender).sender.workerBots[next]?
        = some w ∧
      w.failures < 3 := by
  have hj : j < st.sender.workerBots.length := by
    by_contra h
    rw [List.getElem?_eq_none (by omega)] at hwj
    cases hwj
  have hnpos : (0 : Int) < (st.sender.workerBots.length : Int) := by
    have : 0 < st.sender.workerBots.length := by omega
    exact_mod_cast this
  -- the first selection
  obtain ⟨m, hm1, _, hsel1, hsame1, hcw1, hv1⟩ :=
    getNextWorker_found st.sender j wj hwj hjf hcur0
  rw [hsel] at hsel1
  simp only [Selected.worker.injEq] at hsel1
  have hidx : (idx : Int) = (getNextWorker st.sender).sender.currentWorker %
      (st.sender.workerBots.length : Int) := by
    rw [hcw1, hsel1]
    exact Int.toNat_of_nonneg (Int.emod_nonneg _ (ne_of_gt hnpos))
  have hc1 : 0 ≤ (getNextWorker st.sender).sender.currentWorker := by rw [hcw1]; omega
  have hrange : (getNextWorker st.sender).sender.currentWorker < 2147483648 := by
    have hn : 0 < st.sender.workerBots.length := by omega
    obtain ⟨_, _, _, hcw⟩ := getNextWorker_of_nonempty st.sender hn
    rw [hcw]
    have hk : st.sender.workerBots.length * 2 = (st.sender.workerBots.length * 2 - 1) + 1 := by
      omega
    rw [hk, scanWorkers]
    simp only
    have hr := wrapInt32_range (st.sender.currentWorker + 1)
    split
    · exact hr.2
    · split
      · exact hr.2
      · split
        · exact hr.2
        · exact (scanWorkers_cursor_range _ _ _ hr).2
  -- the state after the failed send
  rw [mirrorAttempt_of_worker img st retry _ idx hsel] at hcur1 ⊢
  obtain ⟨hcw2, hlen2, hget2⟩ := mirrorSend_fail_sender img
    { st with sender := (getNextWorker st.sender).sender } idx retry err sent
  simp only at hcw2 hlen2 hget2
  have hwj2 := hget2 j hji
  rw [hsame1, hwj] at hwj2
  rw [hsame1] at hlen2
  -- the second selection
  obtain ⟨m2, hm21, hm2d, hsel2, _, _, hv2⟩ := getNextWorker_found _ j wj hwj2 hjf hcur1
  rw [hcw2] at hm2d hsel2 hv2
  rw [hlen2] at hm2d hsel2
  have hsucc : addInt32 (getNextWorker st.sender).sender.currentWorker 1 =
      (getNextWorker st.sender).sender.currentWorker + 1 := by
    unfold addInt32 wrapInt32 at hv2 ⊢
    omega
  rw [hsucc] at hm2d hsel2
  obtain ⟨w, hw, hwf⟩ := getNextWorker_selected_healthy _ _ hsel2
  refine ⟨_, w, hsel2, ?_, hw, hwf⟩
  intro heq
  -- the next agent is `idx` only after a full turn of the pool
  have h0 : 0 ≤ ((getNextWorker st.sender).sender.currentWorker + 1 + (m2 : Int) - 1) %
      (st.sender.workerBots.length : Int) := Int.emod_nonneg _ (ne_of_gt hnpos)
  have heq2 : ((getNextWorker st.sender).sender.currentWorker + 1 + (m2 : Int) - 1) %
      (st.sender.workerBots.length : Int) =
      (getNextWorker st.sender).sender.currentWorker % (st.sender.workerBots.length : Int) := by
    rw [← hidx, ← heq]
    exact (Int.toNat_of_nonneg h0).symm
  have hdvd : (st.sender.workerBots.length : Int) ∣ (m2 : Int) := by
    have h1 := (Int.emod_eq_emod_iff_emod_sub_eq_zero).1 heq2
    have h2 : (getNextWorker st.sender).sender.currentWorker + 1 + (m2 : Int) - 1 -
        (getNextWorker st.sender).sender.currentWorker = (m2 : Int) := by ring
    rw [h2] at h1
    exact Int.dvd_of_emod_eq_zero h1
  have hle : (st.sender.workerBots.length : Int) ≤ (m2 : Int) :=
    Int.le_of_dvd (by exact_mod_cast hm21) hdvd
  have hdlt : ((j : Int) - ((getNextWorker st.sender).sender.currentWorker + 1)) %
      (st.sender.workerBots.length : Int) < (st.sender.workerBots.length : Int) :=
    Int.emod_lt_of_pos _ hnpos
  have hd : ((j : Int) - ((getNextWorker st.sender).sender.currentWorker + 1)) %
      (st.sender.workerBots.length : Int) = (st.sender.workerBots.length : Int) - 1 := by
    omega
  have hdvd2 : (st.sender.workerBots.length : Int) ∣
      (j : Int) - (getNextWorker st.sender).sender.currentWorker := by
    have h1 := Int.dvd_sub_of_emod_eq hd
    have h2 : (j : Int) - ((getNextWorker st.sender).sender.currentWorker + 1) -
        ((st.sender.workerBots.length : Int) - 1) =
        ((j : Int) - (getNextWorker st.sender).sender.currentWorker) -
          (st.sender.workerBots.length : Int) := by ring
    rw [h2] at h1
    have h3 := dvd_add h1 (dvd_refl (st.sender.workerBots.length : Int))
    simpa using h3
  have hjmod : (j : Int) % (st.sender.workerBots.length : Int) =
      (getNextWorker st.sender).sender.currentWorker % (st.sender.workerBots.length : Int) :=
    (Int.emod_eq_emod_iff_emod_sub_eq_zero).2 (Int.emod_eq_zero_of_dvd hdvd2)
  have hjj : (j : Int) % (st.sender.workerBots.length : Int) = (j : Int) :=
    Int.emod_eq_of_lt (by omega) (by exact_mod_cast hj)
  rw [hjj, ← hidx] at hjmod
  exact hji (by exact_mod_cast hjmod)

/-- An instance of the switch: two agents without failures, cursor 1; the first
mirror send goes through agent 0 and fails, the next selection is agent 1. -/
theorem mirrorAttempt_failure_switches_agent_witness :
    ((getNextWorker (⟨⟨[⟨0, 0⟩, ⟨0, 0⟩], 1, 10, 0, 1⟩, 1000, ""⟩ : DeliveryState).sender).selected
        = .worker 0 ∧
      (1 : Nat) ≠ 0 ∧
      (⟨⟨[⟨0, 0⟩, ⟨0, 0⟩], 1, 10, 0, 1⟩, 1000, ""⟩ : DeliveryState).sender.workerBots[1]? =
        some ⟨0, 0⟩ ∧
      (⟨0, 0⟩ : BotWorker).failures < 3) ∧
    ∃ (next : Nat) (w : BotWorker),
      (getNextWorker (mirrorAttempt (sampleImage 1) ⟨⟨[⟨0, 0⟩, ⟨0, 0⟩], 1, 10, 0, 1⟩, 1000, ""⟩ 0
        (.fail "Too Many Requests: retry after 7" none)).st.sender).selected = .worker next ∧
      next ≠ 0 ∧
      (getNextWorker (mirrorAttempt (sampleImage 1) ⟨⟨[⟨0, 0⟩, ⟨0, 0⟩], 1, 10, 0, 1⟩, 1000, ""⟩ 0
        (.fail "Too Many Requests: retry after 7" none)).st.sender).sender.workerBots[next]? =
        some w ∧
      w.failures < 3 :=
  ⟨⟨by decide, by decide, by decide, by decide⟩,
    mirrorAttempt_failure_switches_agent (sampleImage 1)
      ⟨⟨[⟨0, 0⟩, ⟨0, 0⟩], 1, 10, 0, 1⟩, 1000, ""⟩ 0 "Too Many Requests: retry after 7" none 0 1
      ⟨0, 0⟩ (by decide) (by decide) (by decide) (by decide) (by decide) (by decide)⟩

/-- C15 at a failing input. Two agents, the second with 3 failures, cursor 1.
The first mirror send goes through agent 0 and fails with a throttle error; the
next selection skips agent 1 and the second mirror send goes through agent 0
again, although the log and the comment of lines 185-187 say that the retry
switches to another worker. The same happens with two agents without failures
when another call of `getNextWorker` moves the shared cursor between the failed
send and the retry: the selections are agent 0, agent 1 for the other call, and
agent 0 again for the retry. -/
theorem streamImage_retry_reuses_agent :
    isFloodWait "Too Many Requests: retry after 7" = true ∧
    logSendsMade (StreamImage ⟨[⟨0, 0⟩, ⟨0, 3⟩], 1, 10, 0, 1⟩ 1000 (sampleImage 1) 1 1
      (fun r => if r = 0 then .fail "Too Many Requests: retry after 7" none
        else .ok ⟨some ⟨"F"⟩⟩)
      (fun _ => .ok ⟨none⟩)).effects = [some 0, some 0] ∧
    (getNextWorker ⟨[⟨0, 0⟩, ⟨0, 0⟩], 1, 10, 0, 1⟩).selected = .worker 0 ∧
    (getNextWorker (mirrorAttempt (sampleImage 1) ⟨⟨[⟨0, 0⟩, ⟨0, 0⟩], 1, 10, 0, 1⟩, 1000, ""⟩ 0
      (.fail "Too Many Requests: retry after 7" none)).st.sender).selected = .worker 1 ∧
    (getNextWorker (getNextWorker (mirrorAttempt (sampleImage 1)
      ⟨⟨[⟨0, 0⟩, ⟨0, 0⟩], 1, 10, 0, 1⟩, 1000, ""⟩ 0
      (.fail "Too Many Requests: retry after 7" none)).st.sender).sender).selected =
      .worker 0 := by
  decide

/-! ## `StreamImage`: the two stages -/

theorem logSendsMade_append (a b : List SendEffect) :
    logSendsMade (a ++ b) = logSendsMade a ++ logSendsMade b := by
  simp [logSendsMade, List.filterMap_append]

theorem userSendsMade_append (a b : List SendEffect) :
    userSendsMade (a ++ b) = userSendsMade a ++ userSendsMade b := by
  simp [userSendsMade, List.filterMap_append]

theorem sleeps_append (a b : List SendEffect) : sleeps (a ++ b) = sleeps a ++ sleeps b := by
  simp [sleeps, List.filterMap_append]

/-- The rate limiting of stage 1 sends nothing. -/
theorem rateLimit_sends (s : Sender) (now : Int) (worker : Option Nat) :
    logSendsMade (rateLimit s now worker).2.2 = [] ∧
    userSendsMade (rateLimit s now worker).2.2 = [] := by
  unfold rateLimit
  cases worker with
  | none => simp [logSendsMade, userSendsMade]
  | some idx =>
    simp only
    split
    · split <;> simp [logSendsMade, userSendsMade]
    · simp [logSendsMade, userSendsMade]

/-- One attempt of stage 1 for a selected agent makes one send to the log
channel and none to the recipient; a failed send leaves the file reference as
it was and does not leave the loop. -/
theorem mirrorSend_sends (img : ImageData) (st : DeliveryState) (worker : Option Nat)
    (retry : Nat) (outcome : SendOutcome) :
    logSendsMade (mirrorSend img st worker retry outcome).effects = [worker] ∧
    userSendsMade (mirrorSend img st worker retry outcome).effects = [] ∧
    (mirrorSend img st worker retry outcome).panicked = false ∧
    (succeeded outcome = false →
      (mirrorSend img st worker retry outcome).st.fileID = st.fileID ∧
      (mirrorSend img st worker retry outcome).stop = false) := by
  obtain ⟨h1, h2⟩ := rateLimit_sends st.sender st.now worker
  have e1 : logSendsMade [SendEffect.sendLog worker img.Data] = [worker] := rfl
  have e2 : userSendsMade [SendEffect.sendLog worker img.Data] = [] := rfl
  unfold mirrorSend
  cases outcome with
  | ok sent =>
    simp only [succeeded]
    split
    · split <;>
        simp [logSendsMade_append, userSendsMade_append, h1, h2, e1, e2]
    · simp [logSendsMade_append, userSendsMade_append, h1, h2, e1, e2]
  | fail err sent =>
    simp only [succeeded]
    split
    · simp only [logSendsMade_append, userSendsMade_append, h1, h2]
      simp [logSendsMade, userSendsMade]
    · simp only [logSendsMade_append, userSendsMade_append, h1, h2]
      simp [logSendsMade, userSendsMade]

/-- One attempt of stage 1 makes at most one send to the log channel, none when
the selection panics, and none to the recipient. -/
theorem mirrorAttempt_sends (img : ImageData) (st : DeliveryState) (retry : Nat)
    (outcome : SendOutcome) :
    (logSendsMade (mirrorAttempt img st retry outcome).effects).length ≤ 1 ∧
    userSendsMade (mirrorAttempt img st retry outcome).effects = [] ∧
    ((mirrorAttempt img st retry outcome).panicked = true →
      logSendsMade (mirrorAttempt img st retry outcome).effects = []) ∧
    ((mirrorAttempt img st retry outcome).panicked = false → succeeded outcome = false →
      (mirrorAttempt img st retry outcome).st.fileID = st.fileID ∧
      (mirrorAttempt img st retry outcome).stop = false) := by
  cases hs : (getNextWorker st.sender).selected with
  | panic =>
    rw [mirrorAttempt_of_panic img st retry outcome hs]
    simp [logSendsMade, userSendsMade]
  | nil =>
    rw [mirrorAttempt_of_nil img st retry outcome hs]
    obtain ⟨h1, h2, h3, h4⟩ := mirrorSend_sends img
      { st with sender := (getNextWorker st.sender).sender } none retry outcome
    refine ⟨by rw [h1]; simp, h2, (fun h => by rw [h3] at h; cases h), fun _ h => h4 h⟩
  | worker idx =>
    rw [mirrorAttempt_of_worker img st retry outcome idx hs]
    obtain ⟨h1, h2, h3, h4⟩ := mirrorSend_sends img
      { st with sender := (getNextWorker st.sender).sender } (some idx) retry outcome
    refine ⟨by rw [h1]; simp, h2, (fun h => by rw [h3] at h; cases h), fun _ h => h4 h⟩

/-- The three ways an iteration of stage 1 goes on. -/
theorem mirrorLoop_succ (img : ImageData) (logSends : Nat → SendOutcome) (k retry : Nat)
    (st : DeliveryState) :
    ((mirrorAttempt img st retry (logSends retry)).panicked = true →
      mirrorLoop img logSends (k + 1) retry st =
        ⟨true, (mirrorAttempt img st retry (logSends retry)).st,
          (mirrorAttempt img st retry (logSends retry)).effects⟩) ∧
    ((mirrorAttempt img st retry (logSends retry)).panicked = false →
      (mirrorAttempt img st retry (logSends retry)).stop = true →
      mirrorLoop img logSends (k + 1) retry st =
        ⟨false, (mirrorAttempt img st retry (logSends retry)).st,
          (mirrorAttempt img st retry (logSends retry)).effects⟩) ∧
    ((mirrorAttempt img st retry (logSends retry)).panicked = false →
      (mirrorAttempt img st retry (logSends retry)).stop = false →
      mirrorLoop img logSends (k + 1) retry st =
        ⟨(mirrorLoop img logSends k (retry + 1)
            (mirrorAttempt img st retry (logSends retry)).st).panicked,
          (mirrorLoop img logSends k (retry + 1)
            (mirrorAttempt img st retry (logSends retry)).st).st,
          (mirrorAttempt img st retry (logSends retry)).effects ++
            (mirrorLoop img logSends k (retry + 1)
              (mirrorAttempt img st retry (logSends retry)).st).effects⟩) := by
  refine ⟨?_, ?_, ?_⟩
  · intro hp
    rw [mirrorLoop]
    simp only [hp, if_true]
  · intro hp hs
    rw [mirrorLoop]
    simp only [hp, hs, Bool.false_eq_true, if_false, if_true]
  · intro hp hs
    rw [mirrorLoop]
    simp only [hp, hs, Bool.false_eq_true, if_false]

/-- Stage 1 entered with `k` iterations left makes at most `k` sends to the log
channel, fewer when a selection panics, and none to the recipient; when every
send it makes fails, the file reference is left as it was. -/
theorem mirrorLoop_sends (img : ImageData) (logSends : Nat → SendOutcome) :
    ∀ (k retry : Nat) (st : DeliveryState),
      (logSendsMade (mirrorLoop img logSends k retry st).effects).length ≤ k ∧
      userSendsMade (mirrorLoop img logSends k retry st).effects = [] ∧
      ((mirrorLoop img logSends k retry st).panicked = true →
        (logSendsMade (mirrorLoop img logSends k retry st).effects).length < k) ∧
      ((mirrorLoop img logSends k retry st).panicked = false →
        (∀ i, i < k → succeeded (logSends (retry + i)) = false) →
        (mirrorLoop img logSends k retry st).st.fileID = st.fileID) := by
  intro k
  induction k with
  | zero =>
    intro retry st
    simp [mirrorLoop, logSendsMade, userSendsMade]
  | succ k ih =>
    intro retry st
    obtain ⟨a1, a2, a3, a4⟩ := mirrorAttempt_sends img st retry (logSends retry)
    obtain ⟨u1, u2, u3⟩ := mirrorLoop_succ img logSends k retry st
    by_cases hp : (mirrorAttempt img st retry (logSends retry)).panicked = true
    · rw [u1 hp]
      refine ⟨by simp only; omega, a2, (fun _ => by simp only; rw [a3 hp]; simp),
        (fun h => by cases h)⟩
    · have hp2 : (mirrorAttempt img st retry (logSends retry)).panicked = false := by
        simpa using hp
      by_cases hstop : (mirrorAttempt img st retry (logSends retry)).stop = true
      · rw [u2 hp2 hstop]
        refine ⟨by simp only; omega, a2, (fun h => by cases h), fun _ hall => ?_⟩
        have h0 := hall 0 (by omega)
        have := (a4 hp2 h0).2
        rw [hstop] at this
        cases this
      · have hstop2 : (mirrorAttempt img st retry (logSends retry)).stop = false := by
          simpa using hstop
        rw [u3 hp2 hstop2]
        obtain ⟨b1, b2, b3, b4⟩ := ih (retry + 1) (mirrorAttempt img st retry (logSends retry)).st
        refine ⟨?_, ?_, ?_, ?_⟩
        · simp only [logSendsMade_append, List.length_append]; omega
        · simp only [userSendsMade_append, a2, b2]; rfl
        · intro h
          have := b3 h
          simp only [logSendsMade_append, List.length_append]; omega
        · intro h hall
          have h0 := hall 0 (by omega)
          simp only at h ⊢
          rw [b4 h (fun i hi => by
            have := hall (i + 1) (by omega)
            rw [show retry + 1 + i = retry + (i + 1) by omega]
            exact this)]
          exact (a4 hp2 h0).1

/-- One iteration of stage 2 whose send fails: the send, the sleep that follows
it, and the rest of the loop. -/
theorem forwardLoop_of_fail (img : ImageData) (index total : Int)
    (userSends : Nat → SendOutcome) (k retry : Nat) (st : DeliveryState) (err : String)
    (sent : Option Message) (hus : userSends retry = .fail err sent) :
    ∃ (st2 : DeliveryState) (d : Int),
      (forwardLoop img index total userSends (k + 1) retry st).err =
        (forwardLoop img index total userSends k (retry + 1) st2).err ∧
      (forwardLoop img index total userSends (k + 1) retry st).effects =
        [SendEffect.sleep st.sender.messageInterval,
          SendEffect.sendUser (if st.fileID ≠ "" then PhotoFile.fileID st.fileID
            else PhotoFile.fromReader img.Data) (caption index total)] ++
          SendEffect.sleep d ::
            (forwardLoop img index total userSends k (retry + 1) st2).effects ∧
      d = (if isFloodWait err then waitTime err retry else ((retry : Int) + 1) * Second) ∧
      st2.sender = st.sender ∧
      (st.fileID ≠ "" → st2.fileID = st.fileID) ∧
      ((∀ m p, isFloodWait err = true → sent = some m → m.Photo = some p → p.FileID = "") →
        st2.fileID = st.fileID) := by
  by_cases hflood : isFloodWait err = true
  · refine ⟨⟨st.sender,
        timeSleep (timeSleep st.now st.sender.messageInterval) (waitTime err retry),
        captureFileID st.fileID sent⟩, waitTime err retry, ?_, ?_, by simp [hflood], ?_, ?_, ?_⟩
    · rw [forwardLoop]
      simp only [hus, hflood, if_true]
    · rw [forwardLoop]
      simp only [hus, hflood, if_true]
    · rfl
    · intro h
      simp only [captureFileID, h, if_false]
    · intro h
      simp only [captureFileID]
      split
      · rename_i h0
        cases sent with
        | none => rfl
        | some m =>
          cases hp : m.Photo with
          | none => simp only [hp]
          | some p =>
            simp only [hp]
            rw [h m p hflood rfl hp, h0]
      · rfl
  · refine ⟨⟨st.sender,
        timeSleep (timeSleep st.now st.sender.messageInterval) (((retry : Int) + 1) * Second),
        st.fileID⟩, ((retry : Int) + 1) * Second, ?_, ?_, by simp [hflood], ?_, ?_, ?_⟩
    · rw [forwardLoop]
      simp only [hus, hflood, if_false]
      rfl
    · rw [forwardLoop]
      simp only [hus, hflood, if_false]
      rfl
    · rfl
    · intro _; rfl
    · intro _; rfl

/-- One iteration of stage 2 whose send succeeds. -/
theorem forwardLoop_of_ok (img : ImageData) (index total : Int)
    (userSends : Nat → SendOutcome) (k retry : Nat) (st : DeliveryState) (sent : Message)
    (hus : userSends retry = .ok sent) :
    forwardLoop img index total userSends (k + 1) retry st =
      ⟨none, { st with now := timeSleep st.now st.sender.messageInterval },
        [SendEffect.sleep st.sender.messageInterval,
          SendEffect.sendUser (if st.fileID ≠ "" then PhotoFile.fileID st.fileID
            else PhotoFile.fromReader img.Data) (caption index total)]⟩ := by
  rw [forwardLoop]
  simp only [hus]

/-- The value that stage 2 returns depends on the answers to its sends alone,
and so does the number of its sends; stage 2 makes no send to the log
channel. -/
theorem forwardLoop_result (img : ImageData) (index total : Int)
    (userSends : Nat → SendOutcome) :
    ∀ (k retry : Nat) (st : DeliveryState),
      logSendsMade (forwardLoop img index total userSends k retry st).effects = [] ∧
      (((forwardLoop img index total userSends k retry st).err = none ∧
          ∃ i, i < k ∧ succeeded (userSends (retry + i)) = true ∧
            (∀ j, j < i → succeeded (userSends (retry + j)) = false) ∧
            (userSendsMade (forwardLoop img index total userSends k retry st).effects).length =
              i + 1) ∨
        ((forwardLoop img index total userSends k retry st).err =
            some "failed to send image after 3 retries" ∧
          (∀ i, i < k → succeeded (userSends (retry + i)) = false) ∧
          (userSendsMade (forwardLoop img index total userSends k retry st).effects).length =
            k)) := by
  intro k
  induction k with
  | zero =>
    intro retry st
    simp [forwardLoop, logSendsMade, userSendsMade]
  | succ k ih =>
    intro retry st
    cases hus : userSends retry with
    | ok sent =>
      rw [forwardLoop_of_ok img index total userSends k retry st sent hus]
      refine ⟨by simp [logSendsMade], Or.inl ⟨rfl, 0, by omega, ?_, ?_, ?_⟩⟩
      · simp [hus, succeeded]
      · intro j hj; omega
      · simp [userSendsMade]
    | fail err sent =>
      obtain ⟨st2, d, herr, hfx, _, _, _, _⟩ :=
        forwardLoop_of_fail img index total userSends k retry st err sent hus
      obtain ⟨b1, b3⟩ := ih (retry + 1) st2
      have hlen : (userSendsMade
          (forwardLoop img index total userSends (k + 1) retry st).effects).length =
          (userSendsMade
            (forwardLoop img index total userSends k (retry + 1) st2).effects).length + 1 := by
        rw [hfx, userSendsMade_append]
        simp [userSendsMade]
      have hf0 : succeeded (userSends retry) = false := by rw [hus]; rfl
      refine ⟨?_, ?_⟩
      · rw [hfx, logSendsMade_append]
        have : logSendsMade (SendEffect.sleep d ::
            (forwardLoop img index total userSends k (retry + 1) st2).effects) = [] := by
          have := b1
          simp only [logSendsMade] at this ⊢
          simpa [List.filterMap_cons] using this
        rw [this]
        simp [logSendsMade]
      · rcases b3 with ⟨e, i, hi, hok, hbefore, hl⟩ | ⟨e, hall, hl⟩
        · left
          refine ⟨by rw [herr, e], i + 1, by omega, ?_, ?_, by omega⟩
          · rw [show retry + (i + 1) = retry + 1 + i by omega]; exact hok
          · intro j hj
            cases j with
            | zero => simpa using hf0
            | succ j =>
              rw [show retry + (j + 1) = retry + 1 + j by omega]
              exact hbefore j (by omega)
        · right
          refine ⟨by rw [herr, e], ?_, by omega⟩
          intro i hi
          cases i with
          | zero => simpa using hf0
          | succ i =>
            rw [show retry + (i + 1) = retry + 1 + i by omega]
            exact hall i (by omega)

/-- When stage 2 starts without a file reference, its first send carries the
raw bytes, and so does every later one as long as no throttled send comes back
with a photo that has a file reference. -/
theorem forwardLoop_files (img : ImageData) (index total : Int)
    (userSends : Nat → SendOutcome) :
    ∀ (k retry : Nat) (st : DeliveryState), st.fileID = "" →
      (0 < k → (userSendsMade (forwardLoop img index total userSends k retry st).effects).head? =
        some (PhotoFile.fromReader img.Data)) ∧
      ((∀ i err m p, i < k → userSends (retry + i) = .fail err (some m) →
          isFloodWait err = true → m.Photo = some p → p.FileID = "") →
        ∀ f ∈ userSendsMade (forwardLoop img index total userSends k retry st).effects,
          f = PhotoFile.fromReader img.Data) := by
  intro k
  induction k with
  | zero =>
    intro retry st _
    simp [forwardLoop, userSendsMade]
  | succ k ih =>
    intro retry st hst
    cases hus : userSends retry with
    | ok sent =>
      rw [forwardLoop_of_ok img index total userSends k retry st sent hus]
      simp [userSendsMade, hst]
    | fail err sent =>
      obtain ⟨st2, d, _, hfx, _, _, _, hkeep⟩ :=
        forwardLoop_of_fail img index total userSends k retry st err sent hus
      have hsplit : userSendsMade
          (forwardLoop img index total userSends (k + 1) retry st).effects =
          PhotoFile.fromReader img.Data ::
            userSendsMade (forwardLoop img index total userSends k (retry + 1) st2).effects := by
        rw [hfx, userSendsMade_append]
        simp [userSendsMade, hst]
      rw [hsplit]
      refine ⟨fun _ => rfl, ?_⟩
      intro hall f hf
      have hst2 : st2.fileID = "" := by
        rw [hkeep (fun m p hflood hsent hp => hall 0 err m p (by omega)
          (by rw [Nat.add_zero, hus, hsent]) hflood hp)]
        exact hst
      rcases List.mem_cons.1 hf with rfl | hf
      · rfl
      · exact (ih (retry + 1) st2 hst2).2 (fun i err2 m p hi h1 h2 h3 =>
          hall (i + 1) err2 m p (by omega)
            (by rw [show retry + (i + 1) = retry + 1 + i by omega]; exact h1) h2 h3) f hf

/-- For an image that passes the two checks, `StreamImage` is stage 1 followed,
unless stage 1 panicked, by stage 2. -/
theorem streamImage_stages (s : Sender) (now : Int) (img : ImageData) (index total : Int)
    (logSends userSends : Nat → SendOutcome)
    (hsize : ¬ (img.Data.length : Int) > maxFileSize s) (hne : img.Data.length ≠ 0) :
    ∃ stage1 : StageRun,
      (logSendsMade stage1.effects).length ≤ 3 ∧
      userSendsMade stage1.effects = [] ∧
      (stage1.panicked = true → (logSendsMade stage1.effects).length < 3) ∧
      (stage1.panicked = false → (∀ i, i < 3 → succeeded (logSends i) = false) →
        stage1.st.fileID = "") ∧
      (s.logChannelID = 0 → stage1.panicked = false) ∧
      (stage1.panicked = true →
        StreamImage s now img index total logSends userSends =
          ⟨.panicked, stage1.st, stage1.effects⟩) ∧
      (stage1.panicked = false →
        StreamImage s now img index total logSends userSends =
          ⟨.returned (forwardLoop img index total userSends 3 0 stage1.st).err,
            (forwardLoop img index total userSends 3 0 stage1.st).st,
            stage1.effects ++ (forwardLoop img index total userSends 3 0 stage1.st).effects⟩) := by
  by_cases hlog : s.logChannelID = 0
  · refine ⟨⟨false, ⟨s, now, ""⟩, []⟩, by simp [logSendsMade], rfl, (fun h => by cases h),
      (fun _ _ => rfl), (fun _ => rfl), (fun h => by cases h), fun _ => ?_⟩
    unfold StreamImage
    simp only [hsize, hne, hlog, ne_eq, not_true_eq_false, if_false, Bool.false_eq_true]
  · obtain ⟨m1, m2, m3, m4⟩ := mirrorLoop_sends img logSends 3 0 ⟨s, now, ""⟩
    refine ⟨mirrorLoop img logSends 3 0 ⟨s, now, ""⟩, m1, m2, m3, ?_, (fun h => absurd h hlog),
      ?_, ?_⟩
    · intro hp hall
      exact m4 hp (fun i hi => by rw [Nat.zero_add]; exact hall i hi)
    · intro hp
      unfold StreamImage
      simp only [hsize, hne, hlog, ne_eq, not_false_eq_true, if_false, if_true, hp]
    · intro hp
      unfold StreamImage
      simp only [hsize, hne, hlog, ne_eq, not_false_eq_true, if_false, if_true, hp,
        Bool.false_eq_true]

/-- C16 (amended). For every image that passes the size and emptiness checks and
every behaviour of the sends, stage 1 makes at most 3 sends to the log channel,
and it made fewer than 3 when the call panicked. When all the mirror sends fail
and the call does not panic, stage 2 runs: the value returned is `nil` when one
of the three recipient sends would succeed and the error otherwise, whatever
stage 1 did; the first recipient send carries the raw image bytes; and every
recipient send carries the raw image bytes provided no throttled recipient send
comes back with a photo that has a file reference. -/
theorem streamImage_mirror_failure_not_fatal (s : Sender) (now : Int) (img : ImageData)
    (index total : Int) (logSends userSends : Nat → SendOutcome)
    (hsize : ¬ (img.Data.length : Int) > maxFileSize s) (hne : img.Data.length ≠ 0) :
    (logSendsMade (StreamImage s now img index total logSends userSends).effects).length ≤ 3 ∧
    ((StreamImage s now img index total logSends userSends).outcome = .panicked →
      (logSendsMade (StreamImage s now img index total logSends userSends).effects).length
        < 3) ∧
    ((∀ r, r < 3 → succeeded (logSends r) = false) →
      (StreamImage s now img index total logSends userSends).outcome ≠ .panicked →
      (StreamImage s now img index total logSends userSends).outcome =
        .returned (if succeeded (userSends 0) = true ∨ succeeded (userSends 1) = true ∨
          succeeded (userSends 2) = true then none
          else some "failed to send image after 3 retries") ∧
      (userSendsMade (StreamImage s now img index total logSends userSends).effects).head? =
        some (PhotoFile.fromReader img.Data) ∧
      ((∀ r err m p, r < 3 → userSends r = .fail err (some m) → isFloodWait err = true →
          m.Photo = some p → p.FileID = "") →
        ∀ f ∈ userSendsMade (StreamImage s now img index total logSends userSends).effects,
          f = PhotoFile.fromReader img.Data)) := by
  obtain ⟨stage1, h1, h2, h3, h4, _, hpanic, hrun⟩ :=
    streamImage_stages s now img index total logSends userSends hsize hne
  by_cases hp : stage1.panicked = true
  · rw [hpanic hp]
    exact ⟨h1, fun _ => h3 hp, fun _ h => absurd rfl h⟩
  · have hp2 : stage1.panicked = false := by simpa using hp
    rw [hrun hp2]
    obtain ⟨f1, f2⟩ := forwardLoop_result img index total userSends 3 0 stage1.st
    refine ⟨?_, (fun h => by cases h), fun hall _ => ⟨?_, ?_, ?_⟩⟩
    · simp only [logSendsMade_append, f1, List.append_nil]
      exact h1
    · simp only [Nat.zero_add] at f2
      rcases f2 with ⟨e, i, hi, hok, _, _⟩ | ⟨e, hfail, _⟩
      · have : succeeded (userSends 0) = true ∨ succeeded (userSends 1) = true ∨
            succeeded (userSends 2) = true := by
          interval_cases i
          · exact Or.inl hok
          · exact Or.inr (Or.inl hok)
          · exact Or.inr (Or.inr hok)
        simp only [e, this, if_true]
      · have : ¬ (succeeded (userSends 0) = true ∨ succeeded (userSends 1) = true ∨
            succeeded (userSends 2) = true) := by
          simp [hfail 0 (by omega), hfail 1 (by omega), hfail 2 (by omega)]
        simp only [e, this, if_false]
    · simp only [userSendsMade_append, h2, List.nil_append]
      exact (forwardLoop_files img index total userSends 3 0 stage1.st (h4 hp2 hall)).1
        (by omega)
    · intro hcap
      simp only [userSendsMade_append, h2, List.nil_append]
      exact (forwardLoop_files img index total userSends 3 0 stage1.st (h4 hp2 hall)).2
        (fun i err m p hi hu => hcap i err m p hi (by rw [Nat.zero_add] at hu; exact hu))

/-- C16 at a concrete input: one agent, every mirror send fails, the first
recipient send succeeds. -/
theorem streamImage_mirror_failure_not_fatal_witness :
    (¬ ((sampleImage 1).Data.length : Int) > maxFileSize ⟨[⟨0, 0⟩], 0, 10, 0, 1⟩ ∧
      (sampleImage 1).Data.length ≠ 0) ∧
    (logSendsMade (StreamImage ⟨[⟨0, 0⟩], 0, 10, 0, 1⟩ 1000 (sampleImage 1) 1 1
      (fun _ => .fail "connection reset" none) (fun _ => .ok ⟨none⟩)).effects).length = 3 ∧
    (StreamImage ⟨[⟨0, 0⟩], 0, 10, 0, 1⟩ 1000 (sampleImage 1) 1 1
      (fun _ => .fail "connection reset" none) (fun _ => .ok ⟨none⟩)).outcome = .returned none ∧
    (userSendsMade (StreamImage ⟨[⟨0, 0⟩], 0, 10, 0, 1⟩ 1000 (sampleImage 1) 1 1
      (fun _ => .fail "connection reset" none) (fun _ => .ok ⟨none⟩)).effects).head? =
      some (PhotoFile.fromReader (sampleImage 1).Data) :=
  ⟨⟨by decide, by decide⟩, by decide,
    ((streamImage_mirror_failure_not_fatal ⟨[⟨0, 0⟩], 0, 10, 0, 1⟩ 1000 (sampleImage 1) 1 1
      (fun _ => .fail "connection reset" none) (fun _ => .ok ⟨none⟩) (by decide)
      (by decide)).2.2 (fun _ _ => rfl) (by decide)).1,
    ((streamImage_mirror_failure_not_fatal ⟨[⟨0, 0⟩], 0, 10, 0, 1⟩ 1000 (sampleImage 1) 1 1
      (fun _ => .fail "connection reset" none) (fun _ => .ok ⟨none⟩) (by decide)
      (by decide)).2.2 (fun _ _ => rfl) (by decide)).2.1⟩

/-- C16, counterexample. One agent; the three mirror sends fail. The first
recipient send carries the raw bytes and fails with a throttle error, coming
back with a message whose photo has the file reference "F"; the second
recipient send carries that file reference, not the raw bytes. -/
theorem streamImage_forward_uses_captured_reference :
    logSendsMade (StreamImage ⟨[⟨0, 0⟩], 0, 10, 0, 1⟩ 1000 (sampleImage 1) 1 1
      (fun _ => .fail "connection reset" none)
      (fun r => if r = 0 then .fail "Too Many Requests: retry after 1" (some ⟨some ⟨"F"⟩⟩)
        else .ok ⟨none⟩)).effects = [some 0, some 0, some 0] ∧
    userSendsMade (StreamImage ⟨[⟨0, 0⟩], 0, 10, 0, 1⟩ 1000 (sampleImage 1) 1 1
      (fun _ => .fail "connection reset" none)
      (fun r => if r = 0 then .fail "Too Many Requests: retry after 1" (some ⟨some ⟨"F"⟩⟩)
        else .ok ⟨none⟩)).effects =
      [PhotoFile.fromReader (sampleImage 1).Data, PhotoFile.fileID "F"] ∧
    (StreamImage ⟨[⟨0, 0⟩], 0, 10, 0, 1⟩ 1000 (sampleImage 1) 1 1
      (fun _ => .fail "connection reset" none)
      (fun r => if r = 0 then .fail "Too Many Requests: retry after 1" (some ⟨some ⟨"F"⟩⟩)
        else .ok ⟨none⟩)).outcome = .returned none := by
  decide

/-- C17. For every image that passes the size and emptiness checks and every
behaviour of the sends, `StreamImage` makes at most 3 sends to the recipient. It
returns `nil` exactly when one of its recipient sends succeeds, and that send is
its last one: send number `r` succeeds, the sends before it failed, and `r + 1`
sends were made. It returns the error "failed to send image after 3 retries"
exactly when it made 3 recipient sends and all 3 failed. When the call panics
instead of returning, no recipient send was made, and without a log channel the
call does not panic. -/
theorem streamImage_recipient_sends (s : Sender) (now : Int) (img : ImageData)
    (index total : Int) (logSends userSends : Nat → SendOutcome)
    (hsize : ¬ (img.Data.length : Int) > maxFileSize s) (hne : img.Data.length ≠ 0) :
    (userSendsMade (StreamImage s now img index total logSends userSends).effects).length ≤ 3 ∧
    ((StreamImage s now img index total logSends userSends).outcome = .returned none ↔
      ∃ r, r < 3 ∧ succeeded (userSends r) = true ∧
        (∀ j, j < r → succeeded (userSends j) = false) ∧
        (userSendsMade (StreamImage s now img index total logSends userSends).effects).length =
          r + 1) ∧
    ((StreamImage s now img index total logSends userSends).outcome =
        .returned (some "failed to send image after 3 retries") ↔
      (userSendsMade (StreamImage s now img index total logSends userSends).effects).length = 3 ∧
        ∀ r, r < 3 → succeeded (userSends r) = false) ∧
    ((StreamImage s now img index total logSends userSends).outcome = .panicked →
      userSendsMade (StreamImage s now img index total logSends userSends).effects = []) ∧
    (s.logChannelID = 0 →
      (StreamImage s now img index total logSends userSends).outcome ≠ .panicked) := by
  obtain ⟨stage1, _, h2, _, _, hlog, hpanic, hrun⟩ :=
    streamImage_stages s now img index total logSends userSends hsize hne
  by_cases hp : stage1.panicked = true
  · rw [hpanic hp]
    simp only [h2, List.length_nil]
    refine ⟨by omega, ⟨(fun h => by cases h), ?_⟩, ⟨(fun h => by cases h), ?_⟩, (fun _ => trivial),
      ?_⟩
    · rintro ⟨r, _, _, _, h⟩
      omega
    · rintro ⟨h, _⟩
      omega
    · intro h0
      rw [hlog h0] at hp
      cases hp
  · have hp2 : stage1.panicked = false := by simpa using hp
    rw [hrun hp2]
    obtain ⟨_, f2⟩ := forwardLoop_result img index total userSends 3 0 stage1.st
    simp only [Nat.zero_add] at f2
    simp only [userSendsMade_append, h2, List.nil_append]
    rcases f2 with ⟨e, i, hi, hok, hbefore, hl⟩ | ⟨e, hfail, hl⟩
    · refine ⟨by omega, ⟨fun _ => ⟨i, hi, hok, hbefore, hl⟩, fun _ => by rw [e]⟩,
        ⟨(fun h => by rw [e] at h; cases h), ?_⟩, (fun h => by cases h), (fun _ h => by cases h)⟩
      rintro ⟨_, hall⟩
      rw [hall i hi] at hok
      cases hok
    · refine ⟨by omega, ⟨(fun h => by rw [e] at h; cases h), ?_⟩,
        ⟨fun _ => ⟨hl, hfail⟩, fun _ => by rw [e]⟩, (fun h => by cases h),
        (fun _ h => by cases h)⟩
      rintro ⟨r, hr, hok, _, _⟩
      rw [hfail r hr] at hok
      cases hok

/-- C17 at a concrete input: no log channel, the first two recipient sends
fail, the third succeeds. -/
theorem streamImage_recipient_sends_witness :
    (¬ ((sampleImage 1).Data.length : Int) > maxFileSize ⟨[], 0, 10, 0, 0⟩ ∧
      (sampleImage 1).Data.length ≠ 0) ∧
    (userSendsMade (StreamImage ⟨[], 0, 10, 0, 0⟩ 1000 (sampleImage 1) 1 1
      (fun _ => .ok ⟨none⟩)
      (fun r => if r = 2 then .ok ⟨none⟩ else .fail "connection reset" none)).effects).length
        ≤ 3 ∧
    (StreamImage ⟨[], 0, 10, 0, 0⟩ 1000 (sampleImage 1) 1 1
      (fun _ => .ok ⟨none⟩)
      (fun r => if r = 2 then .ok ⟨none⟩ else .fail "connection reset" none)).outcome =
      .returned none ∧
    (userSendsMade (StreamImage ⟨[], 0, 10, 0, 0⟩ 1000 (sampleImage 1) 1 1
      (fun _ => .ok ⟨none⟩)
      (fun r => if r = 2 then .ok ⟨none⟩ else .fail "connection reset" none)).effects).length
        = 3 :=
  ⟨⟨by decide, by decide⟩,
    (streamImage_recipient_sends ⟨[], 0, 10, 0, 0⟩ 1000 (sampleImage 1) 1 1
      (fun _ => .ok ⟨none⟩)
      (fun r => if r = 2 then .ok ⟨none⟩ else .fail "connection reset" none)
      (by decide) (by decide)).1,
    by decide, by decide⟩

/-! ## Throttle hints -/

/-- The ten decimal digits. -/
theorem isDigit_cases (c : Char) (h : c.isDigit = true) :
    c = '0' ∨ c = '1' ∨ c = '2' ∨ c = '3' ∨ c = '4' ∨ c = '5' ∨ c = '6' ∨ c = '7' ∨ c = '8' ∨
      c = '9' := by
  have hb : 48 ≤ c.toNat ∧ c.toNat ≤ 57 := by
    simp only [Char.isDigit, Bool.and_eq_true, decide_eq_true_eq] at h
    exact ⟨h.1, h.2⟩
  have hc : c = Char.ofNat c.toNat := (Char.ofNat_toNat c).symm
  obtain ⟨h1, h2⟩ := hb
  generalize c.toNat = n at hc h1 h2
  subst hc
  interval_cases n <;> decide

/-- A decimal digit is neither white space, nor a line feed, nor a sign. -/
theorem isDigit_not_space (c : Char) (h : c.isDigit = true) :
    isSpace c = false ∧ c ≠ '\n' ∧ c ≠ '-' ∧ c ≠ '+' := by
  rcases isDigit_cases c h with h | h | h | h | h | h | h | h | h | h <;> subst h <;> decide

/-- The run of digits that `Sscanf` accepts in front of a text that does not go
on with a digit. -/
theorem takeWhile_isDigit_append (digits rest : List Char)
    (hd : ∀ c ∈ digits, c.isDigit = true)
    (hrest : ∀ c, rest.head? = some c → c.isDigit = false) :
    (digits ++ rest).takeWhile Char.isDigit = digits := by
  induction digits with
  | nil =>
    cases rest with
    | nil => rfl
    | cons c cs =>
      have := hrest c rfl
      simp [List.takeWhile, this]
  | cons d ds ih =>
    have h1 := hd d (List.mem_cons_self d ds)
    have ih2 := ih (fun c hc => hd c (List.mem_cons_of_mem d hc))
    simp only [List.cons_append, List.takeWhile, h1]
    exact congrArg (List.cons d) ih2

/-- What `Sscanf` reads from a text that begins with a run of digits whose value
fits 64 bits. -/
theorem sscanfInt_of_digits (digits rest : List Char) (hne : digits ≠ [])
    (hd : ∀ c ∈ digits, c.isDigit = true)
    (hrest : ∀ c, rest.head? = some c → c.isDigit = false)
    (hv : decimalValue digits ≤ 9223372036854775807) :
    sscanfInt (digits ++ rest) = some (decimalValue digits : Int) := by
  cases digits with
  | nil => exact absurd rfl hne
  | cons d ds =>
    obtain ⟨h1, h2, h3, h4⟩ := isDigit_not_space d (hd d (List.mem_cons_self d ds))
    have htake := takeWhile_isDigit_append (d :: ds) rest hd hrest
    simp only [List.cons_append] at htake
    have hskip : skipSpace (d :: (ds ++ rest)) = some (d :: (ds ++ rest)) := by
      simp [skipSpace, h1, h2]
    unfold sscanfInt
    simp only [List.cons_append, hskip, h3, h4, or_self, if_false, htake, decide_False,
      Bool.false_eq_true]
    have hv2 : ¬ (((decimalValue (d :: ds) : Nat) : Int) < -9223372036854775808 ∨
        9223372036854775807 < ((decimalValue (d :: ds) : Nat) : Int)) := by
      omega
    simp only [hv2, if_false]
    simp

/-- A hint of at most 9223372036 seconds is read as that many seconds. -/
theorem parseRetryAfter_of_digits (errMsg : String) (idx : Nat) (digits rest : List Char)
    (hidx : stringsIndex errMsg.data "retry after ".data = some idx)
    (hdrop : errMsg.data.drop (idx + 12) = digits ++ rest) (hne : digits ≠ [])
    (hd : ∀ c ∈ digits, c.isDigit = true)
    (hrest : ∀ c, rest.head? = some c → c.isDigit = false)
    (hv : decimalValue digits ≤ 9223372036) :
    parseRetryAfter errMsg = (decimalValue digits : Int) * Second := by
  unfold parseRetryAfter
  simp only [hidx, hdrop, sscanfInt_of_digits digits rest hne hd hrest (by omega)]
  unfold wrapInt64 Second
  omega

/-- Without the marker "retry after " nothing is read. -/
theorem parseRetryAfter_of_no_marker (errMsg : String)
    (hidx : stringsIndex errMsg.data "retry after ".data = none) :
    parseRetryAfter errMsg = 0 := by
  unfold parseRetryAfter
  simp only [hidx]

/-- C19 (amended). For every error message: when the text right after the first
occurrence of "retry after " begins with a run of decimal digits whose value `N`
is at most 9223372036, `parseRetryAfter` returns `N` seconds; it returns 0 when
the message does not contain "retry after ", when nothing follows the marker,
and when what follows begins with a character that is neither a digit, nor white
space, nor a sign; and a result 0 is replaced by `(retry + 1) × 3` seconds in
`waitTime`, the value used by the callers. -/
theorem parseRetryAfter_reads_hint (errMsg : String) :
    (∀ (idx : Nat) (digits rest : List Char),
      stringsIndex errMsg.data "retry after ".data = some idx →
      errMsg.data.drop (idx + 12) = digits ++ rest → digits ≠ [] →
      (∀ c ∈ digits, c.isDigit = true) →
      (∀ c, rest.head? = some c → c.isDigit = false) →
      decimalValue digits ≤ 9223372036 →
      parseRetryAfter errMsg = (decimalValue digits : Int) * Second) ∧
    (stringsIndex errMsg.data "retry after ".data = none → parseRetryAfter errMsg = 0) ∧
    (∀ idx : Nat, stringsIndex errMsg.data "retry after ".data = some idx →
      errMsg.data.drop (idx + 12) = [] → parseRetryAfter errMsg = 0) ∧
    (∀ (idx : Nat) (c : Char) (cs : List Char),
      stringsIndex errMsg.data "retry after ".data = some idx →
      errMsg.data.drop (idx + 12) = c :: cs →
      c.isDigit = false → isSpace c = false → c ≠ '-' → c ≠ '+' →
      parseRetryAfter errMsg = 0) ∧
    (∀ retry : Nat, parseRetryAfter errMsg = 0 →
      waitTime errMsg retry = ((retry : Int) + 1) * 3 * Second) := by
  refine ⟨fun idx digits rest h1 h2 h3 h4 h5 h6 =>
      parseRetryAfter_of_digits errMsg idx digits rest h1 h2 h3 h4 h5 h6,
    parseRetryAfter_of_no_marker errMsg, ?_, ?_, ?_⟩
  · intro idx hidx hdrop
    unfold parseRetryAfter
    simp only [hidx, hdrop]
    rfl
  · intro idx c cs hidx hdrop hdig hsp hm hp
    unfold parseRetryAfter
    simp only [hidx, hdrop]
    have : sscanfInt (c :: cs) = none := by
      unfold sscanfInt
      by_cases hnl : c = '\n'
      · simp [skipSpace, hnl]
      · have hskip : skipSpace (c :: cs) = some (c :: cs) := by simp [skipSpace, hnl, hsp]
        simp [hskip, hm, hp, List.takeWhile, hdig]
    simp only [this]
  · intro retry h
    unfold waitTime
    simp only [h, if_true]

/-- C19 at a concrete input: the hint of 35 seconds in a message of the
service. -/
theorem parseRetryAfter_reads_hint_witness :
    (stringsIndex "Too Many Requests: retry after 35".data "retry after ".data = some 19 ∧
      "Too Many Requests: retry after 35".data.drop (19 + 12) = ['3', '5'] ++ [] ∧
      (['3', '5'] : List Char) ≠ [] ∧
      (∀ c ∈ (['3', '5'] : List Char), c.isDigit = true) ∧
      (∀ c, ([] : List Char).head? = some c → c.isDigit = false) ∧
      decimalValue ['3', '5'] ≤ 9223372036) ∧
    parseRetryAfter "Too Many Requests: retry after 35" =
      (decimalValue ['3', '5'] : Int) * Second ∧
    (decimalValue ['3', '5'] : Int) * Second = 35000000000 :=
  ⟨⟨by decide, by decide, by decide, by decide, (by intro c h; cases h), by decide⟩,
    (parseRetryAfter_reads_hint "Too Many Requests: retry after 35").1 19 ['3', '5'] []
      (by decide) (by decide) (by decide) (by decide) (by intro c h; cases h) (by decide),
    by decide⟩

/-- C19, counterexample. The text after the marker is a decimal integer in both
messages; a hint of 99999999999999999999 seconds does not fit 64 bits and is
read as 0, and a hint of 9223372037 seconds overflows the duration, which wraps
around to a negative one. -/
theorem parseRetryAfter_large_hint :
    stringsIndex "retry after 99999999999999999999".data "retry after ".data = some 0 ∧
    "retry after 99999999999999999999".data.drop (0 + 12) = "99999999999999999999".data ∧
    decimalValue "99999999999999999999".data = 99999999999999999999 ∧
    parseRetryAfter "retry after 99999999999999999999" = 0 ∧
    parseRetryAfter "retry after 9223372037" = -9223372036709551616 := by
  decide

/-! ## `StreamImage`: throttled sends of stage 2 -/

/-- One iteration of stage 2 whose send fails with a throttle error. -/
theorem forwardLoop_of_floodWait (img : ImageData) (index total : Int)
    (userSends : Nat → SendOutcome) (k retry : Nat) (st : DeliveryState) (err : String)
    (sent : Option Message) (hus : userSends retry = .fail err sent)
    (hflood : isFloodWait err = true) :
    forwardLoop img index total userSends (k + 1) retry st =
      ⟨(forwardLoop img index total userSends k (retry + 1)
          ⟨st.sender, timeSleep (timeSleep st.now st.sender.messageInterval) (waitTime err retry),
            captureFileID st.fileID sent⟩).err,
        (forwardLoop img index total userSends k (retry + 1)
          ⟨st.sender, timeSleep (timeSleep st.now st.sender.messageInterval) (waitTime err retry),
            captureFileID st.fileID sent⟩).st,
        [SendEffect.sleep st.sender.messageInterval,
          SendEffect.sendUser (if st.fileID ≠ "" then PhotoFile.fileID st.fileID
            else PhotoFile.fromReader img.Data) (caption index total),
          SendEffect.sleep (waitTime err retry)] ++
          (forwardLoop img index total userSends k (retry + 1)
            ⟨st.sender,
              timeSleep (timeSleep st.now st.sender.messageInterval) (waitTime err retry),
              captureFileID st.fileID sent⟩).effects⟩ := by
  rw [forwardLoop]
  simp only [hus, hflood, if_true]
  rfl

theorem captureFileID_none (fileID : String) : captureFileID fileID none = fileID := by
  unfold captureFileID
  split <;> rfl

/-- The scenario of two throttled sends hinting 5 seconds followed by a
success, from any state of stage 2. -/
theorem forwardLoop_two_hints (img : ImageData) (index total : Int) (st : DeliveryState) :
    forwardLoop img index total
      (fun r => if r < 2 then SendOutcome.fail "Too Many Requests: retry after 5" none
        else SendOutcome.ok ⟨none⟩) 3 0 st =
      ⟨none,
        ⟨st.sender,
          timeSleep (timeSleep (timeSleep (timeSleep (timeSleep st.now st.sender.messageInterval)
            (5 * Second)) st.sender.messageInterval) (5 * Second)) st.sender.messageInterval,
          st.fileID⟩,
        [SendEffect.sleep st.sender.messageInterval,
          SendEffect.sendUser (if st.fileID ≠ "" then PhotoFile.fileID st.fileID
            else PhotoFile.fromReader img.Data) (caption index total),
          SendEffect.sleep (5 * Second),
          SendEffect.sleep st.sender.messageInterval,
          SendEffect.sendUser (if st.fileID ≠ "" then PhotoFile.fileID st.fileID
            else PhotoFile.fromReader img.Data) (caption index total),
          SendEffect.sleep (5 * Second),
          SendEffect.sleep st.sender.messageInterval,
          SendEffect.sendUser (if st.fileID ≠ "" then PhotoFile.fileID st.fileID
            else PhotoFile.fromReader img.Data) (caption index total)]⟩ := by
  have hflood : isFloodWait "Too Many Requests: retry after 5" = true := by decide
  have hw0 : waitTime "Too Many Requests: retry after 5" 0 = 5 * Second := by decide
  have hw1 : waitTime "Too Many Requests: retry after 5" (0 + 1) = 5 * Second := by decide
  rw [forwardLoop_of_floodWait img index total _ 2 0 st "Too Many Requests: retry after 5" none
    rfl hflood]
  rw [forwardLoop_of_floodWait img index total _ 1 (0 + 1) _ "Too Many Requests: retry after 5"
    none rfl hflood]
  rw [forwardLoop_of_ok img index total _ 0 (0 + 1 + 1) _ ⟨none⟩ rfl]
  simp only [captureFileID_none, hw0, hw1, List.cons_append, List.nil_append]

/-- The clock does not go back in a sleep, and a positive sleep advances it. -/
theorem timeSleep_mono (now d : Int) :
    now ≤ timeSleep now d ∧ (0 < d → timeSleep now d = now + d) := by
  unfold timeSleep
  split
  · exact ⟨le_refl _, fun h => by omega⟩
  · exact ⟨by omega, fun _ => rfl⟩

/-- C18 (amended). In stage 2, when recipient send number `retry` fails with a
throttle error, the sleep that follows the send and precedes the next attempt is
`waitTime`: it is `N` seconds when the text right after the first "retry after "
begins with a run of decimal digits whose value `N` is between 1 and 9223372036,
and `(retry + 1) × 3` seconds when the message holds no "retry after ". With errors
hinting 5 seconds on the first two recipient sends and a success on the third,
a call of `StreamImage` that does not panic in stage 1 returns `nil`; its stage 2
makes three sends with a sleep of 5 seconds after each of the first two, and the
clock advances by at least 10 seconds during stage 2. -/
theorem forwardLoop_throttle_sleep (img : ImageData) (index total : Int) :
    (∀ (userSends : Nat → SendOutcome) (k retry : Nat) (st : DeliveryState) (err : String)
        (sent : Option Message),
      userSends retry = .fail err sent → isFloodWait err = true →
      (forwardLoop img index total userSends (k + 1) retry st).effects =
        [SendEffect.sleep st.sender.messageInterval,
          SendEffect.sendUser (if st.fileID ≠ "" then PhotoFile.fileID st.fileID
            else PhotoFile.fromReader img.Data) (caption index total),
          SendEffect.sleep (waitTime err retry)] ++
          (forwardLoop img index total userSends k (retry + 1)
            ⟨st.sender,
              timeSleep (timeSleep st.now st.sender.messageInterval) (waitTime err retry),
              captureFileID st.fileID sent⟩).effects ∧
      (∀ (idx : Nat) (digits rest : List Char),
        stringsIndex err.data "retry after ".data = some idx →
        err.data.drop (idx + 12) = digits ++ rest → digits ≠ [] →
        (∀ c ∈ digits, c.isDigit = true) →
        (∀ c, rest.head? = some c → c.isDigit = false) →
        1 ≤ decimalValue digits → decimalValue digits ≤ 9223372036 →
        waitTime err retry = (decimalValue digits : Int) * Second) ∧
      (stringsIndex err.data "retry after ".data = none →
        waitTime err retry = ((retry : Int) + 1) * 3 * Second)) ∧
    (∀ (s : Sender) (now : Int) (logSends : Nat → SendOutcome),
      ¬ (img.Data.length : Int) > maxFileSize s → img.Data.length ≠ 0 →
      (StreamImage s now img index total logSends
        (fun r => if r < 2 then SendOutcome.fail "Too Many Requests: retry after 5" none
          else SendOutcome.ok ⟨none⟩)).outcome ≠ .panicked →
      (StreamImage s now img index total logSends
        (fun r => if r < 2 then SendOutcome.fail "Too Many Requests: retry after 5" none
          else SendOutcome.ok ⟨none⟩)).outcome = .returned none ∧
      ∃ (stage1 : List SendEffect) (start interval : Int) (file : PhotoFile),
        (StreamImage s now img index total logSends
          (fun r => if r < 2 then SendOutcome.fail "Too Many Requests: retry after 5" none
            else SendOutcome.ok ⟨none⟩)).effects =
          stage1 ++
            [SendEffect.sleep interval, SendEffect.sendUser file (caption index total),
              SendEffect.sleep (5 * Second),
              SendEffect.sleep interval, SendEffect.sendUser file (caption index total),
              SendEffect.sleep (5 * Second),
              SendEffect.sleep interval, SendEffect.sendUser file (caption index total)] ∧
        userSendsMade stage1 = [] ∧
        start + 10 * Second ≤
          (StreamImage s now img index total logSends
            (fun r => if r < 2 then SendOutcome.fail "Too Many Requests: retry after 5" none
              else SendOutcome.ok ⟨none⟩)).st.now) := by
  refine ⟨?_, ?_⟩
  · intro userSends k retry st err sent hus hflood
    refine ⟨?_, ?_, ?_⟩
    · rw [forwardLoop_of_floodWait img index total userSends k retry st err sent hus hflood]
    · intro idx digits rest h1 h2 h3 h4 h5 h6 h7
      have hp := parseRetryAfter_of_digits err idx digits rest h1 h2 h3 h4 h5 h7
      have hpos : parseRetryAfter err ≠ 0 := by
        rw [hp]
        unfold Second
        omega
      unfold waitTime
      rw [if_neg hpos, hp]
    · intro h
      unfold waitTime
      simp only [parseRetryAfter_of_no_marker err h, if_true]
  · intro s now logSends hsize hne hnp
    obtain ⟨stage1, _, h2, _, _, _, hpanic, hrun⟩ :=
      streamImage_stages s now img index total logSends
        (fun r => if r < 2 then SendOutcome.fail "Too Many Requests: retry after 5" none
          else SendOutcome.ok ⟨none⟩) hsize hne
    by_cases hp : stage1.panicked = true
    · rw [hpanic hp] at hnp
      exact absurd rfl hnp
    · have hp2 : stage1.panicked = false := by simpa using hp
      rw [hrun hp2, forwardLoop_two_hints img index total stage1.st]
      refine ⟨rfl, stage1.effects, stage1.st.now, stage1.st.sender.messageInterval, _, rfl, h2, ?_⟩
      simp only
      have m1 := (timeSleep_mono stage1.st.now stage1.st.sender.messageInterval).1
      have m2 := (timeSleep_mono (timeSleep stage1.st.now stage1.st.sender.messageInterval)
        (5 * Second)).2 (by unfold Second; omega)
      have m3 := (timeSleep_mono (timeSleep (timeSleep stage1.st.now
        stage1.st.sender.messageInterval) (5 * Second)) stage1.st.sender.messageInterval).1
      have m4 := (timeSleep_mono (timeSleep (timeSleep (timeSleep stage1.st.now
        stage1.st.sender.messageInterval) (5 * Second)) stage1.st.sender.messageInterval)
        (5 * Second)).2 (by unfold Second; omega)
      have m5 := (timeSleep_mono (timeSleep (timeSleep (timeSleep (timeSleep stage1.st.now
        stage1.st.sender.messageInterval) (5 * Second)) stage1.st.sender.messageInterval)
        (5 * Second)) stage1.st.sender.messageInterval).1
      omega

/-- C18 at a concrete input: the first recipient send fails with a hint of 5
seconds, the sleep that follows is 5 seconds. -/
theorem forwardLoop_throttle_sleep_witness :
    ((fun _ : Nat => SendOutcome.fail "Too Many Requests: retry after 5" none) 0 =
        .fail "Too Many Requests: retry after 5" none ∧
      isFloodWait "Too Many Requests: retry after 5" = true) ∧
    (forwardLoop (sampleImage 1) 1 1
      (fun _ => SendOutcome.fail "Too Many Requests: retry after 5" none) (0 + 1) 0
      ⟨⟨[], 0, 10, 0, 0⟩, 1000, ""⟩).effects =
      [SendEffect.sleep (⟨⟨[], 0, 10, 0, 0⟩, 1000, ""⟩ : DeliveryState).sender.messageInterval,
        SendEffect.sendUser
          (if (⟨⟨[], 0, 10, 0, 0⟩, 1000, ""⟩ : DeliveryState).fileID ≠ "" then
            PhotoFile.fileID (⟨⟨[], 0, 10, 0, 0⟩, 1000, ""⟩ : DeliveryState).fileID
            else PhotoFile.fromReader (sampleImage 1).Data) (caption 1 1),
        SendEffect.sleep (waitTime "Too Many Requests: retry after 5" 0)] ++
        (forwardLoop (sampleImage 1) 1 1
          (fun _ => SendOutcome.fail "Too Many Requests: retry after 5" none) 0 (0 + 1)
          ⟨(⟨⟨[], 0, 10, 0, 0⟩, 1000, ""⟩ : DeliveryState).sender,
            timeSleep (timeSleep (⟨⟨[], 0, 10, 0, 0⟩, 1000, ""⟩ : DeliveryState).now
              (⟨⟨[], 0, 10, 0, 0⟩, 1000, ""⟩ : DeliveryState).sender.messageInterval)
              (waitTime "Too Many Requests: retry after 5" 0),
            captureFileID (⟨⟨[], 0, 10, 0, 0⟩, 1000, ""⟩ : DeliveryState).fileID none⟩).effects ∧
    waitTime "Too Many Requests: retry after 5" 0 = 5 * Second :=
  ⟨⟨rfl, by decide⟩,
    ((forwardLoop_throttle_sleep (sampleImage 1) 1 1).1
      (fun _ => SendOutcome.fail "Too Many Requests: retry after 5" none) 0 0
      ⟨⟨[], 0, 10, 0, 0⟩, 1000, ""⟩ "Too Many Requests: retry after 5" none rfl (by decide)).1,
    by decide⟩

/-- C18, counterexample. No log channel, no interval; the first recipient send
fails with a throttle error that carries the hint 0, the second succeeds. The
hint is read as the integer 0, and the sleep after the first send is 3 seconds,
not 0 seconds. -/
theorem streamImage_zero_hint_sleeps_default :
    isFloodWait "Too Many Requests: retry after 0" = true ∧
    stringsIndex "Too Many Requests: retry after 0".data "retry after ".data = some 19 ∧
    sscanfInt ("Too Many Requests: retry after 0".data.drop (19 + 12)) = some 0 ∧
    (StreamImage ⟨[], 0, 10, 0, 0⟩ 1000 (sampleImage 1) 1 1 (fun _ => .ok ⟨none⟩)
      (fun r => if r = 0 then .fail "Too Many Requests: retry after 0" none
        else .ok ⟨none⟩)).effects =
      [SendEffect.sleep 0,
        SendEffect.sendUser (PhotoFile.fromReader (sampleImage 1).Data) "1/1",
        SendEffect.sleep (3 * Second),
        SendEffect.sleep 0,
        SendEffect.sendUser (PhotoFile.fromReader (sampleImage 1).Data) "1/1"] := by
  decide

/-! ## `WorkerPool.worker`: results per task -/

theorem published_append (a b : List TaskEffect) :
    published (a ++ b) = published a ++ published b := by
  simp [published, List.filterMap_append]

/-- The attempt loop publishes nothing: the only send on the result channel is
the one that follows the loop. -/
theorem attemptLoop_published (task : DownloadTask) (fetches : Nat → Fetch)
    (ctxDone : Nat → Bool) :
    ∀ (remaining attempt : Nat) (cur : Bytes × Option String),
      published (attemptLoop task fetches ctxDone remaining attempt cur).2 = [] := by
  intro remaining
  induction remaining with
  | zero => intro attempt cur; rfl
  | succ remaining ih =>
    intro attempt cur
    rw [attemptLoop]
    split
    · rfl
    · simp only
      have hw : published (if attempt > 0 then [TaskEffect.wait ((attempt : Int) * 2 * Second)]
          else []) = [] := by
        split <;> rfl
      split
      · simp only [published_append, hw, List.nil_append]
        rfl
      · have hcons : ∀ l : List TaskEffect,
            published (TaskEffect.download task.URL :: l) = published l := fun _ => rfl
        simp only [published_append, hw, List.nil_append, hcons]
        exact ih (attempt + 1) _

/-- What `processTask` publishes: nothing when it returned from the attempt
loop, and otherwise one result when the send on the result channel is taken and
nothing when the context is cancelled or the send times out. -/
theorem processTask_published (task : DownloadTask) (fetches : Nat → Fetch)
    (ctxDone : Nat → Bool) (publishCase : PublishCase) :
    published (processTask task fetches ctxDone publishCase) =
      match (attemptLoop task fetches ctxDone (maxRetries + 1) 0 ([], none)).1, publishCase with
      | some cur, .sent =>
        [{ URL := task.URL, TrackID := task.TrackID, Data := cur.1, Filename := "" }]
      | _, _ => [] := by
  have hp := attemptLoop_published task fetches ctxDone (maxRetries + 1) 0 ([], none)
  unfold processTask
  cases hrun : attemptLoop task fetches ctxDone (maxRetries + 1) 0 ([], none) with
  | mk res fx =>
    rw [hrun] at hp
    simp only at hp
    cases res with
    | none => simpa using hp
    | some cur =>
      cases publishCase <;> simp only [published_append, hp, List.nil_append] <;> rfl

/-- C20 (amended). A task taken from the queue by a worker causes at most one
result to be published on its result channel, never two; it causes exactly one,
carrying the URL and the TrackID of the task, when the context of the pool is
not cancelled and the send on the result channel is taken. So a worker publishes
at most as many results as it took tasks, and exactly one per task, in the order
of the tasks, when no task meets a cancellation or a send that is not taken. -/
theorem worker_results_per_task :
    (∀ (task : DownloadTask) (fetches : Nat → Fetch) (ctxDone : Nat → Bool)
        (publishCase : PublishCase),
      (published (processTask task fetches ctxDone publishCase)).length ≤ 1) ∧
    (∀ (task : DownloadTask) (fetches : Nat → Fetch),
      ∃ r, published (processTask task fetches (fun _ => false) .sent) = [r] ∧
        r.URL = task.URL ∧ r.TrackID = task.TrackID) ∧
    (∀ events : List WorkerEvent,
      (published (worker events)).length ≤ (dequeued events).length) ∧
    (∀ (jobs : List (DownloadTask × (Nat → Fetch))) (tail : List WorkerEvent),
      dequeued tail = [] →
      dequeued (jobs.map (fun job => WorkerEvent.task job.1 job.2 (fun _ => false) .sent) ++ tail)
        = jobs.map (fun job => job.1) ∧
      (published (worker
        (jobs.map (fun job => WorkerEvent.task job.1 job.2 (fun _ => false) .sent) ++ tail))).map
          (fun r => (r.URL, r.TrackID)) =
        jobs.map (fun job => (job.1.URL, job.1.TrackID))) := by
  have h1 : ∀ (task : DownloadTask) (fetches : Nat → Fetch) (ctxDone : Nat → Bool)
      (publishCase : PublishCase),
      (published (processTask task fetches ctxDone publishCase)).length ≤ 1 := by
    intro task fetches ctxDone publishCase
    rw [processTask_published]
    split <;> simp
  have h2 : ∀ (task : DownloadTask) (fetches : Nat → Fetch),
      ∃ r, published (processTask task fetches (fun _ => false) .sent) = [r] ∧
        r.URL = task.URL ∧ r.TrackID = task.TrackID := by
    intro task fetches
    obtain ⟨n, cur, fx, _, hrun, _⟩ := attemptLoop_no_cancel task fetches
    rw [processTask_published, hrun]
    exact ⟨_, rfl, rfl, rfl⟩
  have htail : ∀ tail : List WorkerEvent, dequeued tail = [] → worker tail = [] := by
    intro tail h
    cases tail with
    | nil => rfl
    | cons e es =>
      cases e with
      | ctxDone => rfl
      | closed => rfl
      | task t f c p => simp [dequeued] at h
  refine ⟨h1, h2, ?_, ?_⟩
  · intro events
    induction events with
    | nil => simp [worker, dequeued, published]
    | cons e es ih =>
      cases e with
      | ctxDone => simp [worker, dequeued, published]
      | closed => simp [worker, dequeued, published]
      | task t f c p =>
        simp only [worker, dequeued, published_append, List.length_append, List.length_cons]
        have := h1 t f c p
        omega
  · intro jobs tail ht
    induction jobs with
    | nil =>
      simp only [List.map_nil, List.nil_append, ht, htail tail ht]
      exact ⟨trivial, rfl⟩
    | cons job jobs ih =>
      obtain ⟨r, hr, hu, hid⟩ := h2 job.1 job.2
      obtain ⟨ih1, ih2⟩ := ih
      refine ⟨?_, ?_⟩
      · show job.1 :: dequeued
            (jobs.map (fun job => WorkerEvent.task job.1 job.2 (fun _ => false) .sent) ++ tail) =
          job.1 :: jobs.map (fun job => job.1)
        rw [ih1]
      · show (published (processTask job.1 job.2 (fun _ => false) .sent ++ worker
            (jobs.map (fun job => WorkerEvent.task job.1 job.2 (fun _ => false) .sent) ++
              tail))).map (fun r => (r.URL, r.TrackID)) =
          (job.1.URL, job.1.TrackID) :: jobs.map (fun job => (job.1.URL, job.1.TrackID))
        rw [published_append, hr, List.map_append, ih2]
        simp [hu, hid]

/-- C20 at a concrete input: a worker takes two tasks, nothing is cancelled and
both sends are taken; then the queue is closed. -/
theorem worker_results_per_task_witness :
    dequeued ([] : List WorkerEvent) = [] ∧
    dequeued (([(⟨"u1", "t1"⟩, fun _ => Fetch.response 200 [1] none),
        (⟨"u2", "t2"⟩, fun _ => Fetch.requestError "x")] :
          List (DownloadTask × (Nat → Fetch))).map
        (fun job => WorkerEvent.task job.1 job.2 (fun _ => false) .sent) ++ []) =
      ([(⟨"u1", "t1"⟩, fun _ => Fetch.response 200 [1] none),
        (⟨"u2", "t2"⟩, fun _ => Fetch.requestError "x")] :
          List (DownloadTask × (Nat → Fetch))).map
        (fun job => job.1) ∧
    (published (worker
      (([(⟨"u1", "t1"⟩, fun _ => Fetch.response 200 [1] none),
        (⟨"u2", "t2"⟩, fun _ => Fetch.requestError "x")] :
          List (DownloadTask × (Nat → Fetch))).map
        (fun job => WorkerEvent.task job.1 job.2 (fun _ => false) .sent) ++ []))).map
        (fun r => (r.URL, r.TrackID)) =
      ([(⟨"u1", "t1"⟩, fun _ => Fetch.response 200 [1] none),
        (⟨"u2", "t2"⟩, fun _ => Fetch.requestError "x")] :
          List (DownloadTask × (Nat → Fetch))).map
        (fun job => (job.1.URL, job.1.TrackID)) :=
  ⟨rfl,
    worker_results_per_task.2.2.2
      ([(⟨"u1", "t1"⟩, fun _ => Fetch.response 200 [1] none),
        (⟨"u2", "t2"⟩, fun _ => Fetch.requestError "x")] :
          List (DownloadTask × (Nat → Fetch))) [] rfl⟩

/-- C20, counterexample. A worker takes one task. In the first run the only
attempt that is made fails and the context is cancelled during the wait before
the retry; in the second the download succeeds and the send on the result
channel times out. In both the task is taken and no result is published. -/
theorem worker_task_without_result :
    dequeued [WorkerEvent.task ⟨"u", "t"⟩ (fun _ => Fetch.requestError "x")
      (fun a => decide (a = 1)) .sent] = [⟨"u", "t"⟩] ∧
    worker [WorkerEvent.task ⟨"u", "t"⟩ (fun _ => Fetch.requestError "x")
      (fun a => decide (a = 1)) .sent] =
      [TaskEffect.download "u", TaskEffect.cancelled] ∧
    published (worker [WorkerEvent.task ⟨"u", "t"⟩ (fun _ => Fetch.requestError "x")
      (fun a => decide (a = 1)) .sent]) = [] ∧
    dequeued [WorkerEvent.task ⟨"u", "t"⟩ (fun _ => Fetch.response 200 [1] none)
      (fun _ => false) .timeout] = [⟨"u", "t"⟩] ∧
    published (worker [WorkerEvent.task ⟨"u", "t"⟩ (fun _ => Fetch.response 200 [1] none)
      (fun _ => false) .timeout]) = [] := by
  decide

/-! ## `processTask`: cancellation during a wait -/

/-- C25. If the context of the pool is cancelled during the wait before retry
`k` (`k` is 1, 2 or 3: the attempts before it failed and the waits before them
were not interrupted), `processTask` returns from inside the wait: the
`Download` calls it has made are the `k` calls before the wait and no other,
whatever the remaining attempts would have got; the waits it completed are
those before the retries `1..k-1`; its last effect is the return on
cancellation and no result is published. -/
theorem processTask_aborts_on_cancel (task : DownloadTask) (fetches : Nat → Fetch)
    (ctxDone : Nat → Bool) (publishCase : PublishCase) (k : Nat) (hk1 : 1 ≤ k) (hk : k ≤ 3)
    (hfail : ∀ a, a < k →
      ¬ ((Download (fetches a)).2 = none ∧ (Download (fetches a)).1.length > 0))
    (hrun : ∀ a, 1 ≤ a → a < k → ctxDone a = false)
    (hcancel : ctxDone k = true) :
    downloadCalls (processTask task fetches ctxDone publishCase) = List.replicate k task.URL ∧
    waits (processTask task fetches ctxDone publishCase) =
      (List.range' 1 (k - 1)).map (fun (a : Nat) => (a : Int) * 2 * Second) ∧
    (processTask task fetches ctxDone publishCase).getLast? = some TaskEffect.cancelled ∧
    published (processTask task fetches ctxDone publishCase) = [] := by
  have hk' : k = 1 ∨ k = 2 ∨ k = 3 := by omega
  rcases hk' with rfl | rfl | rfl
  · have f0 := hfail 0 (by omega)
    simp [processTask, attemptLoop, maxRetries, f0, hcancel, downloadCalls, waits, published]
  · have f0 := hfail 0 (by omega)
    have f1 := hfail 1 (by omega)
    have c1 := hrun 1 (by omega) (by omega)
    simp [processTask, attemptLoop, maxRetries, f0, f1, c1, hcancel, downloadCalls, waits,
      published, List.replicate, List.range']
  · have f0 := hfail 0 (by omega)
    have f1 := hfail 1 (by omega)
    have f2 := hfail 2 (by omega)
    have c1 := hrun 1 (by omega) (by omega)
    have c2 := hrun 2 (by omega) (by omega)
    simp [processTask, attemptLoop, maxRetries, f0, f1, f2, c1, c2, hcancel, downloadCalls,
      waits, published, List.replicate, List.range']

/-- C25 at a concrete input: the first attempt fails, the context is cancelled
during the wait before the first retry, and the later attempts would succeed. -/
theorem processTask_aborts_on_cancel_witness :
    ((1 : Nat) ≤ 1 ∧ (1 : Nat) ≤ 3 ∧
      (∀ a, a < 1 →
        ¬ ((Download ((fun a => if a = 0 then Fetch.requestError "x"
              else Fetch.response 200 [1] none) a)).2 = none ∧
          (Download ((fun a => if a = 0 then Fetch.requestError "x"
              else Fetch.response 200 [1] none) a)).1.length > 0)) ∧
      (∀ a, 1 ≤ a → a < 1 → (fun a => decide (a = 1)) a = false) ∧
      (fun a => decide (a = 1)) 1 = true) ∧
    downloadCalls (processTask ⟨"u", "t"⟩
      (fun a => if a = 0 then Fetch.requestError "x" else Fetch.response 200 [1] none)
      (fun a => decide (a = 1)) .sent) = List.replicate 1 "u" ∧
    published (processTask ⟨"u", "t"⟩
      (fun a => if a = 0 then Fetch.requestError "x" else Fetch.response 200 [1] none)
      (fun a => decide (a = 1)) .sent) = [] :=
  ⟨⟨by decide, by decide, by decide, by decide, by decide⟩,
    (processTask_aborts_on_cancel ⟨"u", "t"⟩
      (fun a => if a = 0 then Fetch.requestError "x" else Fetch.response 200 [1] none)
      (fun a => decide (a = 1)) .sent 1 (by decide) (by decide) (by decide) (by decide)
      (by decide)).1,
    (processTask_aborts_on_cancel ⟨"u", "t"⟩
      (fun a => if a = 0 then Fetch.requestError "x" else Fetch.response 200 [1] none)
      (fun a => decide (a = 1)) .sent 1 (by decide) (by decide) (by decide) (by decide)
      (by decide)).2.2.2⟩

/-! ## `StreamProcessURL` with rejected tasks -/

/-- A loop that is still waiting has not met the deadline case. -/
theorem drainLoop_waiting_no_done {σ : Type} (total : Nat) (icb : ImageCallback σ)
    (pcb : ProgressCallback σ) (evs : List Event) :
    ∀ v : LoopVars σ, (drainLoop total icb pcb evs v).status = .waiting → Event.done ∉ evs := by
  induction evs with
  | nil => intro v _ h; cases h
  | cons ev evs ih =>
    intro v hw
    by_cases h : v.downloadedCount < total
    · cases ev with
      | result r =>
        rw [drainLoop_result_of_lt total icb pcb r evs v h] at hw
        have := ih _ hw
        simpa using this
      | tick =>
        rw [drainLoop_tick_of_lt total icb pcb evs v h] at hw
        have := ih _ hw
        simpa using this
      | done =>
        rw [drainLoop_done_of_lt total icb pcb evs v h] at hw
        cases hw
    · rw [drainLoop_of_not_lt total icb pcb (ev :: evs) v h] at hw
      cases hw

/-- With fewer results on the channel than `total`, the loop condition never
becomes false. -/
theorem drainLoop_not_completed_of_few_results {σ : Type} (total : Nat)
    (icb : ImageCallback σ) (pcb : ProgressCallback σ) (evs : List Event) (user : σ)
    (hfew : (results evs).length < total) :
    (drainLoop total icb pcb evs ⟨0, 0, 0, user⟩).status ≠ .completed := by
  intro hc
  by_cases hN : total < 2147483648
  · obtain ⟨_, _, _, hiff⟩ := drainLoop_counts total hN icb pcb evs ⟨0, 0, 0, user⟩ 0 0 rfl rfl
      (le_refl 0) (Nat.zero_le _)
    have hlen := hiff.1 hc
    obtain ⟨consumed, hsplit, hrecv⟩ :=
      drainLoop_consumed total icb pcb evs (⟨0, 0, 0, user⟩ : LoopVars σ)
    have : (results evs).length =
        (results consumed).length +
          (results (drainLoop total icb pcb evs ⟨0, 0, 0, user⟩).rest).length := by
      conv_lhs => rw [hsplit]
      rw [results_append, List.length_append]
    rw [hrecv] at hlen
    omega
  · have hr := drainLoop_downloadedCount_range total icb pcb evs (⟨0, 0, 0, user⟩ : LoopVars σ)
      (by simp)
    have hnot := (drainLoop_status total icb pcb evs (⟨0, 0, 0, user⟩ : LoopVars σ)).2.2.1 hc
    have : (2147483648 : Int) ≤ (total : Int) := by
      have : 2147483648 ≤ total := by omega
      exact_mod_cast this
    omega

/-- C21. Let at least one task of the batch be rejected by `Submit`, so that
fewer tasks are accepted than `total`, and let the results that arrive on the
channel be at most one per accepted task. Then the loop condition, which
compares `downloadedCount` with `total`, never becomes false: `StreamProcessURL`
returns neither `nil` nor "no images were downloaded successfully"; it stays
blocked in the loop while the deadline does not fire, and when the deadline
fires it returns "processing timeout", logging a downloaded count below
`total`. -/
theorem streamProcessURL_rejected_task_times_out {σ : Type} (tracks : List Track)
    (Submit : DownloadTask → Bool) (icb : ImageCallback σ) (pcb : ProgressCallback σ)
    (events : List Event) (user : σ)
    (hrej : (((collectUniqueImages tracks).map taskOf).filter Submit).length <
      (collectUniqueImages tracks).length)
    (henv : (results events).length ≤
      (((collectUniqueImages tracks).map taskOf).filter Submit).length) :
    (StreamProcessURL (.ok tracks) Submit icb pcb events user).ret ≠ .returned none ∧
    (StreamProcessURL (.ok tracks) Submit icb pcb events user).ret ≠
      .returned (some "no images were downloaded successfully") ∧
    (StreamProcessURL (.ok tracks) Submit icb pcb events user).downloadedCount <
      (collectUniqueImages tracks).length ∧
    (Event.done ∉ events →
      (StreamProcessURL (.ok tracks) Submit icb pcb events user).ret = .blocked) ∧
    (Event.done ∈ events →
      (StreamProcessURL (.ok tracks) Submit icb pcb events user).ret =
        .returned (some "processing timeout") ∧
      timeoutLogs (StreamProcessURL (.ok tracks) Submit icb pcb events user).effects =
        [((StreamProcessURL (.ok tracks) Submit icb pcb events user).downloadedCount,
          ((collectUniqueImages tracks).length : Int))]) := by
  have hN : (collectUniqueImages tracks).length ≠ 0 := by omega
  obtain ⟨hret, hd, _, _, _, _, htl⟩ := streamProcessURL_run tracks Submit icb pcb events user
    (collectUniqueImages tracks).length rfl hN
  have hnc := drainLoop_not_completed_of_few_results (collectUniqueImages tracks).length icb pcb
    events user (by omega)
  obtain ⟨_, hlt, _, hlogs, hnodone⟩ := drainLoop_status (collectUniqueImages tracks).length icb
    pcb events (⟨0, 0, 0, user⟩ : LoopVars σ)
  have hwait := drainLoop_waiting_no_done (collectUniqueImages tracks).length icb pcb events
    (⟨0, 0, 0, user⟩ : LoopVars σ)
  rw [hret, hd, htl]
  cases hs : (drainLoop (collectUniqueImages tracks).length icb pcb events
      (⟨0, 0, 0, user⟩ : LoopVars σ)).status with
  | completed => exact absurd hs hnc
  | timedOut =>
    rw [hs] at hlogs hnodone
    refine ⟨by simp, by simp, hlt hnc, fun h => absurd rfl (hnodone h), fun _ => ⟨rfl, ?_⟩⟩
    simpa using hlogs
  | waiting =>
    rw [hs] at hwait
    refine ⟨by simp, by simp, hlt hnc, fun _ => rfl, fun h => absurd h (hwait rfl)⟩

/-- C21 at a concrete input: two images, the second task is rejected, the
result of the first arrives and then the deadline fires. -/
theorem streamProcessURL_rejected_task_times_out_witness :
    ((((collectUniqueImages [sampleTrack "a" ["u1"], sampleTrack "b" ["u2"]]).map
          taskOf).filter (fun task => decide (task.URL = "u1"))).length <
        (collectUniqueImages [sampleTrack "a" ["u1"], sampleTrack "b" ["u2"]]).length ∧
      (results [Event.result (sampleImage 1), Event.done]).length ≤
        (((collectUniqueImages [sampleTrack "a" ["u1"], sampleTrack "b" ["u2"]]).map
          taskOf).filter (fun task => decide (task.URL = "u1"))).length) ∧
    (StreamProcessURL (.ok [sampleTrack "a" ["u1"], sampleTrack "b" ["u2"]])
      (fun task => decide (task.URL = "u1")) (none : ImageCallback Unit) none
      [Event.result (sampleImage 1), Event.done] ()).ret =
      .returned (some "processing timeout") ∧
    timeoutLogs (StreamProcessURL (.ok [sampleTrack "a" ["u1"], sampleTrack "b" ["u2"]])
      (fun task => decide (task.URL = "u1")) (none : ImageCallback Unit) none
      [Event.result (sampleImage 1), Event.done] ()).effects =
      [((StreamProcessURL (.ok [sampleTrack "a" ["u1"], sampleTrack "b" ["u2"]])
          (fun task => decide (task.URL = "u1")) (none : ImageCallback Unit) none
          [Event.result (sampleImage 1), Event.done] ()).downloadedCount,
        ((collectUniqueImages [sampleTrack "a" ["u1"], sampleTrack "b" ["u2"]]).length : Int))] :=
  ⟨⟨by decide, by decide⟩,
    (@streamProcessURL_rejected_task_times_out Unit
      [sampleTrack "a" ["u1"], sampleTrack "b" ["u2"]]
      (fun task => decide (task.URL = "u1")) none none
      [Event.result (sampleImage 1), Event.done] () (by decide) (by decide)).2.2.2.2
      (by decide)⟩

/-! ## `getNextWorker`: the index after the cursor wraps -/

/-- C22 at a failing input. While the cursor after the increment is not
negative, the index `int(cursor) % n` lies in `[0, n)`. With three agents
without failures and the cursor at `2^31 - 1`, the increment wraps to `-2^31`,
Go's truncated remainder gives the index `-2`, which is out of range: the first
step of the scan panics on `s.workerBots[idx]`, `getNextWorker` returns nothing,
and a call of `StreamImage` that mirrors to the log channel panics. -/
theorem getNextWorker_index_after_cursor_wrap :
    (∀ (bots : List BotWorker) (c : Int), bots ≠ [] → 0 ≤ addInt32 c 1 →
      0 ≤ (addInt32 c 1).tmod (bots.length : Int) ∧
        (addInt32 c 1).tmod (bots.length : Int) < (bots.length : Int)) ∧
    addInt32 2147483647 1 = -2147483648 ∧
    (addInt32 2147483647 1).tmod (([⟨0, 0⟩, ⟨0, 0⟩, ⟨0, 0⟩] : List BotWorker).length : Int) = -2 ∧
    (scanWorkers [⟨0, 0⟩, ⟨0, 0⟩, ⟨0, 0⟩] (3 * 2) 2147483647).result = .outOfRange (-2) ∧
    (getNextWorker ⟨[⟨0, 0⟩, ⟨0, 0⟩, ⟨0, 0⟩], 2147483647, 10, 100, 1⟩).selected = .panic ∧
    (StreamImage ⟨[⟨0, 0⟩, ⟨0, 0⟩, ⟨0, 0⟩], 2147483647, 10, 100, 1⟩ 1000 (sampleImage 1) 1 1
      (fun _ => .ok ⟨some ⟨"F"⟩⟩) (fun _ => .ok ⟨none⟩)).outcome = .panicked := by
  refine ⟨?_, by decide, by decide, by decide, by decide, by decide⟩
  intro bots c hne hv
  have hn : 0 < bots.length := List.length_pos.2 hne
  have hnpos : (0 : Int) < (bots.length : Int) := by exact_mod_cast hn
  rw [Int.tmod_eq_emod hv (le_of_lt hnpos)]
  exact ⟨Int.emod_nonneg _ (ne_of_gt hnpos), Int.emod_lt_of_pos _ hnpos⟩

/-! ## Stage 1: the rate limit of an agent -/

theorem lastSendTimes_set_failures (bots : List BotWorker) (idx : Nat) (w : BotWorker)
    (hw : bots[idx]? = some w) (f : Int) :
    (bots.set idx { w with failures := f }).map (fun worker => worker.lastSendTime) =
      bots.map (fun worker => worker.lastSendTime) := by
  rw [List.map_set]
  apply List.ext_getElem?
  intro i
  by_cases hi : idx = i
  · subst hi
    by_cases hlt : idx < bots.length
    · rw [List.getElem?_set_self (by simpa using hlt), List.getElem?_map, hw]
      rfl
    · rw [List.getElem?_eq_none (by simpa using hlt)] at hw
      cases hw
  · rw [List.getElem?_set_ne hi]

/-- Nothing but the rate limit changes a stamp: the selection of an agent and
the updates of the failure counters leave every `lastSendTime` as it was. -/
theorem lastSendTimes_preserved (s : Sender) (worker : Option Nat) :
    lastSendTimes (getNextWorker s).sender = lastSendTimes s ∧
    lastSendTimes (countFailure s worker) = lastSendTimes s ∧
    lastSendTimes (resetFailures s worker) = lastSendTimes s := by
  refine ⟨?_, ?_, ?_⟩
  · unfold getNextWorker lastSendTimes
    split
    · rfl
    · simp only
      split
      · rfl
      · rfl
      · simp only [List.map_map]
        rfl
  · unfold countFailure lastSendTimes
    cases worker with
    | none => rfl
    | some idx =>
      simp only
      split
      · rename_i w hw
        exact lastSendTimes_set_failures s.workerBots idx w hw _
      · rfl
  · unfold resetFailures lastSendTimes
    cases worker with
    | none => rfl
    | some idx =>
      simp only
      split
      · rename_i w hw
        exact lastSendTimes_set_failures s.workerBots idx w hw _
      · rfl

/-- C23. On the explicit clock, the rate-limit step of stage 1 for the agent `w`
at position `idx`, started at the instant `now`: it sleeps exactly
`max(0, messageInterval - (now - w.lastSendTime))` (no sleep at all when that is
0), the clock then reads `now` plus that duration, and `w.lastSendTime` is set
to this reading, which is at least `messageInterval` after the previous stamp of
`w`. The failure counter of `w`, the other agents and the interval are left as
they were; since no other step of stage 1 changes a stamp, two consecutive
stamps of the same agent are at least `messageInterval` apart. -/
theorem rateLimit_stamps_apart (s : Sender) (now : Int) (idx : Nat) (w : BotWorker)
    (hw : s.workerBots[idx]? = some w) :
    sleeps (rateLimit s now (some idx)).2.2 =
      (if 0 < s.messageInterval - (now - w.lastSendTime) then
        [s.messageInterval - (now - w.lastSendTime)] else []) ∧
    (rateLimit s now (some idx)).2.1 =
      now + max 0 (s.messageInterval - (now - w.lastSendTime)) ∧
    (rateLimit s now (some idx)).1.workerBots[idx]? =
      some ⟨(rateLimit s now (some idx)).2.1, w.failures⟩ ∧
    s.messageInterval ≤ (rateLimit s now (some idx)).2.1 - w.lastSendTime ∧
    (∀ j : Nat, j ≠ idx → (rateLimit s now (some idx)).1.workerBots[j]? = s.workerBots[j]?) ∧
    (rateLimit s now (some idx)).1.messageInterval = s.messageInterval ∧
    (∀ (s2 : Sender) (worker : Option Nat),
      lastSendTimes (getNextWorker s2).sender = lastSendTimes s2 ∧
      lastSendTimes (countFailure s2 worker) = lastSendTimes s2 ∧
      lastSendTimes (resetFailures s2 worker) = lastSendTimes s2) := by
  have hlt : idx < s.workerBots.length := by
    by_contra h
    rw [List.getElem?_eq_none (by omega)] at hw
    cases hw
  refine ⟨?_, ?_, ?_, ?_, ?_, ?_, lastSendTimes_preserved⟩
  all_goals unfold rateLimit
  all_goals simp only [hw]
  all_goals by_cases h : now - w.lastSendTime < s.messageInterval
  all_goals simp only [h, if_true, if_false]
  · have : 0 < s.messageInterval - (now - w.lastSendTime) := by omega
    simp [sleeps, this]
  · have : ¬ 0 < s.messageInterval - (now - w.lastSendTime) := by omega
    simp [sleeps, this]
  · unfold timeSleep
    have : ¬ s.messageInterval - (now - w.lastSendTime) ≤ 0 := by omega
    rw [if_neg this, max_eq_right (by omega)]
  · rw [max_eq_left (by omega)]
    omega
  · rw [List.getElem?_set_self (by simpa using hlt)]
  · rw [List.getElem?_set_self (by simpa using hlt)]
  · unfold timeSleep
    have : ¬ s.messageInterval - (now - w.lastSendTime) ≤ 0 := by omega
    rw [if_neg this]
    omega
  · omega
  · intro j hj
    rw [List.getElem?_set_ne (Ne.symm hj)]
  · intro j hj
    rw [List.getElem?_set_ne (Ne.symm hj)]

/-- C23 at a concrete input: interval 100, last stamp 950, clock 1000: the step
sleeps 50 and stamps 1050. -/
theorem rateLimit_stamps_apart_witness :
    (⟨[⟨950, 2⟩, ⟨0, 0⟩], 0, 10, 100, 1⟩ : Sender).workerBots[0]? = some ⟨950, 2⟩ ∧
    sleeps (rateLimit ⟨[⟨950, 2⟩, ⟨0, 0⟩], 0, 10, 100, 1⟩ 1000 (some 0)).2.2 = [50] ∧
    (rateLimit ⟨[⟨950, 2⟩, ⟨0, 0⟩], 0, 10, 100, 1⟩ 1000 (some 0)).1.workerBots[0]? =
      some ⟨1050, 2⟩ ∧
    (⟨[⟨950, 2⟩, ⟨0, 0⟩], 0, 10, 100, 1⟩ : Sender).messageInterval ≤
      (rateLimit ⟨[⟨950, 2⟩, ⟨0, 0⟩], 0, 10, 100, 1⟩ 1000 (some 0)).2.1 -
        (⟨950, 2⟩ : BotWorker).lastSendTime :=
  ⟨by decide, by decide, by decide,
    (rateLimit_stamps_apart ⟨[⟨950, 2⟩, ⟨0, 0⟩], 0, 10, 100, 1⟩ 1000 0 ⟨950, 2⟩
      (by decide)).2.2.2.1⟩

/-! ## `StreamImage`: images that are not sent -/

/-- C27. For every image whose `Data` is empty or longer than the threshold
`maxFileSize` (the value of `int64(s.maxFileSizeMB * 1024 * 1024)`, which is
`maxFileSizeMB × 1024 × 1024` whenever that product fits 64 bits), `StreamImage`
returns `nil` at once: the sender is left as it was, so no agent is selected
(the cursor is unchanged) and no failure counter or stamp changes; nothing is
sent to the log channel or to the recipient and nothing is slept. The closure
`imageCallback` of `HandleMessage` then adds one to `sentCount` although
nothing was delivered. -/
theorem streamImage_skips_unsendable (s : Sender) (now : Int) (img : ImageData)
    (index total : Int) (logSends userSends : Nat → SendOutcome)
    (h : img.Data.length = 0 ∨ (img.Data.length : Int) > maxFileSize s) :
    StreamImage s now img index total logSends userSends = ⟨.returned none, ⟨s, now, ""⟩, []⟩ ∧
    (StreamImage s now img index total logSends userSends).st.sender.currentWorker =
      s.currentWorker ∧
    failureCounts (StreamImage s now img index total logSends userSends).st.sender =
      failureCounts s ∧
    lastSendTimes (StreamImage s now img index total logSends userSends).st.sender =
      lastSendTimes s ∧
    logSendsMade (StreamImage s now img index total logSends userSends).effects = [] ∧
    userSendsMade (StreamImage s now img index total logSends userSends).effects = [] ∧
    (∀ sentCount : Int,
      HandleMessage.imageCallback s now sentCount img index total logSends userSends =
        ⟨.returned none, addInt32 sentCount 1, ⟨s, now, ""⟩, []⟩ ∧
      (0 ≤ sentCount → sentCount < 2147483647 → addInt32 sentCount 1 = sentCount + 1)) ∧
    (-8796093022208 ≤ s.maxFileSizeMB → s.maxFileSizeMB < 8796093022208 →
      maxFileSize s = s.maxFileSizeMB * 1024 * 1024) := by
  have hrun : StreamImage s now img index total logSends userSends =
      ⟨.returned none, ⟨s, now, ""⟩, []⟩ := by
    unfold StreamImage
    by_cases h1 : (img.Data.length : Int) > maxFileSize s
    · simp only [h1, if_true]
    · have h0 : img.Data.length = 0 := by
        rcases h with h | h
        · exact h
        · exact absurd h h1
      rw [if_neg h1, if_pos h0]
  refine ⟨hrun, by rw [hrun], by rw [hrun], by rw [hrun], by rw [hrun]; rfl, by rw [hrun]; rfl,
    ?_, ?_⟩
  · intro sentCount
    refine ⟨?_, fun h0 h1 => addInt32_one_of_lt sentCount h0 h1⟩
    unfold HandleMessage.imageCallback
    rw [hrun]
  · intro h0 h1
    unfold maxFileSize wrapInt64
    omega

/-- C27 at a concrete input: a limit of 0 MB and an image of 1 byte, which is
longer than the limit. -/
theorem streamImage_skips_unsendable_witness :
    ((sampleImage 1).Data.length = 0 ∨
      ((sampleImage 1).Data.length : Int) > maxFileSize ⟨[⟨0, 0⟩], 0, 0, 0, 1⟩) ∧
    StreamImage ⟨[⟨0, 0⟩], 0, 0, 0, 1⟩ 1000 (sampleImage 1) 1 1 (fun _ => .ok ⟨some ⟨"F"⟩⟩)
      (fun _ => .ok ⟨none⟩) = ⟨.returned none, ⟨⟨[⟨0, 0⟩], 0, 0, 0, 1⟩, 1000, ""⟩, []⟩ ∧
    HandleMessage.imageCallback ⟨[⟨0, 0⟩], 0, 0, 0, 1⟩ 1000 4 (sampleImage 1) 1 1
      (fun _ => .ok ⟨some ⟨"F"⟩⟩) (fun _ => .ok ⟨none⟩) =
      ⟨.returned none, addInt32 4 1, ⟨⟨[⟨0, 0⟩], 0, 0, 0, 1⟩, 1000, ""⟩, []⟩ ∧
    addInt32 4 1 = 5 :=
  ⟨Or.inr (by decide),
    (streamImage_skips_unsendable ⟨[⟨0, 0⟩], 0, 0, 0, 1⟩ 1000 (sampleImage 1) 1 1
      (fun _ => .ok ⟨some ⟨"F"⟩⟩) (fun _ => .ok ⟨none⟩) (Or.inr (by decide))).1,
    ((streamImage_skips_unsendable ⟨[⟨0, 0⟩], 0, 0, 0, 1⟩ 1000 (sampleImage 1) 1 1
      (fun _ => .ok ⟨some ⟨"F"⟩⟩) (fun _ => .ok ⟨none⟩) (Or.inr (by decide))).2.2.2.2.2.2.1
      4).1,
    by decide⟩

/-! ## `Submit` after `Shutdown` -/

/-- C26 at a failing input. After `Shutdown`, both cases of the `select` of
`Submit` can proceed: the channel `p.tasks` is closed and the context is
cancelled. When the runtime picks the receive from `p.ctx.Done()`, `Submit`
returns false and the queue is left as it was; when it picks the send,
`Submit` panics with "send on closed channel". This holds for every pool that
was running; it is evaluated on a pool of capacity 10 with an empty queue. -/
theorem submit_after_shutdown_may_panic :
    (∀ (p q : WorkerPool) (task : DownloadTask), p.Shutdown = some q →
      q.Submit task .done = (q, .returned false) ∧ q.Submit task .send = (q, .panic)) ∧
    (⟨[], 10, false, false⟩ : WorkerPool).Shutdown = some ⟨[], 10, true, true⟩ ∧
    (⟨[], 10, true, true⟩ : WorkerPool).Submit ⟨"u", "t"⟩ .send = (⟨[], 10, true, true⟩, .panic) := by
  refine ⟨?_, by decide, by decide⟩
  intro p q task h
  unfold WorkerPool.Shutdown at h
  split at h
  · cases h
  · simp only [Option.some.injEq] at h
    subst h
    constructor <;> simp [WorkerPool.Submit]

/-! ## The result channel: capacity and close -/

theorem publishes_append (a b : List ChanEvent) :
    publishes (a ++ b) = publishes a ++ publishes b := by
  simp [publishes, List.filterMap_append]

theorem loopEvents_append (a b : List ChanEvent) :
    loopEvents (a ++ b) = loopEvents a ++ loopEvents b := by
  simp [loopEvents, List.filterMap_append]

/-- The buffer after a trace in two parts. -/
theorem buffered_append (a b : List ChanEvent) :
    ∀ buffer : List ImageData,
      buffered (a ++ b) buffer = (buffered a buffer).bind (buffered b) := by
  induction a with
  | nil => intro buffer; rfl
  | cons e a ih =>
    intro buffer
    cases e with
    | publish r => simp only [List.cons_append, buffered]; exact ih _
    | loop ev =>
      cases ev with
      | result r =>
        simp only [List.cons_append, buffered]
        cases buffer with
        | nil => rfl
        | cons first others =>
          simp only
          split
          · exact ih _
          · rfl
      | tick => simp only [List.cons_append, buffered]; exact ih _
      | done => simp only [List.cons_append, buffered]; exact ih _

/-- What is buffered is what was sent and not yet received. -/
theorem buffered_length (trace : List ChanEvent) :
    ∀ buffer rest : List ImageData, buffered trace buffer = some rest →
      rest.length + (results (loopEvents trace)).length =
        buffer.length + (publishes trace).length := by
  induction trace with
  | nil =>
    intro buffer rest h
    simp only [buffered, Option.some.injEq] at h
    subst h
    simp [loopEvents, publishes, results]
  | cons e trace ih =>
    intro buffer rest h
    cases e with
    | publish r =>
      simp only [buffered] at h
      have := ih _ _ h
      have e1 : publishes (ChanEvent.publish r :: trace) = r :: publishes trace := rfl
      have e2 : loopEvents (ChanEvent.publish r :: trace) = loopEvents trace := rfl
      rw [e1, e2]
      simp only [List.length_append, List.length_cons, List.length_nil] at this ⊢
      omega
    | loop ev =>
      have e1 : publishes (ChanEvent.loop ev :: trace) = publishes trace := rfl
      have e2 : loopEvents (ChanEvent.loop ev :: trace) = ev :: loopEvents trace := rfl
      rw [e1, e2]
      cases ev with
      | result r =>
        simp only [buffered] at h
        cases buffer with
        | nil => simp at h
        | cons first others =>
          simp only at h
          split at h
          · have := ih _ _ h
            have e3 : results (Event.result r :: loopEvents trace) =
                r :: results (loopEvents trace) := rfl
            rw [e3]
            simp only [List.length_cons] at this ⊢
            omega
          · cases h
      | tick =>
        simp only [buffered] at h
        have := ih _ _ h
        have e3 : results (Event.tick :: loopEvents trace) = results (loopEvents trace) := rfl
        rw [e3]; exact this
      | done =>
        simp only [buffered] at h
        have := ih _ _ h
        have e3 : results (Event.done :: loopEvents trace) = results (loopEvents trace) := rfl
        rw [e3]; exact this

/-- The runs of `processTask` send at most one result per job. -/
theorem jobResults_length (jobs : List Job) : (jobResults jobs).length ≤ jobs.length := by
  induction jobs with
  | nil => simp [jobResults]
  | cons job jobs ih =>
    have h1 : (published (processTask job.task job.fetches job.ctxDone job.publishCase)).length
        ≤ 1 := by
      rw [processTask_published]
      split <;> simp
    have e : jobResults (job :: jobs) =
        published (processTask job.task job.fetches job.ctxDone job.publishCase) ++
          jobResults jobs := by
      simp [jobResults, List.flatMap_cons]
    rw [e, List.length_append, List.length_cons]
    omega

/-- A run that returns `nil` or "no images were downloaded successfully" has
left the drain loop by its condition, after `total` results, and its last
effect is the close of the channel. -/
theorem streamProcessURL_closed {σ : Type} (tracks : List Track)
    (Submit : DownloadTask → Bool) (icb : ImageCallback σ) (pcb : ProgressCallback σ)
    (events : List Event) (user : σ)
    (hret : (StreamProcessURL (.ok tracks) Submit icb pcb events user).ret = .returned none ∨
      (StreamProcessURL (.ok tracks) Submit icb pcb events user).ret =
        .returned (some "no images were downloaded successfully")) :
    (collectUniqueImages tracks).length ≤ (results events).length ∧
    (StreamProcessURL (.ok tracks) Submit icb pcb events user).effects.getLast? =
      some Effect.closeChan := by
  have ht : tracks.length ≠ 0 := by
    intro h0
    unfold StreamProcessURL at hret
    simp only [h0, if_true] at hret
    rcases hret with h | h
    · cases h
    · simp only [Return.returned.injEq, Option.some.injEq] at h
      revert h
      decide
  have hN : (collectUniqueImages tracks).length ≠ 0 := by
    intro h0
    unfold StreamProcessURL at hret
    simp only [ht, h0, if_true, if_false] at hret
    rcases hret with h | h
    · cases h
    · simp only [Return.returned.injEq, Option.some.injEq] at h
      revert h
      decide
  obtain ⟨hr, _⟩ := streamProcessURL_run tracks Submit icb pcb events user
    (collectUniqueImages tracks).length rfl hN
  have hc : (drainLoop (collectUniqueImages tracks).length icb pcb events
      (⟨0, 0, 0, user⟩ : LoopVars σ)).status = .completed := by
    rw [hr] at hret
    cases hs : (drainLoop (collectUniqueImages tracks).length icb pcb events
        (⟨0, 0, 0, user⟩ : LoopVars σ)).status with
    | completed => rfl
    | timedOut =>
      rw [hs] at hret
      rcases hret with h | h
      · cases h
      · simp only [Return.returned.injEq, Option.some.injEq] at h
        revert h
        decide
    | waiting =>
      rw [hs] at hret
      rcases hret with h | h <;> cases h
  constructor
  · by_contra hlt
    exact drainLoop_not_completed_of_few_results _ icb pcb events user (by omega) hc
  · unfold StreamProcessURL
    simp only [ht, hN, if_false, hc]
    split <;> simp

/-- C24. The result channel of a batch is created with capacity exactly `total`.
Take any course of events on it: sends by runs of `processTask` for tasks that
`Submit` accepted, each task processed at most once, and the cases taken by the
drain loop, in an order a channel allows. Then at most `total` results are ever
sent; the number of results buffered never exceeds `total`; each send finds
fewer than `total` results buffered, so it never finds the channel full; and
once `StreamProcessURL` has left the loop by its condition and closed the
channel (it returns `nil`, or "no images were downloaded successfully"), no
result is sent any more. -/
theorem result_channel_within_capacity {σ : Type} (tracks : List Track)
    (Submit : DownloadTask → Bool) (icb : ImageCallback σ) (pcb : ProgressCallback σ) (user : σ)
    (jobs : List Job) (trace : List ChanEvent)
    (hjobs : (jobs.map (fun job => job.task)).Subperm
      (((collectUniqueImages tracks).map taskOf).filter Submit))
    (hpub : (publishes trace).Subperm (jobResults jobs))
    (hchan : buffered trace [] ≠ none) :
    channelsMade (StreamProcessURL (.ok tracks) Submit icb pcb (loopEvents trace) user).effects =
      (if (collectUniqueImages tracks).length = 0 then []
        else [(collectUniqueImages tracks).length]) ∧
    (publishes trace).length ≤ (collectUniqueImages tracks).length ∧
    (∀ pre post : List ChanEvent, trace = pre ++ post →
      ∃ buffer, buffered pre [] = some buffer ∧
        buffer.length ≤ (collectUniqueImages tracks).length) ∧
    (∀ (pre post : List ChanEvent) (r : ImageData), trace = pre ++ ChanEvent.publish r :: post →
      ∃ buffer, buffered pre [] = some buffer ∧
        buffer.length < (collectUniqueImages tracks).length) ∧
    (∀ pre post : List ChanEvent, trace = pre ++ post →
      ((StreamProcessURL (.ok tracks) Submit icb pcb (loopEvents pre) user).ret =
          .returned none ∨
        (StreamProcessURL (.ok tracks) Submit icb pcb (loopEvents pre) user).ret =
          .returned (some "no images were downloaded successfully")) →
      (StreamProcessURL (.ok tracks) Submit icb pcb (loopEvents pre) user).effects.getLast? =
        some Effect.closeChan ∧
      publishes post = []) := by
  have hcount : (publishes trace).length ≤ (collectUniqueImages tracks).length := by
    have h1 := hpub.length_le
    have h2 := jobResults_length jobs
    have h3 := hjobs.length_le
    have h4 := List.length_filter_le Submit ((collectUniqueImages tracks).map taskOf)
    simp only [List.length_map] at h3 h4
    omega
  have hpre : ∀ pre post : List ChanEvent, trace = pre ++ post →
      ∃ buffer, buffered pre [] = some buffer ∧
        buffer.length + (results (loopEvents pre)).length = (publishes pre).length ∧
        (publishes pre).length + (publishes post).length = (publishes trace).length := by
    intro pre post hsplit
    have hb := hchan
    rw [hsplit, buffered_append] at hb
    cases hbuf : buffered pre [] with
    | none => rw [hbuf] at hb; exact absurd rfl hb
    | some buffer =>
      refine ⟨buffer, rfl, ?_, ?_⟩
      · have := buffered_length pre [] buffer hbuf
        simpa using this
      · rw [hsplit, publishes_append, List.length_append]
  refine ⟨channelsMade_streamProcessURL tracks Submit icb pcb (loopEvents trace) user, hcount,
    ?_, ?_, ?_⟩
  · intro pre post hsplit
    obtain ⟨buffer, hbuf, hlen, hsum⟩ := hpre pre post hsplit
    exact ⟨buffer, hbuf, by omega⟩
  · intro pre post r hsplit
    obtain ⟨buffer, hbuf, hlen, hsum⟩ := hpre pre (ChanEvent.publish r :: post) hsplit
    have e1 : publishes (ChanEvent.publish r :: post) = r :: publishes post := rfl
    rw [e1, List.length_cons] at hsum
    exact ⟨buffer, hbuf, by omega⟩
  · intro pre post hsplit hret
    obtain ⟨buffer, hbuf, hlen, hsum⟩ := hpre pre post hsplit
    obtain ⟨hall, hlast⟩ := streamProcessURL_closed tracks Submit icb pcb (loopEvents pre) user hret
    refine ⟨hlast, ?_⟩
    apply List.eq_nil_of_length_eq_zero
    omega

/-- C24 at a concrete input: two images, both tasks accepted and downloaded at
the first attempt; each result is sent and then received. -/
theorem result_channel_within_capacity_witness :
    (([⟨⟨"u1", "t1"⟩, fun _ => Fetch.response 200 [1] none, fun _ => false, .sent⟩,
          ⟨⟨"u2", "t2"⟩, fun _ => Fetch.response 200 [2] none, fun _ => false, .sent⟩] :
          List Job).map (fun job => job.task)).Subperm
        (((collectUniqueImages [sampleTrack "t1" ["u1"], sampleTrack "t2" ["u2"]]).map
          taskOf).filter (fun _ => true)) ∧
    (publishes [ChanEvent.publish ⟨[1], "", "u1", "t1"⟩,
        ChanEvent.loop (Event.result ⟨[1], "", "u1", "t1"⟩),
        ChanEvent.publish ⟨[2], "", "u2", "t2"⟩,
        ChanEvent.loop (Event.result ⟨[2], "", "u2", "t2"⟩)]).Subperm
      (jobResults
        [⟨⟨"u1", "t1"⟩, fun _ => Fetch.response 200 [1] none, fun _ => false, .sent⟩,
          ⟨⟨"u2", "t2"⟩, fun _ => Fetch.response 200 [2] none, fun _ => false, .sent⟩]) ∧
    buffered [ChanEvent.publish ⟨[1], "", "u1", "t1"⟩,
        ChanEvent.loop (Event.result ⟨[1], "", "u1", "t1"⟩),
        ChanEvent.publish ⟨[2], "", "u2", "t2"⟩,
        ChanEvent.loop (Event.result ⟨[2], "", "u2", "t2"⟩)] [] ≠ none ∧
    (publishes [ChanEvent.publish ⟨[1], "", "u1", "t1"⟩,
        ChanEvent.loop (Event.result ⟨[1], "", "u1", "t1"⟩),
        ChanEvent.publish ⟨[2], "", "u2", "t2"⟩,
        ChanEvent.loop (Event.result ⟨[2], "", "u2", "t2"⟩)]).length ≤
      (collectUniqueImages [sampleTrack "t1" ["u1"], sampleTrack "t2" ["u2"]]).length ∧
    (collectUniqueImages [sampleTrack "t1" ["u1"], sampleTrack "t2" ["u2"]]).length = 2 ∧
    (StreamProcessURL (.ok [sampleTrack "t1" ["u1"], sampleTrack "t2" ["u2"]]) (fun _ => true)
      (none : ImageCallback Unit) none
      (loopEvents [ChanEvent.publish ⟨[1], "", "u1", "t1"⟩,
        ChanEvent.loop (Event.result ⟨[1], "", "u1", "t1"⟩),
        ChanEvent.publish ⟨[2], "", "u2", "t2"⟩,
        ChanEvent.loop (Event.result ⟨[2], "", "u2", "t2"⟩)]) ()).ret = .returned none :=
  ⟨(List.Perm.refl _).subperm, (List.Perm.refl _).subperm, by decide,
    (@result_channel_within_capacity Unit [sampleTrack "t1" ["u1"], sampleTrack "t2" ["u2"]]
      (fun _ => true) none none ()
      [⟨⟨"u1", "t1"⟩, fun _ => Fetch.response 200 [1] none, fun _ => false, .sent⟩,
        ⟨⟨"u2", "t2"⟩, fun _ => Fetch.response 200 [2] none, fun _ => false, .sent⟩]
      [ChanEvent.publish ⟨[1], "", "u1", "t1"⟩,
        ChanEvent.loop (Event.result ⟨[1], "", "u1", "t1"⟩),
        ChanEvent.publish ⟨[2], "", "u2", "t2"⟩,
        ChanEvent.loop (Event.result ⟨[2], "", "u2", "t2"⟩)]
      (List.Perm.refl _).subperm (List.Perm.refl _).subperm (by decide)).2.1,
    by decide, by decide⟩

/-! ## Spotify links -/

/-- A character of the class `[a-zA-Z0-9]` is neither a slash nor a question
mark. -/
theorem isAlphanum_ne (c : Char) (h : c.isAlphanum = true) : c ≠ '/' ∧ c ≠ '?' := by
  constructor <;>
  · rintro rfl
    revert h
    decide

/-- A pattern that holds a character missing from `s` is not a prefix of `s`. -/
theorem not_prefix_of_not_mem (x : Char) (s p : List Char) (hs : ∀ c ∈ s, c ≠ x) (hp : x ∈ p) :
    ¬ p <+: s := by
  intro h
  exact hs x (h.subset hp) rfl

/-- A pattern that begins with a character missing from `s` does not occur in
`s`. -/
theorem stringsIndex_none_of_not_mem (x : Char) (p : List Char) :
    ∀ s : List Char, (∀ c ∈ s, c ≠ x) → stringsIndex s (x :: p) = none := by
  intro s
  induction s with
  | nil => intro _; simp [stringsIndex]
  | cons c cs ih =>
    intro h
    have hc : c ≠ x := h c (List.mem_cons_self c cs)
    have hcs := ih (fun d hd => h d (List.mem_cons_of_mem c hd))
    simp [stringsIndex, hcs, Ne.symm hc]

/-- The run of `[a-zA-Z0-9]` taken from a text made of such characters is the
whole text. -/
theorem takeWhile_isAlphanum_self (id : List Char) (hal : ∀ c ∈ id, c.isAlphanum = true) :
    id.takeWhile Char.isAlphanum = id :=
  List.takeWhile_eq_self_iff.2 hal

/-- What `DetectURLType` and `ExtractID` give on a link made of a scheme, the
host, a kind and an identifier of the class `[a-zA-Z0-9]`. -/
theorem spotifyLink_resolves (id : List Char) (hne : id ≠ [])
    (hal : ∀ c ∈ id, c.isAlphanum = true) (scheme kind : String)
    (hs : scheme = "http" ∨ scheme = "https")
    (hk : kind = "track" ∨ kind = "album" ∨ kind = "playlist") :
    CleanURL ⟨scheme.data ++ "://open.spotify.com/".data ++ kind.data ++ '/' :: id⟩ =
      ⟨scheme.data ++ "://open.spotify.com/".data ++ kind.data ++ '/' :: id⟩ ∧
    DetectURLType ⟨scheme.data ++ "://open.spotify.com/".data ++ kind.data ++ '/' :: id⟩ = kind ∧
    ExtractID ⟨scheme.data ++ "://open.spotify.com/".data ++ kind.data ++ '/' :: id⟩ kind =
      .ok ⟨id⟩ := by
  have h1 : ∀ c ∈ id, c ≠ '/' := fun c hc => (isAlphanum_ne c (hal c hc)).1
  have h2 : ∀ c ∈ id, c ≠ '?' := fun c hc => (isAlphanum_ne c (hal c hc)).2
  have q : stringsIndex id ['?'] = none := stringsIndex_none_of_not_mem '?' [] id h2
  have s1 : ∀ p : List Char, stringsIndex id ('/' :: p) = none :=
    fun p => stringsIndex_none_of_not_mem '/' p id h1
  have n1 : ∀ p : List Char, '/' ∈ p → (p <+: id) = False :=
    fun p hp => eq_false (not_prefix_of_not_mem '/' id p h1 hp)
  have n2 : ∀ p : List Char, '?' ∈ p → (p <+: id) = False :=
    fun p hp => eq_false (not_prefix_of_not_mem '?' id p h2 hp)
  have tw := takeWhile_isAlphanum_self id hal
  rcases hs with rfl | rfl <;> rcases hk with rfl | rfl | rfl <;>
    simp [CleanURL, DetectURLType, ExtractID, stringsContains, stringsIndex, findID, matchIDAt,
      q, s1, n1, n2, tw, hne]

/-- The text matched by `(track|album|playlist)/[a-zA-Z0-9]+`. -/
theorem matchKindID_shape (s m : List Char) (h : matchKindID s = some m) :
    ∃ (kind : String) (id : List Char),
      (kind = "track" ∨ kind = "album" ∨ kind = "playlist") ∧ id ≠ [] ∧
      (∀ c ∈ id, c.isAlphanum = true) ∧ m = kind.data ++ '/' :: id := by
  unfold matchKindID at h
  obtain ⟨kind, hkind, hm⟩ := List.exists_of_findSome?_eq_some h
  have hk : kind = "track" ∨ kind = "album" ∨ kind = "playlist" := by
    simpa using hkind
  split at hm
  · simp only at hm
    split at hm
    · cases hm
    · rename_i hne
      simp only [Option.some.injEq] at hm
      exact ⟨kind, _, hk, hne, fun c hc => List.mem_takeWhile_imp hc, hm.symm⟩
  · cases hm

/-- The text matched by the pattern of `FindSpotifyURL` at one position. -/
theorem matchSpotifyURLAt_shape (s m : List Char) (h : matchSpotifyURLAt s = some m) :
    ∃ (scheme kind : String) (id : List Char),
      (scheme = "http" ∨ scheme = "https") ∧
      (kind = "track" ∨ kind = "album" ∨ kind = "playlist") ∧ id ≠ [] ∧
      (∀ c ∈ id, c.isAlphanum = true) ∧
      m = scheme.data ++ "://open.spotify.com/".data ++ kind.data ++ '/' :: id := by
  have hhost : ∀ (r m1 : List Char), matchHostPath r = some m1 →
      ∃ (kind : String) (id : List Char),
        (kind = "track" ∨ kind = "album" ∨ kind = "playlist") ∧ id ≠ [] ∧
        (∀ c ∈ id, c.isAlphanum = true) ∧
        m1 = "://open.spotify.com/".data ++ kind.data ++ '/' :: id := by
    intro r m1 hr
    unfold matchHostPath at hr
    split at hr
    · simp only [Option.map_eq_some'] at hr
      obtain ⟨m2, hm2, rfl⟩ := hr
      obtain ⟨kind, id, hk, hne, hal, rfl⟩ := matchKindID_shape _ m2 hm2
      exact ⟨kind, id, hk, hne, hal, by simp⟩
    · cases hr
  unfold matchSpotifyURLAt at h
  split at h
  · simp only at h
    split at h
    · rename_i m0 hwith
      simp only [Option.some.injEq] at h
      subst h
      split at hwith
      · simp only [Option.map_eq_some'] at hwith
        obtain ⟨m1, hm1, rfl⟩ := hwith
        obtain ⟨kind, id, hk, hne, hal, rfl⟩ := hhost _ m1 hm1
        exact ⟨"https", kind, id, Or.inr rfl, hk, hne, hal, by simp⟩
      · cases hwith
    · simp only [Option.map_eq_some'] at h
      obtain ⟨m1, hm1, rfl⟩ := h
      obtain ⟨kind, id, hk, hne, hal, rfl⟩ := hhost _ m1 hm1
      exact ⟨"http", kind, id, Or.inl rfl, hk, hne, hal, by simp⟩
  · cases h

/-- The leftmost match in a text is empty or has the shape of a link. -/
theorem findSpotifyURL_shape (s : List Char) :
    findSpotifyURL s = [] ∨
    ∃ (scheme kind : String) (id : List Char),
      (scheme = "http" ∨ scheme = "https") ∧
      (kind = "track" ∨ kind = "album" ∨ kind = "playlist") ∧ id ≠ [] ∧
      (∀ c ∈ id, c.isAlphanum = true) ∧
      findSpotifyURL s = scheme.data ++ "://open.spotify.com/".data ++ kind.data ++ '/' :: id := by
  induction s with
  | nil => exact Or.inl rfl
  | cons c cs ih =>
    rw [findSpotifyURL]
    cases hm : matchSpotifyURLAt (c :: cs) with
    | none => simpa using ih
    | some m => exact Or.inr (by simpa using matchSpotifyURLAt_shape _ m hm)

/-- C28. For every text, if `FindSpotifyURL` returns a non-empty URL `u`, then
`u` is "http" or "https", "://open.spotify.com/", a kind among "track", "album"
and "playlist", a slash and a non-empty identifier of the class `[a-zA-Z0-9]`,
with which it ends; `DetectURLType(u)` is that kind, never "unknown";
`ExtractID(u, DetectURLType(u))` succeeds and returns exactly that identifier;
and `GetTracks` on `u` is the lookup of that kind for that identifier, so it
fails only when the lookup fails, never with an extraction or unsupported-type
error. -/
theorem findSpotifyURL_resolves (text : String) (h : FindSpotifyURL text ≠ "") :
    ∃ (scheme kind id : String),
      (scheme = "http" ∨ scheme = "https") ∧
      (kind = "track" ∨ kind = "album" ∨ kind = "playlist") ∧
      id ≠ "" ∧ (∀ c ∈ id.data, c.isAlphanum = true) ∧
      FindSpotifyURL text = scheme ++ "://open.spotify.com/" ++ kind ++ "/" ++ id ∧
      DetectURLType (FindSpotifyURL text) = kind ∧
      DetectURLType (FindSpotifyURL text) ≠ "unknown" ∧
      ExtractID (FindSpotifyURL text) (DetectURLType (FindSpotifyURL text)) = .ok id ∧
      ∀ (GetTrack : String → Except String Track)
        (GetAlbumTracks GetPlaylistTracks : String → Except String (List Track)),
        (kind = "track" →
          GetTracks (FindSpotifyURL text) GetTrack GetAlbumTracks GetPlaylistTracks =
            (GetTrack id).map (fun track => ([track], id, "track"))) ∧
        (kind = "album" →
          GetTracks (FindSpotifyURL text) GetTrack GetAlbumTracks GetPlaylistTracks =
            (GetAlbumTracks id).map (fun tracks => (tracks, id, "album"))) ∧
        (kind = "playlist" →
          GetTracks (FindSpotifyURL text) GetTrack GetAlbumTracks GetPlaylistTracks =
            (GetPlaylistTracks id).map (fun tracks => (tracks, id, "playlist"))) := by
  rcases findSpotifyURL_shape text.data with hnil | ⟨scheme, kind, id, hs, hk, hne, hal, hu⟩
  · exact absurd (by unfold FindSpotifyURL; rw [hnil]) h
  · have hurl : FindSpotifyURL text =
        ⟨scheme.data ++ "://open.spotify.com/".data ++ kind.data ++ '/' :: id⟩ := by
      unfold FindSpotifyURL
      rw [hu]
    obtain ⟨_, hdet, hext⟩ := spotifyLink_resolves id hne hal scheme kind hs hk
    have hunk : kind ≠ "unknown" := by
      rcases hk with rfl | rfl | rfl <;> decide
    refine ⟨scheme, kind, ⟨id⟩, hs, hk, ?_, hal, ?_, ?_, ?_, ?_, ?_⟩
    · intro h0
      exact hne (congrArg String.data h0)
    · rw [hurl]
      apply String.ext
      simp [String.data_append]
    · rw [hurl]; exact hdet
    · rw [hurl, hdet]; exact hunk
    · rw [hurl, hdet]; exact hext
    · intro GetTrack GetAlbumTracks GetPlaylistTracks
      rw [hurl]
      refine ⟨?_, ?_, ?_⟩
      · rintro rfl
        unfold GetTracks
        simp only [hdet, hext, if_true]
        cases GetTrack ⟨id⟩ <;> rfl
      · rintro rfl
        unfold GetTracks
        simp only [hdet, hext]
        cases GetAlbumTracks ⟨id⟩ <;> rfl
      · rintro rfl
        unfold GetTracks
        simp only [hdet, hext]
        cases GetPlaylistTracks ⟨id⟩ <;> rfl

/-- C28 at a concrete input: a message that holds an album link with a query
string. -/
theorem findSpotifyURL_resolves_witness :
    FindSpotifyURL "see https://open.spotify.com/album/4aawyAB9vmqN3uQ7FjRGTy?si=abc" ≠ "" ∧
    FindSpotifyURL "see https://open.spotify.com/album/4aawyAB9vmqN3uQ7FjRGTy?si=abc" =
      "https://open.spotify.com/album/4aawyAB9vmqN3uQ7FjRGTy" ∧
    ∃ (scheme kind id : String),
      (scheme = "http" ∨ scheme = "https") ∧
      (kind = "track" ∨ kind = "album" ∨ kind = "playlist") ∧
      id ≠ "" ∧ (∀ c ∈ id.data, c.isAlphanum = true) ∧
      FindSpotifyURL "see https://open.spotify.com/album/4aawyAB9vmqN3uQ7FjRGTy?si=abc" =
        scheme ++ "://open.spotify.com/" ++ kind ++ "/" ++ id ∧
      DetectURLType
        (FindSpotifyURL "see https://open.spotify.com/album/4aawyAB9vmqN3uQ7FjRGTy?si=abc") =
        kind ∧
      DetectURLType
        (FindSpotifyURL "see https://open.spotify.com/album/4aawyAB9vmqN3uQ7FjRGTy?si=abc") ≠
        "unknown" ∧
      ExtractID
        (FindSpotifyURL "see https://open.spotify.com/album/4aawyAB9vmqN3uQ7FjRGTy?si=abc")
        (DetectURLType
          (FindSpotifyURL "see https://open.spotify.com/album/4aawyAB9vmqN3uQ7FjRGTy?si=abc")) =
        .ok id ∧
      ∀ (GetTrack : String → Except String Track)
        (GetAlbumTracks GetPlaylistTracks : String → Except String (List Track)),
        (kind = "track" →
          GetTracks
            (FindSpotifyURL "see https://open.spotify.com/album/4aawyAB9vmqN3uQ7FjRGTy?si=abc")
            GetTrack GetAlbumTracks GetPlaylistTracks =
            (GetTrack id).map (fun track => ([track], id, "track"))) ∧
        (kind = "album" →
          GetTracks
            (FindSpotifyURL "see https://open.spotify.com/album/4aawyAB9vmqN3uQ7FjRGTy?si=abc")
            GetTrack GetAlbumTracks GetPlaylistTracks =
            (GetAlbumTracks id).map (fun tracks => (tracks, id, "album"))) ∧
        (kind = "playlist" →
          GetTracks
            (FindSpotifyURL "see https://open.spotify.com/album/4aawyAB9vmqN3uQ7FjRGTy?si=abc")
            GetTrack GetAlbumTracks GetPlaylistTracks =
            (GetPlaylistTracks id).map (fun tracks => (tracks, id, "playlist"))) :=
  ⟨by decide, by decide,
    findSpotifyURL_resolves "see https://open.spotify.com/album/4aawyAB9vmqN3uQ7FjRGTy?si=abc"
      (by decide)⟩

end Image2Spotify
